import Mathlib

/-!
# FrisbeeTakedown: a shallow embedding of the simulation core

The C sources (`enemy.c`, `frisbee.c`, `player.c`, `game.c`) are embedded as
Lean functions.  Conventions of the embedding:

* `float` values are rationals (`ℚ`): rounding, infinities and NaN are outside
  the model.  Decimal constants such as `0.8f` are the rationals they denote.
* `int` values are `Int`; no value in the program comes near the 32-bit range,
  and signed overflow (undefined in C) is outside the model.
* The C library (`sqrtf`, `cosf`, `sinf`, `rand`) is not part of the
  repository.  The three real functions are fields of a `Libm` value and the
  generator is a stream `rand : Nat → Nat` (the value of the k-th call) together
  with a count of the calls made so far.  Theorems hold for every such library
  unless they state a hypothesis about it.
* raylib / raymath helpers (`Vector3Add`, `Vector3Distance`,
  `CheckCollisionBoxSphere`, ...) are written out from their library source.
* The enemy array is a list; a read or write at an index outside the array is
  undefined behaviour in C and makes the embedded operation return `none`.
* Drawing and audio calls have no effect on the simulated state and are left
  out, except that the `rand()` calls made to pick a sound advance the
  generator.
-/

set_option autoImplicit false

namespace FrisbeeTakedown

/-! ## C library and raylib types -/

/-- The three `libm` functions the program calls, over the rationals. -/
structure Libm where
  sqrtf : ℚ → ℚ
  cosf : ℚ → ℚ
  sinf : ℚ → ℚ

/-- raylib `Vector2`. -/
structure Vector2 where
  x : ℚ
  y : ℚ
deriving DecidableEq, Repr

/-- raylib `Vector3`. -/
structure Vector3 where
  x : ℚ
  y : ℚ
  z : ℚ
deriving DecidableEq, Repr

/-- raylib `BoundingBox`. -/
structure BoundingBox where
  min : Vector3
  max : Vector3
deriving DecidableEq, Repr

/-- raylib `Camera3D`. -/
structure Camera where
  position : Vector3
  target : Vector3
  up : Vector3
  fovy : ℚ
  projection : Int
deriving DecidableEq, Repr

/-- raymath `Vector3Add`. -/
def Vector3Add (v1 v2 : Vector3) : Vector3 :=
  ⟨v1.x + v2.x, v1.y + v2.y, v1.z + v2.z⟩

/-- raymath `Vector3Subtract`. -/
def Vector3Subtract (v1 v2 : Vector3) : Vector3 :=
  ⟨v1.x - v2.x, v1.y - v2.y, v1.z - v2.z⟩

/-- raymath `Vector3Scale`. -/
def Vector3Scale (v : Vector3) (scalar : ℚ) : Vector3 :=
  ⟨v.x * scalar, v.y * scalar, v.z * scalar⟩

/-- raymath `Vector3Distance`: `sqrtf(dx*dx + dy*dy + dz*dz)` with
`d = v2 - v1`. -/
def Vector3Distance (m : Libm) (v1 v2 : Vector3) : ℚ :=
  let dx := v2.x - v1.x
  let dy := v2.y - v1.y
  let dz := v2.z - v1.z
  m.sqrtf (dx * dx + dy * dy + dz * dz)

/-- raymath `Vector3Normalize`: scales by `1/length` unless the length is
zero. -/
def Vector3Normalize (m : Libm) (v : Vector3) : Vector3 :=
  let length := m.sqrtf (v.x * v.x + v.y * v.y + v.z * v.z)
  if length ≠ 0 then
    let ilength := 1 / length
    ⟨v.x * ilength, v.y * ilength, v.z * ilength⟩
  else v

/-- raylib `CheckCollisionBoxSphere`: the squared distance from the centre to
the box, compared with the squared radius. -/
def CheckCollisionBoxSphere (box : BoundingBox) (center : Vector3) (radius : ℚ) : Bool :=
  let dmin : ℚ := 0
  let dmin := if center.x < box.min.x then dmin + (center.x - box.min.x) ^ 2
    else if center.x > box.max.x then dmin + (center.x - box.max.x) ^ 2 else dmin
  let dmin := if center.y < box.min.y then dmin + (center.y - box.min.y) ^ 2
    else if center.y > box.max.y then dmin + (center.y - box.max.y) ^ 2 else dmin
  let dmin := if center.z < box.min.z then dmin + (center.z - box.min.z) ^ 2
    else if center.z > box.max.z then dmin + (center.z - box.max.z) ^ 2 else dmin
  decide (dmin ≤ radius * radius)

/-! ## enemy.h / enemy.c -/

def MAX_ENEMIES : Nat := 15
def ENEMY_SPEED : ℚ := 3.0
def ENEMY_COLLISION_RADIUS : ℚ := 0.8
def ENEMY_MAX_HEALTH : Int := 2
def ENEMY_ATTACK_COOLDOWN : ℚ := 1.0

/-- The struct `Enemy`. -/
structure Enemy where
  position : Vector3
  health : Int
  alive : Bool
  attackCooldown : ℚ
  walkPhase : ℚ
deriving DecidableEq, Repr

/-- The struct `EnemyManager`; `enemies` stands for the array
`Enemy enemies[MAX_ENEMIES]`. -/
structure EnemyManager where
  enemies : List Enemy
  count : Int
  aliveCount : Int
deriving DecidableEq, Repr

/-- An all-zero `Enemy`, as left by the initialiser `{0}`. -/
def Enemy.zero : Enemy :=
  { position := ⟨0, 0, 0⟩, health := 0, alive := false, attackCooldown := 0, walkPhase := 0 }

/-- An all-zero `EnemyManager`, as left by the initialiser `{0}`. -/
def EnemyManager.zero : EnemyManager :=
  { enemies := List.replicate MAX_ENEMIES Enemy.zero, count := 0, aliveCount := 0 }

/-- The function `GetTreePosition(index)` for the loop indices `0 ≤ index`. -/
def GetTreePosition (index : Nat) : Vector3 :=
  let x : ℚ := ((index % 5 : Nat) : ℚ) * 15.0 - 30.0
  let z : ℚ := ((index / 5 : Nat) : ℚ) * 15.0 - 30.0
  ⟨x, 0.0, z⟩

/-- The tree loop of `IsPositionValid`, run over the list of remaining
indices. -/
def IsPositionValid.trees (m : Libm) (pos : Vector3) : List Nat → Bool
  | [] => true
  | i :: rest =>
    let treePos := GetTreePosition i
    let distToTree := m.sqrtf ((pos.x - treePos.x) * (pos.x - treePos.x) +
                               (pos.z - treePos.z) * (pos.z - treePos.z))
    if distToTree < 4.0 then false
    else IsPositionValid.trees m pos rest

/-- The function `IsPositionValid(pos, playerStart)`. -/
def IsPositionValid (m : Libm) (pos playerStart : Vector3) : Bool :=
  let distToPlayer := m.sqrtf ((pos.x - playerStart.x) * (pos.x - playerStart.x) +
                               (pos.z - playerStart.z) * (pos.z - playerStart.z))
  if distToPlayer < 15.0 then false
  else if pos.x < -45.0 ∨ pos.x > 45.0 ∨ pos.z < -45.0 ∨ pos.z > 45.0 then false
  else IsPositionValid.trees m pos (List.range 20)

/-- The `do ... while` loop of `InitEnemyManager` that looks for a spawn
position.  `k` is the number of `rand()` calls made so far and `attempts` the
loop counter; the result is the position kept, the new call count and the final
value of `attempts`.  `fuel` bounds the number of iterations (100 suffice, see
`spawn_spec`). -/
def InitEnemyManager.spawn (m : Libm) (rand : Nat → Nat) (playerStart : Vector3) :
    Nat → Nat → Nat → Option (Vector3 × Nat × Nat)
  | 0, _, _ => none
  | fuel + 1, k, attempts =>
    let spawnPos : Vector3 :=
      ⟨((rand k % 80 : Nat) : ℚ) - 40.0, 0.0, ((rand (k + 1) % 80 : Nat) : ℚ) - 40.0⟩
    let attempts := attempts + 1
    if !(IsPositionValid m spawnPos playerStart) && decide (attempts < 100) then
      InitEnemyManager.spawn m rand playerStart fuel (k + 2) attempts
    else some (spawnPos, k + 2, attempts)

/-- The `for` loop of `InitEnemyManager`, run over the list of remaining
indices; the state is the manager and the number of `rand()` calls so far. -/
def InitEnemyManager.loop (m : Libm) (rand : Nat → Nat) (playerStart : Vector3) :
    List Nat → EnemyManager → Nat → Option (EnemyManager × Nat)
  | [], manager, k => some (manager, k)
  | i :: rest, manager, k =>
    if i < manager.enemies.length then
      let walkPhase : ℚ := ((rand k % 100 : Nat) : ℚ) / 100.0 * 6.28
      match InitEnemyManager.spawn m rand playerStart 100 (k + 1) 0 with
      | none => none
      | some (spawnPos, k', _) =>
        let enemy : Enemy :=
          { position := spawnPos, health := ENEMY_MAX_HEALTH, alive := true,
            attackCooldown := 0.0, walkPhase := walkPhase }
        InitEnemyManager.loop m rand playerStart rest
          { manager with enemies := manager.enemies.set i enemy } k'
    else none

/-- The function `InitEnemyManager(enemyCount)`; `k` is the number of `rand()` calls made
before the call, and the second component of the result the number after it. -/
def InitEnemyManager (m : Libm) (rand : Nat → Nat) (k : Nat) (enemyCount : Int) :
    Option (EnemyManager × Nat) :=
  let manager : EnemyManager :=
    { EnemyManager.zero with count := enemyCount, aliveCount := enemyCount }
  let playerStart : Vector3 := ⟨0.0, 0.0, 4.0⟩
  InitEnemyManager.loop m rand playerStart (List.range enemyCount.toNat) manager k

/-- One pass of the tree-avoidance loop body of `UpdateEnemies` for tree `t`. -/
def UpdateEnemies.push (m : Libm) (dt : ℚ) (position : Vector3) (t : Nat) : Vector3 :=
  let treePos := GetTreePosition t
  let distToTree := m.sqrtf ((position.x - treePos.x) * (position.x - treePos.x) +
                             (position.z - treePos.z) * (position.z - treePos.z))
  if distToTree < 2.5 ∧ distToTree > 0.01 then
    let pushX := (position.x - treePos.x) / distToTree
    let pushZ := (position.z - treePos.z) / distToTree
    let pushStrength := (2.5 - distToTree) * 2.0
    { position with x := position.x + pushX * pushStrength * dt,
                    z := position.z + pushZ * pushStrength * dt }
  else position

/-- The body of the `for` loop of `UpdateEnemies` for one enemy. -/
def UpdateEnemies.body (m : Libm) (playerPosition : Vector3) (dt : ℚ) (enemy : Enemy) : Enemy :=
  if !enemy.alive then enemy
  else
    let toPlayer : Vector3 :=
      ⟨playerPosition.x - enemy.position.x, 0.0, playerPosition.z - enemy.position.z⟩
    let dist := m.sqrtf (toPlayer.x * toPlayer.x + toPlayer.z * toPlayer.z)
    let position : Vector3 :=
      if dist > 0.1 then
        let toPlayer : Vector3 := ⟨toPlayer.x / dist, toPlayer.y, toPlayer.z / dist⟩
        { enemy.position with x := enemy.position.x + toPlayer.x * ENEMY_SPEED * dt,
                              z := enemy.position.z + toPlayer.z * ENEMY_SPEED * dt }
      else enemy.position
    let position := (List.range 20).foldl (UpdateEnemies.push m dt) position
    let position := if position.x < -48.0 then { position with x := -48.0 } else position
    let position := if position.x > 48.0 then { position with x := 48.0 } else position
    let position := if position.z < -48.0 then { position with z := -48.0 } else position
    let position := if position.z > 48.0 then { position with z := 48.0 } else position
    let attackCooldown :=
      if enemy.attackCooldown > 0.0 then enemy.attackCooldown - dt else enemy.attackCooldown
    let walkPhase := enemy.walkPhase + dt * 10.0
    let walkPhase := if walkPhase > 6.28 then walkPhase - 6.28 else walkPhase
    { enemy with position := position, attackCooldown := attackCooldown, walkPhase := walkPhase }

/-- The `for` loop of `UpdateEnemies`, run over the list of remaining
indices. -/
def UpdateEnemies.loop (m : Libm) (playerPosition : Vector3) (dt : ℚ) :
    List Nat → EnemyManager → Option EnemyManager
  | [], manager => some manager
  | i :: rest, manager =>
    match manager.enemies[i]? with
    | none => none
    | some enemy =>
      UpdateEnemies.loop m playerPosition dt rest
        { manager with enemies := manager.enemies.set i (UpdateEnemies.body m playerPosition dt enemy) }

/-- The function `UpdateEnemies(manager, playerPosition, dt)`. -/
def UpdateEnemies (m : Libm) (manager : EnemyManager) (playerPosition : Vector3) (dt : ℚ) :
    Option EnemyManager :=
  UpdateEnemies.loop m playerPosition dt (List.range manager.count.toNat) manager

/-- The `for` loop of `CheckFrisbeeEnemyCollision`, run over the list of
remaining indices; the second component of the result is the returned `int`. -/
def CheckFrisbeeEnemyCollision.loop (m : Libm) (frisbeePos : Vector3) (frisbeeRadius : ℚ) :
    List Nat → EnemyManager → Option (EnemyManager × Int)
  | [], manager => some (manager, 0)
  | i :: rest, manager =>
    match manager.enemies[i]? with
    | none => none
    | some enemy =>
      if !enemy.alive then CheckFrisbeeEnemyCollision.loop m frisbeePos frisbeeRadius rest manager
      else
        let enemyCenter : Vector3 :=
          ⟨enemy.position.x, enemy.position.y + 1.0, enemy.position.z⟩
        let dist := Vector3Distance m frisbeePos enemyCenter
        if dist < frisbeeRadius + ENEMY_COLLISION_RADIUS then
          let enemy := { enemy with health := enemy.health - 1 }
          if enemy.health ≤ 0 then
            some ({ manager with enemies := manager.enemies.set i { enemy with alive := false },
                                 aliveCount := manager.aliveCount - 1 }, 2)
          else some ({ manager with enemies := manager.enemies.set i enemy }, 1)
        else CheckFrisbeeEnemyCollision.loop m frisbeePos frisbeeRadius rest manager

/-- The function `CheckFrisbeeEnemyCollision(manager, frisbeePos, frisbeeRadius)`: the
manager after the call and the returned code (0 no hit, 1 damaged, 2 killed). -/
def CheckFrisbeeEnemyCollision (m : Libm) (manager : EnemyManager) (frisbeePos : Vector3)
    (frisbeeRadius : ℚ) : Option (EnemyManager × Int) :=
  CheckFrisbeeEnemyCollision.loop m frisbeePos frisbeeRadius
    (List.range manager.count.toNat) manager

/-- The `for` loop of `CheckEnemyPlayerCollision`, run over the list of
remaining indices with the running `totalDamage`. -/
def CheckEnemyPlayerCollision.loop (m : Libm) (playerPos : Vector3) (playerRadius : ℚ) :
    List Nat → EnemyManager → Int → Option (EnemyManager × Int)
  | [], manager, totalDamage => some (manager, totalDamage)
  | i :: rest, manager, totalDamage =>
    match manager.enemies[i]? with
    | none => none
    | some enemy =>
      if !enemy.alive then
        CheckEnemyPlayerCollision.loop m playerPos playerRadius rest manager totalDamage
      else
        let dist := m.sqrtf ((playerPos.x - enemy.position.x) * (playerPos.x - enemy.position.x) +
                             (playerPos.z - enemy.position.z) * (playerPos.z - enemy.position.z))
        let attackRange := playerRadius + ENEMY_COLLISION_RADIUS
        if dist < attackRange ∧ enemy.attackCooldown ≤ 0.0 then
          CheckEnemyPlayerCollision.loop m playerPos playerRadius rest
            { manager with
              enemies := manager.enemies.set i { enemy with attackCooldown := ENEMY_ATTACK_COOLDOWN } }
            (totalDamage + 1)
        else CheckEnemyPlayerCollision.loop m playerPos playerRadius rest manager totalDamage

/-- The function `CheckEnemyPlayerCollision(manager, playerPos, playerRadius, dt)`: the
manager after the call and the returned `totalDamage`; `dt` is unused. -/
def CheckEnemyPlayerCollision (m : Libm) (manager : EnemyManager) (playerPos : Vector3)
    (playerRadius : ℚ) (_dt : ℚ) : Option (EnemyManager × Int) :=
  CheckEnemyPlayerCollision.loop m playerPos playerRadius
    (List.range manager.count.toNat) manager 0

/-! ## player.h / player.c -/

def PLAYER_MAX_HEALTH : Int := 5
def PLAYER_COLLISION_RADIUS : ℚ := 0.5
def PLAYER_HEIGHT : ℚ := 2.0
def WALK_SPEED : ℚ := 5.0
def SPRINT_SPEED : ℚ := 10.0
def JUMP_FORCE : ℚ := 8.0
def GRAVITY : ℚ := 20.0
def MOUSE_SENSITIVITY : ℚ := 0.003
def GROUND_LEVEL : ℚ := 0.0

/-- raylib `PI`. -/
def PI : ℚ := 3.14159265358979323846

/-- raylib `DEG2RAD`. -/
def DEG2RAD : ℚ := PI / 180.0

/-- The struct `Player`. -/
structure Player where
  position : Vector3
  velocityY : ℚ
  isGrounded : Bool
  yaw : ℚ
  pitch : ℚ
  throwTimer : ℚ
  isThrowing : Bool
  chargeTime : ℚ
  isCharging : Bool
  health : Int
  maxHealth : Int
  damageFlash : ℚ
deriving DecidableEq, Repr

/-- What the raylib input queries return during one frame. -/
structure Input where
  /-- Value of `GetFrameTime()` -/
  frameTime : ℚ
  /-- Value of `GetMouseDelta()` -/
  mouseDelta : Vector2
  /-- Value of `GetKeyPressed()` -/
  keyPressed : Int
  /-- Value of `IsKeyDown(KEY_W)` and so on -/
  downW : Bool
  downS : Bool
  downA : Bool
  downD : Bool
  downLeftShift : Bool
  /-- Value of `IsKeyPressed(KEY_SPACE)` and so on -/
  pressedSpace : Bool
  pressedUp : Bool
  pressedLeft : Bool
  pressedDown : Bool
  pressedRight : Bool
  pressedOne : Bool
  pressedTwo : Bool
  pressedThree : Bool
  pressedEnter : Bool
  pressedQ : Bool
  pressedEscape : Bool
  /-- Value of `IsMouseButtonPressed(MOUSE_LEFT_BUTTON)` and so on -/
  mouseLeftPressed : Bool
  mouseLeftDown : Bool
  mouseLeftReleased : Bool
deriving DecidableEq, Repr

/-- The function `InitPlayer()`. -/
def InitPlayer : Player :=
  { position := ⟨0.0, PLAYER_HEIGHT, 4.0⟩
    velocityY := 0.0
    isGrounded := true
    yaw := -90.0 * DEG2RAD
    pitch := 0.0
    throwTimer := 0.0
    isThrowing := false
    chargeTime := 0.0
    isCharging := false
    health := PLAYER_MAX_HEALTH
    maxHealth := PLAYER_MAX_HEALTH
    damageFlash := 0.0 }

/-- The function `UpdatePlayer(player, camera)`; the frame's input is `inp`. -/
def UpdatePlayer (m : Libm) (inp : Input) (player : Player) (camera : Camera) : Player × Camera :=
  let dt := inp.frameTime
  -- Mouse look
  let mouseDelta := inp.mouseDelta
  let yaw := player.yaw + mouseDelta.x * MOUSE_SENSITIVITY
  let pitch := player.pitch - mouseDelta.y * MOUSE_SENSITIVITY
  -- Clamp pitch
  let pitch := if pitch > 89.0 * DEG2RAD then 89.0 * DEG2RAD else pitch
  let pitch := if pitch < -89.0 * DEG2RAD then -89.0 * DEG2RAD else pitch
  let forward : Vector3 := ⟨m.cosf yaw, 0.0, m.sinf yaw⟩
  let right : Vector3 := ⟨m.cosf (yaw + PI / 2.0), 0.0, m.sinf (yaw + PI / 2.0)⟩
  -- Movement input
  let moveDir : Vector3 := ⟨0, 0, 0⟩
  let moveDir := if inp.downW then
    { moveDir with x := moveDir.x + forward.x, z := moveDir.z + forward.z } else moveDir
  let moveDir := if inp.downS then
    { moveDir with x := moveDir.x - forward.x, z := moveDir.z - forward.z } else moveDir
  let moveDir := if inp.downD then
    { moveDir with x := moveDir.x + right.x, z := moveDir.z + right.z } else moveDir
  let moveDir := if inp.downA then
    { moveDir with x := moveDir.x - right.x, z := moveDir.z - right.z } else moveDir
  -- Normalize movement direction
  let length := m.sqrtf (moveDir.x * moveDir.x + moveDir.z * moveDir.z)
  let moveDir := if length > 0.0 then
    { moveDir with x := moveDir.x / length, z := moveDir.z / length } else moveDir
  -- Sprint
  let speed := if inp.downLeftShift then SPRINT_SPEED else WALK_SPEED
  -- Apply horizontal movement
  let position : Vector3 :=
    { player.position with x := player.position.x + moveDir.x * speed * dt,
                           z := player.position.z + moveDir.z * speed * dt }
  -- Jump
  let jump := inp.pressedSpace && player.isGrounded
  let velocityY := if jump then JUMP_FORCE else player.velocityY
  let isGrounded := if jump then false else player.isGrounded
  -- Apply gravity
  let velocityY := velocityY - GRAVITY * dt
  let position := { position with y := position.y + velocityY * dt }
  -- Ground collision
  let landed := decide (position.y ≤ PLAYER_HEIGHT + GROUND_LEVEL)
  let position := if landed then { position with y := PLAYER_HEIGHT + GROUND_LEVEL } else position
  let velocityY := if landed then 0.0 else velocityY
  let isGrounded := if landed then true else isGrounded
  -- Update camera position and target
  let lookDir : Vector3 :=
    ⟨m.cosf yaw * m.cosf pitch, m.sinf pitch, m.sinf yaw * m.cosf pitch⟩
  let camera := { camera with
    position := position
    target := ⟨position.x + lookDir.x, position.y + lookDir.y, position.z + lookDir.z⟩ }
  ({ player with position := position, velocityY := velocityY, isGrounded := isGrounded,
                 yaw := yaw, pitch := pitch }, camera)

/-! ## frisbee.h / frisbee.c -/

def FRISBEE_GRAVITY : ℚ := 9.8
def FRISBEE_DRAG : ℚ := 0.5
def FRISBEE_RADIUS : ℚ := 0.15
def MIN_THROW_SPEED : ℚ := 10.0
def MAX_THROW_SPEED : ℚ := 35.0
def THROW_DURATION : ℚ := 0.3

/-- The struct `Frisbee`. -/
structure Frisbee where
  position : Vector3
  velocity : Vector3
  rotation : ℚ
  inFlight : Bool
deriving DecidableEq, Repr

/-- The function `InitFrisbee()`. -/
def InitFrisbee : Frisbee :=
  { position := ⟨0.0, 1.0, 0.0⟩, velocity := ⟨0.0, 0.0, 0.0⟩, rotation := 0.0, inFlight := false }

/-- The function `ThrowFrisbee(frisbee, player, camera, chargePercent)`. -/
def ThrowFrisbee (m : Libm) (frisbee : Frisbee) (player : Player) (camera : Camera)
    (chargePercent : ℚ) : Frisbee × Player :=
  let forward := Vector3Normalize m (Vector3Subtract camera.target camera.position)
  let throwSpeed := MIN_THROW_SPEED + (MAX_THROW_SPEED - MIN_THROW_SPEED) * chargePercent
  let velocity := Vector3Scale forward throwSpeed
  let velocity := { velocity with y := velocity.y + 2.0 * chargePercent }
  ({ frisbee with inFlight := true, position := camera.position, velocity := velocity },
   { player with isThrowing := true, throwTimer := THROW_DURATION })

/-- The function `ResetFrisbee(frisbee)`. -/
def ResetFrisbee (frisbee : Frisbee) : Frisbee :=
  { frisbee with inFlight := false, velocity := ⟨0, 0, 0⟩, rotation := 0.0 }

/-- The `for` loop of `CheckTreeCollision`, run over the list of remaining
indices. -/
def CheckTreeCollision.loop (frisbee : Frisbee) : List Nat → Bool
  | [] => false
  | i :: rest =>
    let x : ℚ := ((i % 5 : Nat) : ℚ) * 15.0 - 30.0
    let z : ℚ := ((i / 5 : Nat) : ℚ) * 15.0 - 30.0
    let height : ℚ := 2.0 + ((i % 3 : Nat) : ℚ)
    let trunk : BoundingBox :=
      { min := ⟨x - 0.5, 0.0, z - 0.5⟩, max := ⟨x + 0.5, height, z + 0.5⟩ }
    if CheckCollisionBoxSphere trunk frisbee.position FRISBEE_RADIUS then true
    else
      let foliage : BoundingBox :=
        { min := ⟨x - 1.5, height, z - 1.5⟩, max := ⟨x + 1.5, height + 3.0, z + 1.5⟩ }
      if CheckCollisionBoxSphere foliage frisbee.position FRISBEE_RADIUS then true
      else CheckTreeCollision.loop frisbee rest

/-- The function `CheckTreeCollision(frisbee)`. -/
def CheckTreeCollision (frisbee : Frisbee) : Bool :=
  CheckTreeCollision.loop frisbee (List.range 20)

/-- The function `CheckWallCollision(frisbee)`. -/
def CheckWallCollision (frisbee : Frisbee) : Bool :=
  let northWall : BoundingBox := { min := ⟨-50.0, 0.0, -51.0⟩, max := ⟨50.0, 1.0, -49.0⟩ }
  let southWall : BoundingBox := { min := ⟨-50.0, 0.0, 49.0⟩, max := ⟨50.0, 1.0, 51.0⟩ }
  let eastWall : BoundingBox := { min := ⟨49.0, 0.0, -50.0⟩, max := ⟨51.0, 1.0, 50.0⟩ }
  let westWall : BoundingBox := { min := ⟨-51.0, 0.0, -50.0⟩, max := ⟨-49.0, 1.0, 50.0⟩ }
  CheckCollisionBoxSphere northWall frisbee.position FRISBEE_RADIUS ||
  CheckCollisionBoxSphere southWall frisbee.position FRISBEE_RADIUS ||
  CheckCollisionBoxSphere eastWall frisbee.position FRISBEE_RADIUS ||
  CheckCollisionBoxSphere westWall frisbee.position FRISBEE_RADIUS

/-- The function `UpdateFrisbee(frisbee, dt)`. -/
def UpdateFrisbee (frisbee : Frisbee) (dt : ℚ) : Frisbee :=
  if !frisbee.inFlight then frisbee
  else
    -- Apply gravity
    let frisbee := { frisbee with
      velocity := { frisbee.velocity with y := frisbee.velocity.y - FRISBEE_GRAVITY * dt } }
    -- Apply drag
    let frisbee := { frisbee with
      velocity := Vector3Scale frisbee.velocity (1.0 - FRISBEE_DRAG * dt) }
    -- Update position
    let frisbee := { frisbee with
      position := Vector3Add frisbee.position (Vector3Scale frisbee.velocity dt) }
    -- Spin rotation
    let frisbee := { frisbee with rotation := frisbee.rotation + 720.0 * dt }
    -- Ground collision
    if frisbee.position.y ≤ 0.1 then ResetFrisbee frisbee
    -- Tree collision
    else if CheckTreeCollision frisbee then ResetFrisbee frisbee
    -- Wall collision
    else if CheckWallCollision frisbee then ResetFrisbee frisbee
    else frisbee

/-! ## game.h / game.c -/

/-- The enum `GameState`. -/
inductive GameState where
  | STATE_TITLE
  | STATE_LEVEL_SELECT
  | STATE_PLAYING
  | STATE_GAME_OVER
  | STATE_VICTORY
deriving DecidableEq, Repr

/-- The struct `Game` without its audio handles.  `randCalls` is the number of
`rand()` calls made so far, the hidden state of the C library's generator. -/
structure Game where
  state : GameState
  selectedLevel : Int
  enemiesRemaining : Int
  camera : Camera
  frisbee : Frisbee
  player : Player
  enemies : EnemyManager
  randCalls : Nat
deriving DecidableEq, Repr

def LEVEL_ENEMY_COUNTS : List Int := [5, 10, 15]
def MAX_CHARGE_TIME : ℚ := 1.0

/-- The array read `LEVEL_ENEMY_COUNTS[index]`. -/
def levelEnemyCount (index : Int) : Option Int :=
  if index < 0 then none else LEVEL_ENEMY_COUNTS[index.toNat]?

/-- The function `InitGame()`; `initCamera` is the value of `InitCamera()`, whose source
(`camera.c`) is not part of the embedded files. -/
def InitGame (initCamera : Camera) : Game :=
  { state := GameState.STATE_TITLE
    selectedLevel := 1
    enemiesRemaining := 0
    camera := initCamera
    frisbee := InitFrisbee
    player := InitPlayer
    enemies := EnemyManager.zero
    randCalls := 0 }

/-- The function `UpdateTitleScreen(game)`. -/
def UpdateTitleScreen (inp : Input) (game : Game) : Game :=
  if inp.keyPressed ≠ 0 then { game with state := GameState.STATE_LEVEL_SELECT } else game

/-- The level start shared by `UpdateLevelSelect` and `UpdateVictory`: the
block run when ENTER is pressed, from the table lookup to
`game->state = STATE_PLAYING`. -/
def startLevel (m : Libm) (rand : Nat → Nat) (initCamera : Camera) (game : Game) : Option Game :=
  match levelEnemyCount (game.selectedLevel - 1) with
  | none => none
  | some enemyCount =>
    match InitEnemyManager m rand game.randCalls enemyCount with
    | none => none
    | some (enemies, k) =>
      some { game with
        enemiesRemaining := enemyCount
        camera := initCamera
        frisbee := InitFrisbee
        player := InitPlayer
        enemies := enemies
        randCalls := k
        state := GameState.STATE_PLAYING }

/-- The function `UpdateLevelSelect(game)`. -/
def UpdateLevelSelect (m : Libm) (rand : Nat → Nat) (initCamera : Camera) (inp : Input)
    (game : Game) : Option Game :=
  let game :=
    if inp.pressedUp || inp.pressedLeft then
      let game := { game with selectedLevel := game.selectedLevel - 1 }
      if game.selectedLevel < 1 then { game with selectedLevel := 3 } else game
    else game
  let game :=
    if inp.pressedDown || inp.pressedRight then
      let game := { game with selectedLevel := game.selectedLevel + 1 }
      if game.selectedLevel > 3 then { game with selectedLevel := 1 } else game
    else game
  let game := if inp.pressedOne then { game with selectedLevel := 1 } else game
  let game := if inp.pressedTwo then { game with selectedLevel := 2 } else game
  let game := if inp.pressedThree then { game with selectedLevel := 3 } else game
  if inp.pressedEnter then startLevel m rand initCamera game else some game

/-- Part of `UpdatePlaying`, the block "Handle charge and throw input". -/
def UpdatePlaying.chargeThrow (m : Libm) (inp : Input) (game : Game) : Game :=
  let dt := inp.frameTime
  if !game.frisbee.inFlight && !game.player.isThrowing then
    let game :=
      if inp.mouseLeftPressed then
        { game with player := { game.player with isCharging := true, chargeTime := 0.0 } }
      else game
    let game :=
      if game.player.isCharging && inp.mouseLeftDown then
        let chargeTime := game.player.chargeTime + dt
        let chargeTime := if chargeTime > MAX_CHARGE_TIME then MAX_CHARGE_TIME else chargeTime
        { game with player := { game.player with chargeTime := chargeTime } }
      else game
    if game.player.isCharging && inp.mouseLeftReleased then
      let chargePercent := game.player.chargeTime / MAX_CHARGE_TIME
      let (frisbee, player) := ThrowFrisbee m game.frisbee game.player game.camera chargePercent
      { game with frisbee := frisbee,
                  player := { player with isCharging := false, chargeTime := 0.0 } }
    else game
  else game

/-- Part of `UpdatePlaying`, first part: from `UpdatePlayer` to `UpdateFrisbee`
(player, enemies, charge and throw input, frisbee physics). -/
def UpdatePlaying.simulate (m : Libm) (inp : Input) (game : Game) : Option Game :=
  let dt := inp.frameTime
  let (player, camera) := UpdatePlayer m inp game.player game.camera
  let game := { game with player := player, camera := camera }
  -- Update enemies
  match UpdateEnemies m game.enemies game.player.position dt with
  | none => none
  | some enemies =>
    let game := { game with enemies := enemies }
    -- Handle charge and throw input
    let game := UpdatePlaying.chargeThrow m inp game
    -- Update frisbee physics
    some { game with frisbee := UpdateFrisbee game.frisbee dt }

/-- Part of `UpdatePlaying`, the block "Frisbee-enemy collision". -/
def UpdatePlaying.frisbeeHit (m : Libm) (game : Game) : Option Game :=
  if game.frisbee.inFlight then
    match CheckFrisbeeEnemyCollision m game.enemies game.frisbee.position 0.15 with
    | none => none
    | some (enemies, hitResult) =>
      let game := { game with enemies := enemies }
      if hitResult > 0 then
        some { game with
          frisbee := ResetFrisbee game.frisbee
          enemiesRemaining := game.enemies.aliveCount
          randCalls := game.randCalls + 1 }
      else some game
  else some game

/-- Part of `UpdatePlaying`, the block "Enemy-player collision". -/
def UpdatePlaying.playerContact (m : Libm) (inp : Input) (game : Game) : Option Game :=
  let dt := inp.frameTime
  match CheckEnemyPlayerCollision m game.enemies game.player.position PLAYER_COLLISION_RADIUS dt with
  | none => none
  | some (enemies, damage) =>
    let game := { game with enemies := enemies }
    if damage > 0 then
      some { game with
        player := { game.player with health := game.player.health - damage, damageFlash := 0.3 }
        randCalls := game.randCalls + 1 }
    else some game

/-- Part of `UpdatePlaying`, the block "Update damage flash". -/
def UpdatePlaying.damageFlash (inp : Input) (game : Game) : Game :=
  let dt := inp.frameTime
  if game.player.damageFlash > 0.0 then
    { game with player := { game.player with damageFlash := game.player.damageFlash - dt } }
  else game

/-- Part of `UpdatePlaying`, the block "Win/lose conditions". -/
def UpdatePlaying.winLose (game : Game) : Game :=
  let game :=
    if game.player.health ≤ 0 then
      { game with randCalls := game.randCalls + 1, state := GameState.STATE_GAME_OVER }
    else game
  if game.enemies.aliveCount ≤ 0 then { game with state := GameState.STATE_VICTORY } else game

/-- Part of `UpdatePlaying`, the block "Update throw animation timer". -/
def UpdatePlaying.throwTimer (inp : Input) (game : Game) : Game :=
  let dt := inp.frameTime
  if game.player.isThrowing then
    let game := { game with player := { game.player with throwTimer := game.player.throwTimer - dt } }
    if game.player.throwTimer ≤ 0 then
      { game with player := { game.player with isThrowing := false } }
    else game
  else game

/-- The function `UpdatePlaying(game)`: the blocks above in source order. -/
def UpdatePlaying (m : Libm) (inp : Input) (game : Game) : Option Game :=
  match UpdatePlaying.simulate m inp game with
  | none => none
  | some game =>
    match UpdatePlaying.frisbeeHit m game with
    | none => none
    | some game =>
      match UpdatePlaying.playerContact m inp game with
      | none => none
      | some game =>
        let game := UpdatePlaying.damageFlash inp game
        let game := UpdatePlaying.winLose game
        some (UpdatePlaying.throwTimer inp game)

/-- The function `UpdateGameOver(game)`. -/
def UpdateGameOver (inp : Input) (game : Game) : Game :=
  if inp.pressedEnter then { game with state := GameState.STATE_LEVEL_SELECT } else game

/-- The function `UpdateVictory(game)`. -/
def UpdateVictory (m : Libm) (rand : Nat → Nat) (initCamera : Camera) (inp : Input)
    (game : Game) : Option Game :=
  let next :=
    if inp.pressedEnter then
      let game :=
        if game.selectedLevel < 3 then { game with selectedLevel := game.selectedLevel + 1 }
        else game
      startLevel m rand initCamera game
    else some game
  match next with
  | none => none
  | some game =>
    if inp.pressedQ || inp.pressedEscape then
      some { game with state := GameState.STATE_LEVEL_SELECT }
    else some game

/-- The function `UpdateGame(game)`. -/
def UpdateGame (m : Libm) (rand : Nat → Nat) (initCamera : Camera) (inp : Input)
    (game : Game) : Option Game :=
  match game.state with
  | GameState.STATE_TITLE => some (UpdateTitleScreen inp game)
  | GameState.STATE_LEVEL_SELECT => UpdateLevelSelect m rand initCamera inp game
  | GameState.STATE_PLAYING => UpdatePlaying m inp game
  | GameState.STATE_GAME_OVER => some (UpdateGameOver inp game)
  | GameState.STATE_VICTORY => UpdateVictory m rand initCamera inp game


/-! ## Vocabulary of the specification -/

/-- The array has its `MAX_ENEMIES` slots and `count` does not run past them:
the pools on which the C loops stay inside the array. -/
def EnemyManager.InBounds (manager : EnemyManager) : Prop :=
  manager.enemies.length = MAX_ENEMIES ∧ manager.count ≤ MAX_ENEMIES

/-- XZ distance between two points, with the library's square root. -/
def distXZ (m : Libm) (a b : Vector3) : ℚ :=
  m.sqrtf ((a.x - b.x) * (a.x - b.x) + (a.z - b.z) * (a.z - b.z))

/-- A living actor whose body centre (position + 1.0 on Y) is within
`frisbeeRadius + 0.8` of the projectile. -/
def Enemy.inProjectileRange (m : Libm) (frisbeePos : Vector3) (frisbeeRadius : ℚ)
    (e : Enemy) : Prop :=
  e.alive = true ∧
    Vector3Distance m frisbeePos ⟨e.position.x, e.position.y + 1.0, e.position.z⟩
      < frisbeeRadius + 0.8

/-- Index `i` is the lowest index of the pool holding a living actor within
range of the projectile. -/
def EnemyManager.firstInRange (m : Libm) (frisbeePos : Vector3) (frisbeeRadius : ℚ)
    (manager : EnemyManager) (i : Nat) : Prop :=
  (i : Int) < manager.count ∧
    (∃ e, manager.enemies[i]? = some e ∧ e.inProjectileRange m frisbeePos frisbeeRadius) ∧
    ∀ j e', j < i → manager.enemies[j]? = some e' →
      ¬ e'.inProjectileRange m frisbeePos frisbeeRadius

/-- The manager and return code after the projectile has hit the enemy `e`
stored at index `i`. -/
def EnemyManager.hitAt (manager : EnemyManager) (i : Nat) (e : Enemy) : EnemyManager × Int :=
  if e.health - 1 ≤ 0 then
    ({ manager with
        enemies := manager.enemies.set i { e with health := e.health - 1, alive := false }
        aliveCount := manager.aliveCount - 1 }, 2)
  else ({ manager with enemies := manager.enemies.set i { e with health := e.health - 1 } }, 1)

/-- The `j`-th candidate position of a spawn search that starts when `k` calls
of `rand()` have been made: its X comes from call `k + 2j`, its Z from the
next call. -/
def spawnCandidate (rand : Nat → Nat) (k j : Nat) : Vector3 :=
  ⟨((rand (k + 2 * j) % 80 : Nat) : ℚ) - 40.0, 0.0, ((rand (k + 2 * j + 1) % 80 : Nat) : ℚ) - 40.0⟩

/-- The player start used by `InitEnemyManager`. -/
def spawnPlayerStart : Vector3 := ⟨0.0, 0.0, 4.0⟩

/-- What `InitEnemyManager` stores for an actor whose loop iteration starts when
`c` calls of `rand()` have been made and whose spawn search takes `t` samples:
full health, alive, no cooldown, the walk phase drawn by call `c`, and as
position the `t`-th candidate, all earlier candidates having been rejected and
the kept one being valid unless it is the 100th. -/
def Enemy.spawnedFrom (m : Libm) (rand : Nat → Nat) (c t : Nat) (e : Enemy) : Prop :=
  e.health = ENEMY_MAX_HEALTH ∧ e.alive = true ∧ e.attackCooldown = 0 ∧
  e.walkPhase = ((rand c % 100 : Nat) : ℚ) / 100.0 * 6.28 ∧
  1 ≤ t ∧ t ≤ 100 ∧
  e.position = spawnCandidate rand (c + 1) (t - 1) ∧
  (∀ j, j < t - 1 → IsPositionValid m (spawnCandidate rand (c + 1) j) spawnPlayerStart = false) ∧
  (IsPositionValid m e.position spawnPlayerStart = true ∨ t = 100)

/-- A living actor whose XZ distance to the player is within
`playerRadius + 0.8` and whose cooldown is `≤ 0`. -/
def Enemy.canStrike (m : Libm) (playerPos : Vector3) (playerRadius : ℚ) (e : Enemy) : Bool :=
  e.alive && decide (distXZ m playerPos e.position < playerRadius + 0.8) &&
    decide (e.attackCooldown ≤ 0)

/-- The number of actors of the pool (indices below `count`) that can strike
the player. -/
def EnemyManager.strikers (m : Libm) (playerPos : Vector3) (playerRadius : ℚ)
    (manager : EnemyManager) : Nat :=
  (List.range manager.count.toNat).countP
    (fun i => (manager.enemies[i]?).any (Enemy.canStrike m playerPos playerRadius))

/-- What `CheckEnemyPlayerCollision` does to one actor of the pool: the
cooldown of an actor that can strike is set to `ENEMY_ATTACK_COOLDOWN`. -/
def Enemy.afterContact (m : Libm) (playerPos : Vector3) (playerRadius : ℚ) (e : Enemy) : Enemy :=
  if e.canStrike m playerPos playerRadius then { e with attackCooldown := ENEMY_ATTACK_COOLDOWN }
  else e

/-- The specification's reference update of an in-flight projectile: gravity
on Y, then drag on all three components, then the position and the spin. -/
def Frisbee.integrated (f : Frisbee) (dt : ℚ) : Frisbee :=
  let vx := f.velocity.x * (1 - 0.5 * dt)
  let vy := (f.velocity.y - 9.8 * dt) * (1 - 0.5 * dt)
  let vz := f.velocity.z * (1 - 0.5 * dt)
  { position := ⟨f.position.x + vx * dt, f.position.y + vy * dt, f.position.z + vz * dt⟩
    velocity := ⟨vx, vy, vz⟩
    rotation := f.rotation + 720 * dt
    inFlight := true }

/-- A terminal event at the projectile's position: ground contact (`y ≤ 0.1`),
a trunk or foliage box of an obstacle, or one of the four walls. -/
def Frisbee.terminalEvent (f : Frisbee) : Bool :=
  decide (f.position.y ≤ 0.1) || CheckTreeCollision f || CheckWallCollision f

/-! ## A concrete library and sample states

They instantiate the theorems at concrete inputs. -/

/-- Upward search for the integer square root: the first `k` at or after the
given one with `n < (k + 1) * (k + 1)`. -/
def natSqrt.search (n : Nat) : Nat → Nat → Nat
  | 0, k => k
  | fuel + 1, k => if n < (k + 1) * (k + 1) then k else natSqrt.search n fuel (k + 1)

/-- Integer square root (rounded down). -/
def natSqrt (n : Nat) : Nat := natSqrt.search n n 0

/-- A square root on the rationals that is exact on squares of rationals. -/
def ratSqrt (q : ℚ) : ℚ := (natSqrt q.num.toNat : ℚ) / (natSqrt q.den : ℚ)

/-- A library whose `sqrtf` is exact on squares of rationals and whose `cosf` and
`sinf` are the Taylor polynomials of degree 4 and 3. -/
def sampleLibm : Libm :=
  { sqrtf := ratSqrt
    cosf := fun x => 1 - x ^ 2 / 2 + x ^ 4 / 24
    sinf := fun x => x - x ^ 3 / 6 }

/-- A pool of three living actors at (0,0,0), (3,0,4) and (3,0,4), the first at
full health and the other two at health 1; the second is on cooldown. -/
def samplePool : EnemyManager :=
  { enemies :=
      [⟨⟨0, 0, 0⟩, 2, true, 0, 0⟩, ⟨⟨3, 0, 4⟩, 1, true, 1 / 2, 0⟩, ⟨⟨3, 0, 4⟩, 1, true, 0, 0⟩]
        ++ List.replicate 12 Enemy.zero
    count := 3
    aliveCount := 3 }

/-- A sample generator: the value of the `n`-th call of `rand()`. -/
def sampleRand (n : Nat) : Nat := (n * 37 + 11) % 32768

/-- A pool of three living actors standing on the player start (0,0,4) with no
cooldown. -/
def sampleContactPool : EnemyManager :=
  { enemies :=
      [⟨⟨0, 0, 4⟩, 2, true, 0, 0⟩, ⟨⟨0, 0, 4⟩, 2, true, 0, 0⟩, ⟨⟨0, 0, 4⟩, 2, true, 0, 0⟩]
        ++ List.replicate 12 Enemy.zero
    count := 3
    aliveCount := 3 }

/-- A camera at the player start looking along -Z. -/
def sampleCamera : Camera :=
  { position := ⟨0, 2, 4⟩, target := ⟨0, 2, 3⟩, up := ⟨0, 1, 0⟩, fovy := 60, projection := 0 }

/-- A frame of 1/60 s with no key or button active. -/
def sampleInput : Input :=
  { frameTime := 1 / 60, mouseDelta := ⟨0, 0⟩, keyPressed := 0
    downW := false, downS := false, downA := false, downD := false, downLeftShift := false
    pressedSpace := false, pressedUp := false, pressedLeft := false, pressedDown := false
    pressedRight := false, pressedOne := false, pressedTwo := false, pressedThree := false
    pressedEnter := false, pressedQ := false, pressedEscape := false
    mouseLeftPressed := false, mouseLeftDown := false, mouseLeftReleased := false }

/-- A Playing state: a fresh player (health 5) at the start, the frisbee in
hand, and three actors in contact with the player. -/
def sampleGame : Game :=
  { state := GameState.STATE_PLAYING, selectedLevel := 1, enemiesRemaining := 3
    camera := sampleCamera, frisbee := InitFrisbee, player := InitPlayer
    enemies := sampleContactPool, randCalls := 0 }

/-- A projectile in flight at (7, 5, 7), away from every obstacle and wall. -/
def sampleFrisbee : Frisbee :=
  { position := ⟨7, 5, 7⟩, velocity := ⟨4, 0, 0⟩, rotation := 0, inFlight := true }

/-- A camera at eye height on the axis of obstacle 0 (at (-30, -30), trunk
height 2), looking along +X. -/
def treeCamera : Camera :=
  { position := ⟨-30, 2, -30⟩, target := ⟨-29, 2, -30⟩, up := ⟨0, 1, 0⟩, fovy := 60,
    projection := 0 }

/-! ## Vocabulary of the specification: reachable states and invariants -/

/-- The number of actors of the pool (indices below `count`) whose `alive` flag
is set. -/
def EnemyManager.living (manager : EnemyManager) : Nat :=
  (List.range manager.count.toNat).countP
    (fun i => (manager.enemies[i]?).any (fun e => e.alive))

/-- The live-count cache agrees with the flags, every living actor of the pool
has health 1 or 2, and every dead actor of the pool has health `≤ 0`. -/
def EnemyManager.Consistent (manager : EnemyManager) : Prop :=
  manager.aliveCount = (manager.living : Int) ∧
  ∀ (i : Nat) (e : Enemy), (i : Int) < manager.count → manager.enemies[i]? = some e →
    (e.alive = true → e.health = 1 ∨ e.health = 2) ∧ (e.alive = false → e.health ≤ 0)

/-- The pools reachable from `InitEnemyManager(count)` (called when `k` calls of
`rand()` have been made) by any sequence of `UpdateEnemies`,
`CheckFrisbeeEnemyCollision` and `CheckEnemyPlayerCollision` calls. -/
inductive PoolReachable (m : Libm) (rand : Nat → Nat) (k : Nat) (count : Int) :
    EnemyManager → Prop where
  | init {manager : EnemyManager} {k' : Nat} :
      InitEnemyManager m rand k count = some (manager, k') →
      PoolReachable m rand k count manager
  | update {manager manager' : EnemyManager} {playerPosition : Vector3} {dt : ℚ} :
      PoolReachable m rand k count manager →
      UpdateEnemies m manager playerPosition dt = some manager' →
      PoolReachable m rand k count manager'
  | hit {manager manager' : EnemyManager} {frisbeePos : Vector3} {frisbeeRadius : ℚ}
      {code : Int} :
      PoolReachable m rand k count manager →
      CheckFrisbeeEnemyCollision m manager frisbeePos frisbeeRadius = some (manager', code) →
      PoolReachable m rand k count manager'
  | contact {manager manager' : EnemyManager} {playerPos : Vector3} {playerRadius dt : ℚ}
      {damage : Int} :
      PoolReachable m rand k count manager →
      CheckEnemyPlayerCollision m manager playerPos playerRadius dt = some (manager', damage) →
      PoolReachable m rand k count manager'

/-- The session states reachable from `InitGame()` by any sequence of
`UpdateGame` calls, one per frame, each with its own input. -/
inductive Reachable (m : Libm) (rand : Nat → Nat) (initCamera : Camera) : Game → Prop where
  | init : Reachable m rand initCamera (InitGame initCamera)
  | step {game game' : Game} {inp : Input} :
      Reachable m rand initCamera game →
      UpdateGame m rand initCamera inp game = some game' →
      Reachable m rand initCamera game'

/-- The state of a Playing tick when its win/lose check runs: after the player,
enemy and frisbee updates, both collision blocks and the damage-flash decay. -/
def UpdatePlaying.atCheck (m : Libm) (inp : Input) (game : Game) : Option Game :=
  (((UpdatePlaying.simulate m inp game).bind (UpdatePlaying.frisbeeHit m)).bind
    (UpdatePlaying.playerContact m inp)).map (UpdatePlaying.damageFlash inp)

/-- The player and camera after a sequence of frames of `UpdatePlayer`. -/
def runPlayer (m : Libm) : List Input → Player × Camera → Player × Camera
  | [], s => s
  | inp :: rest, s => runPlayer m rest (UpdatePlayer m inp s.1 s.2)

/-- A pool of five actors, all dead (health 0), with live count 0. -/
def clearedPool : EnemyManager :=
  { enemies := List.replicate 5 ⟨⟨10, 0, 10⟩, 0, false, 0, 0⟩ ++ List.replicate 10 Enemy.zero
    count := 5
    aliveCount := 0 }

/-- A Playing state whose pool has been cleared. -/
def clearedGame : Game :=
  { state := GameState.STATE_PLAYING, selectedLevel := 1, enemiesRemaining := 0
    camera := sampleCamera, frisbee := InitFrisbee, player := InitPlayer
    enemies := clearedPool, randCalls := 0 }

/-- A frame in which only ENTER is pressed. -/
def confirmInput : Input := { sampleInput with pressedEnter := true }

/-- A LevelSelect state with level 3 selected. -/
def levelSelectGame : Game :=
  { state := GameState.STATE_LEVEL_SELECT, selectedLevel := 3, enemiesRemaining := 0
    camera := sampleCamera, frisbee := InitFrisbee, player := InitPlayer
    enemies := EnemyManager.zero, randCalls := 0 }

/-- A pool of one living actor with 0.01 s of attack cooldown left. -/
def coolingPool : EnemyManager :=
  { enemies := [⟨⟨10, 0, 10⟩, 2, true, 1 / 100, 0⟩] ++ List.replicate 14 Enemy.zero
    count := 1
    aliveCount := 1 }

/-- The position one step of `3 * dt` away from the actor along the unit XZ
vector that points from the actor to the player; Y is kept. -/
def Enemy.seekStep (m : Libm) (playerPosition : Vector3) (dt : ℚ) (e : Enemy) : Vector3 :=
  ⟨e.position.x + (playerPosition.x - e.position.x) / distXZ m playerPosition e.position * 3 * dt,
   e.position.y,
   e.position.z + (playerPosition.z - e.position.z) / distXZ m playerPosition e.position * 3 * dt⟩

/-- A pool of a living actor at (7, 0, 7) and a dead one at (20, 0, 20). -/
def chasePool : EnemyManager :=
  { enemies := [⟨⟨7, 0, 7⟩, 2, true, 0, 0⟩, ⟨⟨20, 0, 20⟩, 0, false, 0, 0⟩]
      ++ List.replicate 13 Enemy.zero
    count := 2
    aliveCount := 1 }

/-- The invariant of the reachable session states: the selected level is 1, 2
or 3; the pool is inside its array, consistent, and holds 0 (before the first
level), 5, 10 or 15 actors; and in phase Playing the player and at least one
actor are alive. -/
def Game.Inv (game : Game) : Prop :=
  (game.selectedLevel = 1 ∨ game.selectedLevel = 2 ∨ game.selectedLevel = 3) ∧
  game.enemies.InBounds ∧ game.enemies.Consistent ∧
  (game.enemies.count = 0 ∨ game.enemies.count = 5 ∨ game.enemies.count = 10 ∨
    game.enemies.count = 15) ∧
  (game.state = GameState.STATE_PLAYING → 0 < game.player.health ∧ 0 < game.enemies.aliveCount)

/-- Part of `UpdateLevelSelect`, the key handling before the ENTER test: level
down and up with wrap, then the direct keys 1, 2, 3. -/
def UpdateLevelSelect.pick (inp : Input) (game : Game) : Game :=
  let game :=
    if inp.pressedUp || inp.pressedLeft then
      let game := { game with selectedLevel := game.selectedLevel - 1 }
      if game.selectedLevel < 1 then { game with selectedLevel := 3 } else game
    else game
  let game :=
    if inp.pressedDown || inp.pressedRight then
      let game := { game with selectedLevel := game.selectedLevel + 1 }
      if game.selectedLevel > 3 then { game with selectedLevel := 1 } else game
    else game
  let game := if inp.pressedOne then { game with selectedLevel := 1 } else game
  let game := if inp.pressedTwo then { game with selectedLevel := 2 } else game
  if inp.pressedThree then { game with selectedLevel := 3 } else game

/-- Part of `UpdateVictory`, the "Next level" step taken on ENTER before the
table lookup. -/
def UpdateVictory.advance (game : Game) : Game :=
  if game.selectedLevel < 3 then { game with selectedLevel := game.selectedLevel + 1 }
  else game

/-- The end of `UpdateVictory`: Q or ESCAPE sends the session to LevelSelect. -/
def UpdateVictory.quit (inp : Input) (game : Game) : Game :=
  if inp.pressedQ || inp.pressedEscape then { game with state := GameState.STATE_LEVEL_SELECT }
  else game

/-- The state on which the level-start block (table lookup, `InitEnemyManager`)
runs in the tick `UpdateGame` on `game`, if the tick runs it: on ENTER in
LevelSelect, after the key handling, and on ENTER in Victory, after the level
advance. -/
def UpdateGame.levelStart (inp : Input) (game : Game) : Option Game :=
  match game.state with
  | GameState.STATE_LEVEL_SELECT =>
    if inp.pressedEnter then some (UpdateLevelSelect.pick inp game) else none
  | GameState.STATE_VICTORY =>
    if inp.pressedEnter then some (UpdateVictory.advance game) else none
  | _ => none

/-- A frame in which some key (code 65) is pressed, none of them a bound key. -/
def anyKeyInput : Input := { sampleInput with keyPressed := 65 }

/-- A frame in which UP and ENTER are pressed. -/
def upConfirmInput : Input := { sampleInput with pressedUp := true, pressedEnter := true }

/-- The session after a key press on the title screen. -/
def menuGame : Game := { InitGame sampleCamera with state := GameState.STATE_LEVEL_SELECT }

/-- The pool of `InitEnemyManager(5)` under the sample library and generator. -/
def levelOnePool : EnemyManager :=
  ((InitEnemyManager sampleLibm sampleRand 0 5).map Prod.fst).getD EnemyManager.zero

/-- The pool `levelOnePool` after a projectile test at (3, 1, 4) with radius 0.15. -/
def struckPool : EnemyManager :=
  ((CheckFrisbeeEnemyCollision sampleLibm levelOnePool ⟨3, 1, 4⟩ 0.15).map Prod.fst).getD
    levelOnePool

/-- The session after ENTER in `menuGame`: level 1 started under the sample
library and generator. -/
def startedGame : Game :=
  (UpdateGame sampleLibm sampleRand sampleCamera confirmInput menuGame).getD menuGame

/-! ## Lemmas on the loops -/

theorem frisbeeLoop_miss (m : Libm) (fp : Vector3) (fr : ℚ) (manager : EnemyManager) :
    ∀ (len s : Nat), s + len ≤ manager.enemies.length →
      (∀ j e, s ≤ j → j < s + len → manager.enemies[j]? = some e →
        ¬ e.inProjectileRange m fp fr) →
      CheckFrisbeeEnemyCollision.loop m fp fr (List.range' s len) manager = some (manager, 0) := by
  intro len
  induction len with
  | zero => intro s _ _; rfl
  | succ n ih =>
    intro s hlen hmiss
    have hs : s < manager.enemies.length := by omega
    rw [List.range'_succ, CheckFrisbeeEnemyCollision.loop, List.getElem?_eq_getElem hs]
    have hrest := ih (s + 1) (by omega) (fun j e h1 h2 => hmiss j e (by omega) (by omega))
    have hno := hmiss s _ le_rfl (by omega) (List.getElem?_eq_getElem hs)
    simp only [Enemy.inProjectileRange, not_and] at hno
    by_cases ha : manager.enemies[s].alive = true
    · have := hno ha
      simp only [ha, ENEMY_COLLISION_RADIUS, Bool.not_true, Bool.false_eq_true, if_false, this]
      exact hrest
    · simp only [Bool.not_eq_true] at ha
      simp only [ha, Bool.not_false, if_true]
      exact hrest

theorem frisbeeLoop_hit (m : Libm) (fp : Vector3) (fr : ℚ) (manager : EnemyManager) (i : Nat)
    (e : Enemy) (hi : manager.enemies[i]? = some e) (hr : e.inProjectileRange m fp fr) :
    ∀ (len s : Nat), s ≤ i → i < s + len →
      (∀ j e', s ≤ j → j < i → manager.enemies[j]? = some e' →
        ¬ e'.inProjectileRange m fp fr) →
      CheckFrisbeeEnemyCollision.loop m fp fr (List.range' s len) manager
        = some (manager.hitAt i e) := by
  intro len
  induction len with
  | zero => intro s h1 h2; omega
  | succ n ih =>
    intro s hsi hlt hmiss
    have hil : i < manager.enemies.length := (List.getElem?_eq_some.mp hi).1
    have hs : s < manager.enemies.length := by omega
    rw [List.range'_succ, CheckFrisbeeEnemyCollision.loop, List.getElem?_eq_getElem hs]
    by_cases hsi' : s = i
    · subst hsi'
      have he : manager.enemies[s] = e := by
        have := List.getElem?_eq_getElem hs
        rw [hi] at this
        exact (Option.some.inj this).symm
      rw [he]
      obtain ⟨ha, hd⟩ := hr
      simp only [ha, ENEMY_COLLISION_RADIUS, Bool.not_true, Bool.false_eq_true, if_false, hd,
        if_true, EnemyManager.hitAt]
      split <;> rfl
    · have hrest := ih (s + 1) (by omega) (by omega) (fun j e' h1 h2 => hmiss j e' (by omega) h2)
      have hno := hmiss s _ le_rfl (by omega) (List.getElem?_eq_getElem hs)
      simp only [Enemy.inProjectileRange, not_and] at hno
      by_cases ha : manager.enemies[s].alive = true
      · have := hno ha
        simp only [ha, ENEMY_COLLISION_RADIUS, Bool.not_true, Bool.false_eq_true, if_false, this]
        exact hrest
      · simp only [Bool.not_eq_true] at ha
        simp only [ha, Bool.not_false, if_true]
        exact hrest

theorem spawn_spec (m : Libm) (rand : Nat → Nat) (ps : Vector3) :
    ∀ (fuel k attempts : Nat), attempts < 100 → 100 ≤ fuel + attempts →
      ∃ t, 1 ≤ t ∧ attempts + t ≤ 100 ∧
        InitEnemyManager.spawn m rand ps fuel k attempts
          = some (spawnCandidate rand k (t - 1), k + 2 * t, attempts + t) ∧
        (∀ j, j < t - 1 → IsPositionValid m (spawnCandidate rand k j) ps = false) ∧
        (IsPositionValid m (spawnCandidate rand k (t - 1)) ps = true ∨ attempts + t = 100) := by
  intro fuel
  induction fuel with
  | zero => intro k attempts h1 h2; omega
  | succ n ih =>
    intro k attempts hlt hfuel
    rw [InitEnemyManager.spawn]
    have hc0 : (⟨((rand k % 80 : Nat) : ℚ) - 40.0, 0.0, ((rand (k + 1) % 80 : Nat) : ℚ) - 40.0⟩ : Vector3)
        = spawnCandidate rand k 0 := by simp [spawnCandidate]
    simp only [hc0]
    by_cases hv : IsPositionValid m (spawnCandidate rand k 0) ps = true
    · refine ⟨1, le_rfl, by omega, ?_, ?_, Or.inl hv⟩
      · simp [hv]
      · intro j hj; omega
    · simp only [Bool.not_eq_true] at hv
      by_cases hlast : attempts + 1 < 100
      · obtain ⟨t, ht1, ht2, hres, hrej, hfin⟩ := ih (k + 2) (attempts + 1) hlast (by omega)
        have hshift : ∀ j, spawnCandidate rand (k + 2) j = spawnCandidate rand k (j + 1) := by
          intro j
          simp only [spawnCandidate]
          have e1 : k + 2 + 2 * j = k + 2 * (j + 1) := by ring
          rw [e1]
        refine ⟨t + 1, by omega, by omega, ?_, ?_, ?_⟩
        · simp only [hv, hlast, Bool.not_false, decide_True, Bool.and_self, if_true]
          rw [hres, hshift]
          have e2 : t - 1 + 1 = t + 1 - 1 := by omega
          have e3 : k + 2 + 2 * t = k + 2 * (t + 1) := by ring
          have e4 : attempts + 1 + t = attempts + (t + 1) := by ring
          rw [e2, e3, e4]
        · intro j hj
          cases j with
          | zero => exact hv
          | succ j' =>
            rw [← hshift]
            exact hrej j' (by omega)
        · rcases hfin with h | h
          · left
            rw [hshift] at h
            have e2 : t - 1 + 1 = t + 1 - 1 := by omega
            rw [← e2]; exact h
          · right; omega
      · refine ⟨1, le_rfl, by omega, ?_, ?_, Or.inr (by omega)⟩
        · simp [hv, hlast]
        · intro j hj; omega

theorem initLoop_spec (m : Libm) (rand : Nat → Nat) :
    ∀ (len s : Nat) (manager : EnemyManager) (k : Nat), s + len ≤ manager.enemies.length →
      ∃ (manager' : EnemyManager) (k' : Nat) (c t : Nat → Nat),
        InitEnemyManager.loop m rand spawnPlayerStart (List.range' s len) manager k
          = some (manager', k') ∧
        manager'.count = manager.count ∧ manager'.aliveCount = manager.aliveCount ∧
        manager'.enemies.length = manager.enemies.length ∧
        c s = k ∧ k' = c (s + len) ∧
        (∀ j, s ≤ j → j < s + len →
          c (j + 1) = c j + 1 + 2 * t j ∧
          ∃ e, manager'.enemies[j]? = some e ∧ e.spawnedFrom m rand (c j) (t j)) ∧
        (∀ j, j < s ∨ s + len ≤ j → manager'.enemies[j]? = manager.enemies[j]?) := by
  intro len
  induction len with
  | zero =>
    intro s manager k _
    exact ⟨manager, k, fun _ => k, fun _ => 0, rfl, rfl, rfl, rfl, rfl, rfl,
      fun j h1 h2 => by omega, fun _ _ => rfl⟩
  | succ n ih =>
    intro s manager k hlen
    have hs : s < manager.enemies.length := by omega
    obtain ⟨t0, ht1, ht2, hres, hrej, hfin⟩ :=
      spawn_spec m rand spawnPlayerStart 100 (k + 1) 0 (by omega) (by omega)
    rw [List.range'_succ, InitEnemyManager.loop, if_pos hs, hres]
    simp only [Nat.zero_add] at ht2 hfin ⊢
    obtain ⟨mg', k', c', t', hloop, hcnt, hal, hlen', hc0, hk', hspawn, hframe⟩ :=
      ih (s + 1)
        { manager with
            enemies := manager.enemies.set s
              ⟨spawnCandidate rand (k + 1) (t0 - 1), ENEMY_MAX_HEALTH, true, 0.0,
                ((rand k % 100 : Nat) : ℚ) / 100.0 * 6.28⟩ }
        (k + 1 + 2 * t0) (by simp only [List.length_set]; omega)
    refine ⟨mg', k', Function.update c' s k, Function.update t' s t0, hloop, hcnt, hal, ?_, ?_, ?_,
      ?_, ?_⟩
    · rw [hlen']; simp
    · simp
    · rw [hk', Function.update_noteq (by omega)]; congr 1; omega
    · intro j hj1 hj2
      by_cases hjs : j = s
      · subst hjs
        rw [Function.update_noteq (by omega), Function.update_same, Function.update_same, hc0]
        refine ⟨rfl, ?_⟩
        rw [hframe j (Or.inl (by omega))]
        simp only [List.getElem?_set_self hs]
        refine ⟨_, rfl, rfl, rfl, ?_, rfl, ht1, ht2, rfl, hrej, hfin⟩
        norm_num
      · have hj : s + 1 ≤ j := by omega
        rw [Function.update_noteq (by omega), Function.update_noteq hjs, Function.update_noteq hjs]
        exact hspawn j hj (by omega)
    · intro j hj
      rw [hframe j (by omega)]
      simp only
      rw [List.getElem?_set_ne (by omega)]

theorem toNat_le_length_of_inBounds {manager : EnemyManager} (hb : manager.InBounds) :
    manager.count.toNat ≤ manager.enemies.length := by
  obtain ⟨h1, h2⟩ := hb
  rw [h1]
  exact Int.toNat_le.mpr h2

theorem frisbee_miss (m : Libm) (manager : EnemyManager) (fp : Vector3) (fr : ℚ)
    (hb : manager.InBounds)
    (hmiss : ∀ (i : Nat) e, (i : Int) < manager.count → manager.enemies[i]? = some e →
      ¬ e.inProjectileRange m fp fr) :
    CheckFrisbeeEnemyCollision m manager fp fr = some (manager, 0) := by
  unfold CheckFrisbeeEnemyCollision
  rw [List.range_eq_range']
  refine frisbeeLoop_miss m fp fr manager _ 0 ?_ ?_
  · simpa using toNat_le_length_of_inBounds hb
  · intro j e _ hj he
    exact hmiss j e (Int.lt_toNat.mp (by simpa using hj)) he

theorem frisbee_hit (m : Libm) (manager : EnemyManager) (fp : Vector3) (fr : ℚ) (i : Nat)
    (e : Enemy) (hfirst : manager.firstInRange m fp fr i) (hi : manager.enemies[i]? = some e) :
    CheckFrisbeeEnemyCollision m manager fp fr = some (manager.hitAt i e) := by
  obtain ⟨hic, ⟨e1, he1, hr⟩, hmin⟩ := hfirst
  have hee : e1 = e := Option.some.inj (he1.symm.trans hi)
  subst hee
  unfold CheckFrisbeeEnemyCollision
  rw [List.range_eq_range']
  refine frisbeeLoop_hit m fp fr manager i e1 hi hr _ 0 (Nat.zero_le _) ?_ ?_
  · simpa using Int.lt_toNat.mpr hic
  · intro j e' _ hj he'
    exact hmin j e' hj he'

theorem initEnemyManager_spec (m : Libm) (rand : Nat → Nat) (k : Nat) (enemyCount : Int)
    (hc : enemyCount ≤ MAX_ENEMIES) :
    ∃ (manager : EnemyManager) (k' : Nat) (c t : Nat → Nat),
      InitEnemyManager m rand k enemyCount = some (manager, k') ∧
      manager.count = enemyCount ∧ manager.aliveCount = enemyCount ∧
      manager.enemies.length = MAX_ENEMIES ∧
      c 0 = k ∧ k' = c enemyCount.toNat ∧
      (∀ j : Nat, (j : Int) < enemyCount →
        c (j + 1) = c j + 1 + 2 * t j ∧
        ∃ e, manager.enemies[j]? = some e ∧ e.spawnedFrom m rand (c j) (t j)) ∧
      (∀ j : Nat, enemyCount ≤ (j : Int) → manager.enemies[j]? = EnemyManager.zero.enemies[j]?) := by
  have hlen : 0 + enemyCount.toNat ≤
      ({ EnemyManager.zero with count := enemyCount, aliveCount := enemyCount } :
        EnemyManager).enemies.length := by
    simp only [EnemyManager.zero, List.length_replicate, Nat.zero_add]
    exact Int.toNat_le.mpr hc
  obtain ⟨mg', k', c, t, hloop, hcnt, hal, hlen', hc0, hk', hspawn, hframe⟩ :=
    initLoop_spec m rand enemyCount.toNat 0
      { EnemyManager.zero with count := enemyCount, aliveCount := enemyCount } k hlen
  refine ⟨mg', k', c, t, ?_, hcnt, hal, ?_, hc0, ?_, ?_, ?_⟩
  · unfold InitEnemyManager
    rw [List.range_eq_range']
    exact hloop
  · rw [hlen']; simp [EnemyManager.zero]
  · simpa using hk'
  · intro j hj
    exact hspawn j (Nat.zero_le _) (by simpa using Int.lt_toNat.mpr hj)
  · intro j hj
    rw [hframe j (Or.inr (by simpa using Int.toNat_le.mpr hj))]

theorem ratSqrt_zero : ratSqrt 0 = 0 := by
  simp [ratSqrt, natSqrt, natSqrt.search]

theorem ratSqrt_25 : ratSqrt 25 = 5 := by
  have h : natSqrt 25 = 5 := by decide
  have h1 : natSqrt 1 = 1 := by decide
  simp [ratSqrt, h, h1]

theorem samplePool_inBounds : samplePool.InBounds := by
  constructor <;> decide

theorem samplePool_firstInRange : samplePool.firstInRange sampleLibm ⟨3, 1, 4⟩ 0.15 1 := by
  refine ⟨by decide, ⟨_, rfl, rfl, ?_⟩, ?_⟩
  · norm_num [samplePool, Vector3Distance, sampleLibm, ratSqrt_zero]
  · intro j e' hj he'
    have hj0 : j = 0 := by omega
    subst hj0
    have : e' = ⟨⟨0, 0, 0⟩, 2, true, 0, 0⟩ := by
      simpa [samplePool] using he'.symm
    subst this
    norm_num [Enemy.inProjectileRange, Vector3Distance, sampleLibm, ratSqrt_25]

theorem set_same (manager : EnemyManager) (i : Nat) (e : Enemy)
    (h : manager.enemies[i]? = some e) :
    ({ manager with enemies := manager.enemies.set i e } : EnemyManager) = manager := by
  have hset : manager.enemies.set i e = manager.enemies := by
    apply List.ext_getElem?
    intro n
    rw [List.getElem?_set]
    split
    · next hin =>
      subst hin
      rw [h, if_pos (List.getElem?_eq_some.mp h).1]
    · rfl
  rw [hset]

theorem contactLoop_cons (m : Libm) (pp : Vector3) (pr : ℚ) (i : Nat) (rest : List Nat)
    (manager : EnemyManager) (d : Int) (e : Enemy) (he : manager.enemies[i]? = some e) :
    CheckEnemyPlayerCollision.loop m pp pr (i :: rest) manager d
      = CheckEnemyPlayerCollision.loop m pp pr rest
          { manager with enemies := manager.enemies.set i (e.afterContact m pp pr) }
          (d + if e.canStrike m pp pr = true then 1 else 0) := by
  rw [CheckEnemyPlayerCollision.loop, he]
  by_cases hstrike : e.canStrike m pp pr = true
  · have hparts := hstrike
    simp only [Enemy.canStrike, distXZ, Bool.and_eq_true, decide_eq_true_eq] at hparts
    obtain ⟨⟨ha, hd⟩, hcd⟩ := hparts
    have hcd' : e.attackCooldown ≤ 0.0 := by norm_num; exact hcd
    simp only [ha, ENEMY_COLLISION_RADIUS, hd, hcd', Bool.not_true, Bool.false_eq_true,
      if_false, and_self, if_true, hstrike, Enemy.afterContact]
  · have hsame : CheckEnemyPlayerCollision.loop m pp pr rest
          { manager with enemies := manager.enemies.set i (e.afterContact m pp pr) }
          (d + if e.canStrike m pp pr = true then 1 else 0)
        = CheckEnemyPlayerCollision.loop m pp pr rest manager d := by
      simp only [Enemy.afterContact, hstrike, Bool.false_eq_true, if_false, add_zero,
        set_same manager i e he]
    rw [hsame]
    by_cases ha : e.alive = true
    · have hnot : ¬ (m.sqrtf ((pp.x - e.position.x) * (pp.x - e.position.x) +
              (pp.z - e.position.z) * (pp.z - e.position.z)) <
            pr + ENEMY_COLLISION_RADIUS ∧ e.attackCooldown ≤ 0.0) := by
        rintro ⟨h1, h2⟩
        apply hstrike
        simp only [Enemy.canStrike, distXZ, Bool.and_eq_true, decide_eq_true_eq]
        refine ⟨⟨ha, ?_⟩, ?_⟩
        · simpa [ENEMY_COLLISION_RADIUS] using h1
        · norm_num at h2; exact h2
      simp only [ha, Bool.not_true, Bool.false_eq_true, if_false, hnot]
    · simp only [Bool.not_eq_true] at ha
      simp only [ha, Bool.not_false, if_true]

theorem contactLoop_spec (m : Libm) (pp : Vector3) (pr : ℚ) :
    ∀ (len s : Nat) (manager : EnemyManager) (d : Int), s + len ≤ manager.enemies.length →
      ∃ manager' : EnemyManager,
        CheckEnemyPlayerCollision.loop m pp pr (List.range' s len) manager d
          = some (manager', d + ((List.range' s len).countP
              (fun i => (manager.enemies[i]?).any (Enemy.canStrike m pp pr)) : Nat)) ∧
        manager'.count = manager.count ∧ manager'.aliveCount = manager.aliveCount ∧
        manager'.enemies.length = manager.enemies.length ∧
        ∀ (j : Nat) (e : Enemy), manager.enemies[j]? = some e →
          manager'.enemies[j]? = some
            (if s ≤ j ∧ j < s + len then e.afterContact m pp pr else e) := by
  intro len
  induction len with
  | zero =>
    intro s manager d _
    refine ⟨manager, by simp [CheckEnemyPlayerCollision.loop], rfl, rfl, rfl, ?_⟩
    intro j e he
    rw [he, if_neg (by omega)]
  | succ n ih =>
    intro s manager d hlen
    have hs : s < manager.enemies.length := by omega
    have hget := List.getElem?_eq_getElem hs
    rw [List.range'_succ, contactLoop_cons m pp pr s _ manager d _ hget, List.countP_cons]
    obtain ⟨mg', hloop, hcnt, hal, hlen', hfr⟩ :=
      ih (s + 1)
        { manager with enemies := manager.enemies.set s (manager.enemies[s].afterContact m pp pr) }
        (d + if manager.enemies[s].canStrike m pp pr = true then 1 else 0)
        (by simp only [List.length_set]; omega)
    have hcongr : (List.range' (s + 1) n).countP
          (fun i => ((manager.enemies.set s (manager.enemies[s].afterContact m pp pr))[i]?).any
              (Enemy.canStrike m pp pr))
        = (List.range' (s + 1) n).countP
          (fun i => (manager.enemies[i]?).any (Enemy.canStrike m pp pr)) := by
      apply List.countP_congr
      intro i hi
      have : s ≠ i := by
        rw [List.mem_range'] at hi
        obtain ⟨x, _, hx⟩ := hi
        omega
      rw [List.getElem?_set_ne this]
    refine ⟨mg', ?_, hcnt, hal, by rw [hlen']; simp, ?_⟩
    · rw [hloop]
      simp only [hcongr, hget, Option.any_some]
      congr 2
      split <;> push_cast <;> ring
    · intro j e he
      by_cases hjs : j = s
      · subst hjs
        have hee : manager.enemies[j] = e := Option.some.inj (hget.symm.trans he)
        rw [hfr j (manager.enemies[j].afterContact m pp pr)
          (by simp only [List.getElem?_set_self hs])]
        rw [if_neg (by omega), ← hee, if_pos ⟨le_rfl, by omega⟩]
      · rw [hfr j e (by simp only []; rw [List.getElem?_set_ne (Ne.symm hjs)]; exact he)]
        by_cases hc : s + 1 ≤ j ∧ j < s + 1 + n
        · rw [if_pos hc, if_pos ⟨by omega, by omega⟩]
        · rw [if_neg hc, if_neg]
          rintro ⟨h1, h2⟩
          exact hc ⟨by omega, by omega⟩

theorem updateLoop_spec (m : Libm) (pp : Vector3) (dt : ℚ) :
    ∀ (len s : Nat) (manager : EnemyManager), s + len ≤ manager.enemies.length →
      ∃ manager' : EnemyManager,
        UpdateEnemies.loop m pp dt (List.range' s len) manager = some manager' ∧
        manager'.count = manager.count ∧ manager'.aliveCount = manager.aliveCount ∧
        manager'.enemies.length = manager.enemies.length ∧
        ∀ (j : Nat) (e : Enemy), manager.enemies[j]? = some e →
          manager'.enemies[j]? = some
            (if s ≤ j ∧ j < s + len then UpdateEnemies.body m pp dt e else e) := by
  intro len
  induction len with
  | zero =>
    intro s manager _
    refine ⟨manager, by simp [UpdateEnemies.loop], rfl, rfl, rfl, ?_⟩
    intro j e he
    rw [he, if_neg (by omega)]
  | succ n ih =>
    intro s manager hlen
    have hs : s < manager.enemies.length := by omega
    have hget := List.getElem?_eq_getElem hs
    rw [List.range'_succ, UpdateEnemies.loop, hget]
    obtain ⟨mg', hloop, hcnt, hal, hlen', hfr⟩ :=
      ih (s + 1)
        { manager with enemies := manager.enemies.set s (UpdateEnemies.body m pp dt manager.enemies[s]) }
        (by simp only [List.length_set]; omega)
    refine ⟨mg', hloop, hcnt, hal, by rw [hlen']; simp, ?_⟩
    intro j e he
    by_cases hjs : j = s
    · subst hjs
      have hee : manager.enemies[j] = e := Option.some.inj (hget.symm.trans he)
      rw [hfr j (UpdateEnemies.body m pp dt manager.enemies[j])
        (by simp only [List.getElem?_set_self hs])]
      rw [if_neg (by omega), ← hee, if_pos ⟨le_rfl, by omega⟩]
    · rw [hfr j e (by simp only []; rw [List.getElem?_set_ne (Ne.symm hjs)]; exact he)]
      by_cases hc : s + 1 ≤ j ∧ j < s + 1 + n
      · rw [if_pos hc, if_pos ⟨by omega, by omega⟩]
      · rw [if_neg hc, if_neg]
        rintro ⟨h1, h2⟩
        exact hc ⟨by omega, by omega⟩

theorem updateEnemies_spec (m : Libm) (manager : EnemyManager) (pp : Vector3) (dt : ℚ)
    (hb : manager.InBounds) :
    ∃ manager' : EnemyManager,
      UpdateEnemies m manager pp dt = some manager' ∧
      manager'.count = manager.count ∧ manager'.aliveCount = manager.aliveCount ∧
      manager'.enemies.length = manager.enemies.length ∧
      ∀ (j : Nat) (e : Enemy), manager.enemies[j]? = some e →
        manager'.enemies[j]? = some
          (if (j : Int) < manager.count then UpdateEnemies.body m pp dt e else e) := by
  obtain ⟨mg', hloop, hcnt, hal, hlen, hfr⟩ :=
    updateLoop_spec m pp dt manager.count.toNat 0 manager
      (by simpa using toNat_le_length_of_inBounds hb)
  refine ⟨mg', ?_, hcnt, hal, hlen, ?_⟩
  · unfold UpdateEnemies
    rw [List.range_eq_range']
    exact hloop
  · intro j e he
    rw [hfr j e he]
    congr 1
    simp only [Nat.zero_le, Nat.zero_add, true_and, Int.lt_toNat]

theorem contact_spec (m : Libm) (manager : EnemyManager) (pp : Vector3) (pr dt : ℚ)
    (hb : manager.InBounds) :
    ∃ manager' : EnemyManager,
      CheckEnemyPlayerCollision m manager pp pr dt
        = some (manager', (manager.strikers m pp pr : Int)) ∧
      manager'.count = manager.count ∧ manager'.aliveCount = manager.aliveCount ∧
      manager'.enemies.length = manager.enemies.length ∧
      ∀ (j : Nat) (e : Enemy), manager.enemies[j]? = some e →
        manager'.enemies[j]? = some
          (if (j : Int) < manager.count then e.afterContact m pp pr else e) := by
  obtain ⟨mg', hloop, hcnt, hal, hlen, hfr⟩ :=
    contactLoop_spec m pp pr manager.count.toNat 0 manager 0
      (by simpa using toNat_le_length_of_inBounds hb)
  refine ⟨mg', ?_, hcnt, hal, hlen, ?_⟩
  · unfold CheckEnemyPlayerCollision EnemyManager.strikers
    rw [List.range_eq_range', hloop, zero_add]
  · intro j e he
    rw [hfr j e he]
    congr 1
    simp only [Nat.zero_le, Nat.zero_add, true_and, Int.lt_toNat]

theorem inBounds_of_eq {manager manager' : EnemyManager} (hb : manager.InBounds)
    (hc : manager'.count = manager.count)
    (hl : manager'.enemies.length = manager.enemies.length) : manager'.InBounds :=
  ⟨hl.trans hb.1, hc ▸ hb.2⟩

theorem hitAt_count (manager : EnemyManager) (i : Nat) (e : Enemy) :
    (manager.hitAt i e).1.count = manager.count := by
  unfold EnemyManager.hitAt
  by_cases hk : e.health - 1 ≤ 0 <;> simp only [hk, if_true, if_false]

theorem hitAt_length (manager : EnemyManager) (i : Nat) (e : Enemy) :
    (manager.hitAt i e).1.enemies.length = manager.enemies.length := by
  unfold EnemyManager.hitAt
  by_cases hk : e.health - 1 ≤ 0 <;> simp only [hk, if_true, if_false, List.length_set]

theorem frisbee_total (m : Libm) (manager : EnemyManager) (fp : Vector3) (fr : ℚ)
    (hb : manager.InBounds) :
    ∃ (manager' : EnemyManager) (code : Int),
      CheckFrisbeeEnemyCollision m manager fp fr = some (manager', code) ∧
      manager'.count = manager.count ∧
      manager'.enemies.length = manager.enemies.length := by
  by_cases hex : ∃ i : Nat, (i : Int) < manager.count ∧ ∃ e, manager.enemies[i]? = some e ∧
      e.inProjectileRange m fp fr
  · classical
    have hmin : ∀ j : Nat, j < Nat.find hex → ¬ ((j : Int) < manager.count ∧
        ∃ e, manager.enemies[j]? = some e ∧ e.inProjectileRange m fp fr) :=
      fun j hj => Nat.find_min hex hj
    obtain ⟨hic, e, hi, hr⟩ := Nat.find_spec hex
    generalize Nat.find hex = i at hmin hic hi hr
    have hfirst : manager.firstInRange m fp fr i := by
      refine ⟨hic, ⟨e, hi, hr⟩, fun j e' hj he' hr' => hmin j hj ⟨?_, e', he', hr'⟩⟩
      have : (j : Int) < (i : Int) := by exact_mod_cast hj
      omega
    exact ⟨(manager.hitAt i e).1, (manager.hitAt i e).2,
      frisbee_hit m manager fp fr i e hfirst hi, hitAt_count manager i e,
      hitAt_length manager i e⟩
  · exact ⟨manager, 0, frisbee_miss m manager fp fr hb
      (fun i e hic hi hr => hex ⟨i, hic, e, hi, hr⟩), rfl, rfl⟩

theorem chargeThrow_frame (m : Libm) (inp : Input) (game : Game) :
    (UpdatePlaying.chargeThrow m inp game).enemies = game.enemies ∧
    (UpdatePlaying.chargeThrow m inp game).player.health = game.player.health ∧
    (UpdatePlaying.chargeThrow m inp game).player.position = game.player.position := by
  unfold UpdatePlaying.chargeThrow
  simp only [ThrowFrisbee]
  split_ifs <;> exact ⟨rfl, rfl, rfl⟩

theorem simulate_spec (m : Libm) (inp : Input) (game : Game) (hb : game.enemies.InBounds) :
    ∃ before : Game,
      UpdatePlaying.simulate m inp game = some before ∧
      before.player.health = game.player.health ∧
      before.enemies.InBounds ∧
      UpdateEnemies m game.enemies (UpdatePlayer m inp game.player game.camera).1.position
        inp.frameTime = some before.enemies := by
  obtain ⟨mg', hupd, hcnt, -, hlen, -⟩ :=
    updateEnemies_spec m game.enemies (UpdatePlayer m inp game.player game.camera).1.position
      inp.frameTime hb
  unfold UpdatePlaying.simulate
  simp only [hupd]
  have key := chargeThrow_frame m inp
    { game with player := (UpdatePlayer m inp game.player game.camera).1,
                camera := (UpdatePlayer m inp game.player game.camera).2,
                enemies := mg' }
  refine ⟨_, rfl, key.2.1, ?_, congrArg some key.1.symm⟩
  exact inBounds_of_eq hb (key.1 ▸ hcnt) (key.1 ▸ hlen)

theorem frisbeeHit_spec (m : Libm) (game : Game) (hb : game.enemies.InBounds) :
    ∃ after : Game,
      UpdatePlaying.frisbeeHit m game = some after ∧
      after.player = game.player ∧
      after.enemies.InBounds := by
  unfold UpdatePlaying.frisbeeHit
  by_cases hf : game.frisbee.inFlight = true
  · obtain ⟨mg', code, hres, hcnt, hlen⟩ :=
      frisbee_total m game.enemies game.frisbee.position 0.15 hb
    simp only [hf, if_true, hres]
    by_cases hc : code > 0
    · simp only [hc, if_true]
      exact ⟨_, rfl, rfl, inBounds_of_eq hb hcnt hlen⟩
    · simp only [hc, if_false]
      exact ⟨_, rfl, rfl, inBounds_of_eq hb hcnt hlen⟩
  · simp only [hf, Bool.false_eq_true, if_false]
    exact ⟨_, rfl, rfl, hb⟩

theorem playerContact_spec (m : Libm) (inp : Input) (game : Game) (hb : game.enemies.InBounds) :
    ∃ (after : Game) (manager' : EnemyManager),
      UpdatePlaying.playerContact m inp game = some after ∧
      CheckEnemyPlayerCollision m game.enemies game.player.position PLAYER_COLLISION_RADIUS
        inp.frameTime
        = some (manager',
            (game.enemies.strikers m game.player.position PLAYER_COLLISION_RADIUS : Int)) ∧
      after.enemies = manager' ∧
      after.player.health = game.player.health -
        (game.enemies.strikers m game.player.position PLAYER_COLLISION_RADIUS : Int) := by
  obtain ⟨mg', hres, -⟩ :=
    contact_spec m game.enemies game.player.position PLAYER_COLLISION_RADIUS inp.frameTime hb
  unfold UpdatePlaying.playerContact
  simp only [hres]
  by_cases hd : (game.enemies.strikers m game.player.position PLAYER_COLLISION_RADIUS : Int) > 0
  · simp only [hd, if_true]
    exact ⟨_, mg', rfl, rfl, rfl, rfl⟩
  · simp only [hd, if_false]
    refine ⟨_, mg', rfl, rfl, rfl, ?_⟩
    have : (game.enemies.strikers m game.player.position PLAYER_COLLISION_RADIUS : Int) = 0 := by
      omega
    simp only [this, sub_zero]

theorem tickTail_frame (inp : Input) (game : Game) :
    (UpdatePlaying.throwTimer inp (UpdatePlaying.winLose (UpdatePlaying.damageFlash inp game))).enemies
      = game.enemies ∧
    (UpdatePlaying.throwTimer inp (UpdatePlaying.winLose (UpdatePlaying.damageFlash inp game))).player.health
      = game.player.health := by
  unfold UpdatePlaying.throwTimer UpdatePlaying.winLose UpdatePlaying.damageFlash
  dsimp only
  split_ifs <;> exact ⟨rfl, rfl⟩

theorem sampleContactPool_inBounds : sampleContactPool.InBounds := by
  constructor <;> decide

theorem sampleGame_strikers :
    sampleGame.enemies.strikers sampleLibm sampleGame.player.position PLAYER_COLLISION_RADIUS = 3 := by
  have h3 : List.range (3 : Int).toNat = [0, 1, 2] := by decide
  simp only [EnemyManager.strikers, sampleGame, sampleContactPool, h3]
  norm_num [Enemy.canStrike, distXZ, sampleLibm, ratSqrt_zero, InitPlayer, PLAYER_COLLISION_RADIUS,
    List.countP_cons]

theorem clamp_bounds (p : Vector3) :
    let p1 := if p.x < -48.0 then { p with x := -48.0 } else p;
    let p2 := if p1.x > 48.0 then { p1 with x := 48.0 } else p1;
    let p3 := if p2.z < -48.0 then { p2 with z := -48.0 } else p2;
    let p4 := if p3.z > 48.0 then { p3 with z := 48.0 } else p3;
    (-48 ≤ p4.x ∧ p4.x ≤ 48 ∧ -48 ≤ p4.z ∧ p4.z ≤ 48) := by
  intro p1 p2 p3 p4
  simp only [p4, p3, p2, p1]
  split_ifs <;> (refine ⟨?_, ?_, ?_, ?_⟩ <;> norm_num at * <;> linarith)

theorem body_alive (m : Libm) (pp : Vector3) (dt : ℚ) (e : Enemy) :
    (UpdateEnemies.body m pp dt e).alive = e.alive := by
  unfold UpdateEnemies.body
  split_ifs <;> rfl

theorem body_dead (m : Libm) (pp : Vector3) (dt : ℚ) (e : Enemy) (h : e.alive = false) :
    UpdateEnemies.body m pp dt e = e := by
  unfold UpdateEnemies.body
  simp [h]

theorem body_bounds (m : Libm) (pp : Vector3) (dt : ℚ) (e : Enemy) (h : e.alive = true) :
    -48 ≤ (UpdateEnemies.body m pp dt e).position.x ∧
    (UpdateEnemies.body m pp dt e).position.x ≤ 48 ∧
    -48 ≤ (UpdateEnemies.body m pp dt e).position.z ∧
    (UpdateEnemies.body m pp dt e).position.z ≤ 48 := by
  unfold UpdateEnemies.body
  simp only [h, Bool.not_true, Bool.false_eq_true, if_false]
  exact clamp_bounds _

theorem trees_iff (m : Libm) (pos : Vector3) (is : List Nat) :
    IsPositionValid.trees m pos is = true ↔
      ∀ i ∈ is, 4 ≤ distXZ m pos (GetTreePosition i) := by
  induction is with
  | nil => simp [IsPositionValid.trees]
  | cons i rest ih =>
    rw [IsPositionValid.trees]
    by_cases h : m.sqrtf ((pos.x - (GetTreePosition i).x) * (pos.x - (GetTreePosition i).x) +
        (pos.z - (GetTreePosition i).z) * (pos.z - (GetTreePosition i).z)) < 4.0
    · simp only [h, if_true, Bool.false_eq_true, List.mem_cons, forall_eq_or_imp, false_iff,
        not_and]
      intro h4
      exfalso
      simp only [distXZ] at h4
      norm_num at h
      linarith
    · simp only [h, if_false, ih, List.mem_cons, forall_eq_or_imp, iff_and_self]
      intro _
      simp only [distXZ]
      norm_num at h
      exact h

theorem spawnCandidate_range (rand : Nat → Nat) (k j : Nat) :
    -40 ≤ (spawnCandidate rand k j).x ∧ (spawnCandidate rand k j).x ≤ 40 ∧
    -40 ≤ (spawnCandidate rand k j).z ∧ (spawnCandidate rand k j).z ≤ 40 := by
  have hx : rand (k + 2 * j) % 80 < 80 := Nat.mod_lt _ (by decide)
  have hz : rand (k + 2 * j + 1) % 80 < 80 := Nat.mod_lt _ (by decide)
  have hx' : ((rand (k + 2 * j) % 80 : Nat) : ℚ) < 80 := by exact_mod_cast hx
  have hz' : ((rand (k + 2 * j + 1) % 80 : Nat) : ℚ) < 80 := by exact_mod_cast hz
  have hx0 : (0 : ℚ) ≤ ((rand (k + 2 * j) % 80 : Nat) : ℚ) := Nat.cast_nonneg _
  have hz0 : (0 : ℚ) ≤ ((rand (k + 2 * j + 1) % 80 : Nat) : ℚ) := Nat.cast_nonneg _
  simp only [spawnCandidate]
  refine ⟨?_, ?_, ?_, ?_⟩ <;> norm_num <;> linarith

theorem updateFrisbee_inFlight (f : Frisbee) (dt : ℚ) (hf : f.inFlight = true) :
    UpdateFrisbee f dt =
      if (f.integrated dt).terminalEvent = true then ResetFrisbee (f.integrated dt)
      else f.integrated dt := by
  have hint : (⟨Vector3Add f.position (Vector3Scale (Vector3Scale
        ⟨f.velocity.x, f.velocity.y - FRISBEE_GRAVITY * dt, f.velocity.z⟩
        (1.0 - FRISBEE_DRAG * dt)) dt),
      Vector3Scale ⟨f.velocity.x, f.velocity.y - FRISBEE_GRAVITY * dt, f.velocity.z⟩
        (1.0 - FRISBEE_DRAG * dt),
      f.rotation + 720.0 * dt, true⟩ : Frisbee) = f.integrated dt := by
    simp only [Frisbee.integrated, Vector3Add, Vector3Scale, FRISBEE_GRAVITY, FRISBEE_DRAG]
    norm_num
  have hy := congrArg (fun g : Frisbee => g.position.y) hint
  simp only [] at hy
  unfold UpdateFrisbee
  simp only [hf, Bool.not_true, Bool.false_eq_true, if_false]
  simp only [hint, hy, Frisbee.terminalEvent, Bool.or_eq_true, decide_eq_true_eq]
  by_cases h1 : (f.integrated dt).position.y ≤ 0.1
  · simp [h1]
  · by_cases h2 : CheckTreeCollision (f.integrated dt) = true
    · simp [h1, h2]
    · by_cases h3 : CheckWallCollision (f.integrated dt) = true
      · simp [h1, h2, h3]
      · simp [h1, h2, h3]

theorem treeLoop_congr (f g : Frisbee) (h : f.position = g.position) (is : List Nat) :
    CheckTreeCollision.loop f is = CheckTreeCollision.loop g is := by
  induction is with
  | nil => rfl
  | cons i rest ih => simp only [CheckTreeCollision.loop, h, ih]

theorem terminalEvent_congr (f g : Frisbee) (h : f.position = g.position) :
    f.terminalEvent = g.terminalEvent := by
  simp only [Frisbee.terminalEvent, CheckTreeCollision, CheckWallCollision, h,
    treeLoop_congr f g h]

theorem range20 : List.range 20
    = [0, 1, 2, 3, 4, 5, 6, 7, 8, 9, 10, 11, 12, 13, 14, 15, 16, 17, 18, 19] := by decide

theorem sampleFrisbee_no_event : (sampleFrisbee.integrated (1 / 4)).terminalEvent = false := by
  simp only [Frisbee.terminalEvent, CheckTreeCollision, CheckWallCollision, range20,
    CheckTreeCollision.loop, CheckCollisionBoxSphere, FRISBEE_RADIUS, Frisbee.integrated,
    sampleFrisbee]
  norm_num

theorem ratSqrt_one : ratSqrt 1 = 1 := by
  have h1 : natSqrt 1 = 1 := by decide
  simp [ratSqrt, h1]

/-! ## Lemmas on the Playing tick and the invariants -/

theorem frisbee_cases (m : Libm) (manager : EnemyManager) (fp : Vector3) (fr : ℚ)
    (hb : manager.InBounds) :
    ((∀ (i : Nat) (e : Enemy), (i : Int) < manager.count → manager.enemies[i]? = some e →
        ¬ e.inProjectileRange m fp fr) ∧
      CheckFrisbeeEnemyCollision m manager fp fr = some (manager, 0)) ∨
    (∃ (i : Nat) (e : Enemy), manager.firstInRange m fp fr i ∧ manager.enemies[i]? = some e ∧
      e.alive = true ∧
      CheckFrisbeeEnemyCollision m manager fp fr = some (manager.hitAt i e)) := by
  by_cases hex : ∃ i : Nat, (i : Int) < manager.count ∧ ∃ e, manager.enemies[i]? = some e ∧
      e.inProjectileRange m fp fr
  · classical
    have hmin : ∀ j : Nat, j < Nat.find hex → ¬ ((j : Int) < manager.count ∧
        ∃ e, manager.enemies[j]? = some e ∧ e.inProjectileRange m fp fr) :=
      fun j hj => Nat.find_min hex hj
    obtain ⟨hic, e, hi, hr⟩ := Nat.find_spec hex
    generalize Nat.find hex = i at hmin hic hi hr
    have hfirst : manager.firstInRange m fp fr i := by
      refine ⟨hic, ⟨e, hi, hr⟩, fun j e' hj he' hr' => hmin j hj ⟨?_, e', he', hr'⟩⟩
      have : (j : Int) < (i : Int) := by exact_mod_cast hj
      omega
    exact Or.inr ⟨i, e, hfirst, hi, hr.1, frisbee_hit m manager fp fr i e hfirst hi⟩
  · have hmiss : ∀ (i : Nat) (e : Enemy), (i : Int) < manager.count →
        manager.enemies[i]? = some e → ¬ e.inProjectileRange m fp fr :=
      fun i e hic hi hr => hex ⟨i, hic, e, hi, hr⟩
    exact Or.inl ⟨hmiss, frisbee_miss m manager fp fr hb hmiss⟩

theorem hitAt_aliveCount_le (manager : EnemyManager) (i : Nat) (e : Enemy) :
    (manager.hitAt i e).1.aliveCount ≤ manager.aliveCount := by
  unfold EnemyManager.hitAt
  by_cases hk : e.health - 1 ≤ 0 <;> simp only [hk, if_true, if_false] <;> omega

theorem frisbee_aliveCount_le (m : Libm) (manager manager' : EnemyManager) (fp : Vector3)
    (fr : ℚ) (code : Int) (hb : manager.InBounds)
    (h : CheckFrisbeeEnemyCollision m manager fp fr = some (manager', code)) :
    manager'.aliveCount ≤ manager.aliveCount := by
  rcases frisbee_cases m manager fp fr hb with ⟨-, h0⟩ | ⟨i, e, -, -, -, h1⟩
  · rw [h0] at h
    simp only [Option.some.injEq, Prod.mk.injEq] at h
    rw [← h.1]
  · rw [h1] at h
    simp only [Option.some.injEq] at h
    have := hitAt_aliveCount_le manager i e
    rw [h] at this
    exact this

theorem chargeThrow_frame2 (m : Libm) (inp : Input) (game : Game) :
    (UpdatePlaying.chargeThrow m inp game).state = game.state ∧
    (UpdatePlaying.chargeThrow m inp game).selectedLevel = game.selectedLevel ∧
    (UpdatePlaying.chargeThrow m inp game).player.damageFlash = game.player.damageFlash ∧
    ((UpdatePlaying.chargeThrow m inp game).player.throwTimer = game.player.throwTimer ∨
      (UpdatePlaying.chargeThrow m inp game).player.throwTimer = THROW_DURATION) := by
  unfold UpdatePlaying.chargeThrow
  simp only [ThrowFrisbee]
  split_ifs <;> first
    | exact ⟨rfl, rfl, rfl, Or.inl rfl⟩
    | exact ⟨rfl, rfl, rfl, Or.inr rfl⟩

theorem simulate_spec2 (m : Libm) (inp : Input) (game : Game) (hb : game.enemies.InBounds) :
    ∃ (before : Game) (mg1 : EnemyManager),
      UpdatePlaying.simulate m inp game = some before ∧
      UpdateEnemies m game.enemies (UpdatePlayer m inp game.player game.camera).1.position
        inp.frameTime = some mg1 ∧
      before.enemies = mg1 ∧
      before.player.health = game.player.health ∧
      before.player.damageFlash = game.player.damageFlash ∧
      before.state = game.state ∧
      before.selectedLevel = game.selectedLevel ∧
      (before.player.throwTimer = game.player.throwTimer ∨
        before.player.throwTimer = THROW_DURATION) := by
  obtain ⟨mg', hupd, -⟩ :=
    updateEnemies_spec m game.enemies (UpdatePlayer m inp game.player game.camera).1.position
      inp.frameTime hb
  unfold UpdatePlaying.simulate
  simp only [hupd]
  have key := chargeThrow_frame m inp
    { game with player := (UpdatePlayer m inp game.player game.camera).1,
                camera := (UpdatePlayer m inp game.player game.camera).2,
                enemies := mg' }
  have key2 := chargeThrow_frame2 m inp
    { game with player := (UpdatePlayer m inp game.player game.camera).1,
                camera := (UpdatePlayer m inp game.player game.camera).2,
                enemies := mg' }
  exact ⟨_, mg', rfl, rfl, key.1, key.2.1, key2.2.2.1, key2.1, key2.2.1, key2.2.2.2⟩

theorem frisbeeHit_spec2 (m : Libm) (game : Game) (hb : game.enemies.InBounds) :
    ∃ after : Game,
      UpdatePlaying.frisbeeHit m game = some after ∧
      after.player = game.player ∧
      after.state = game.state ∧
      after.selectedLevel = game.selectedLevel ∧
      (after.enemies = game.enemies ∨
        ∃ code : Int, CheckFrisbeeEnemyCollision m game.enemies game.frisbee.position 0.15
          = some (after.enemies, code)) := by
  unfold UpdatePlaying.frisbeeHit
  by_cases hf : game.frisbee.inFlight = true
  · obtain ⟨mg', code, hres, -, -⟩ :=
      frisbee_total m game.enemies game.frisbee.position 0.15 hb
    simp only [hf, if_true, hres]
    by_cases hc : code > 0
    · simp only [hc, if_true]
      exact ⟨_, rfl, rfl, rfl, rfl, Or.inr ⟨code, rfl⟩⟩
    · simp only [hc, if_false]
      exact ⟨_, rfl, rfl, rfl, rfl, Or.inr ⟨code, rfl⟩⟩
  · simp only [hf, Bool.false_eq_true, if_false]
    exact ⟨_, rfl, rfl, rfl, rfl, Or.inl rfl⟩

theorem playerContact_spec2 (m : Libm) (inp : Input) (game : Game) (hb : game.enemies.InBounds) :
    ∃ after : Game,
      UpdatePlaying.playerContact m inp game = some after ∧
      CheckEnemyPlayerCollision m game.enemies game.player.position PLAYER_COLLISION_RADIUS
        inp.frameTime
        = some (after.enemies,
            (game.enemies.strikers m game.player.position PLAYER_COLLISION_RADIUS : Int)) ∧
      after.player.health = game.player.health -
        (game.enemies.strikers m game.player.position PLAYER_COLLISION_RADIUS : Int) ∧
      after.state = game.state ∧
      after.selectedLevel = game.selectedLevel ∧
      after.player.throwTimer = game.player.throwTimer ∧
      after.player.damageFlash =
        (if game.enemies.strikers m game.player.position PLAYER_COLLISION_RADIUS > 0 then 0.3
          else game.player.damageFlash) := by
  obtain ⟨mg', hres, -⟩ :=
    contact_spec m game.enemies game.player.position PLAYER_COLLISION_RADIUS inp.frameTime hb
  unfold UpdatePlaying.playerContact
  simp only [hres]
  by_cases hd : game.enemies.strikers m game.player.position PLAYER_COLLISION_RADIUS > 0
  · have hd' : (game.enemies.strikers m game.player.position PLAYER_COLLISION_RADIUS : Int) > 0 := by
      exact_mod_cast hd
    simp only [hd', hd, if_true]
    exact ⟨_, rfl, rfl, rfl, rfl, rfl, rfl, rfl⟩
  · have hd' : ¬ (game.enemies.strikers m game.player.position PLAYER_COLLISION_RADIUS : Int) > 0 := by
      intro h; exact hd (by exact_mod_cast h)
    have h0 : game.enemies.strikers m game.player.position PLAYER_COLLISION_RADIUS = 0 := by omega
    simp only [hd', hd, if_false]
    refine ⟨_, rfl, rfl, ?_, rfl, rfl, rfl, rfl⟩
    simp only [h0, Nat.cast_zero, sub_zero]

theorem damageFlash_frame (inp : Input) (game : Game) :
    (UpdatePlaying.damageFlash inp game).enemies = game.enemies ∧
    (UpdatePlaying.damageFlash inp game).player.health = game.player.health ∧
    (UpdatePlaying.damageFlash inp game).state = game.state ∧
    (UpdatePlaying.damageFlash inp game).selectedLevel = game.selectedLevel ∧
    (UpdatePlaying.damageFlash inp game).player.throwTimer = game.player.throwTimer ∧
    (UpdatePlaying.damageFlash inp game).player.damageFlash =
      (if game.player.damageFlash > 0 then game.player.damageFlash - inp.frameTime
        else game.player.damageFlash) := by
  unfold UpdatePlaying.damageFlash
  by_cases h : game.player.damageFlash > 0
  · have h' : game.player.damageFlash > 0.0 := by norm_num; exact h
    simp only [h, h', if_true, and_self]
  · have h' : ¬ game.player.damageFlash > 0.0 := by norm_num; exact not_lt.mp h
    simp only [h, h', if_false, and_self]

theorem winLose_frame (game : Game) :
    (UpdatePlaying.winLose game).enemies = game.enemies ∧
    (UpdatePlaying.winLose game).player = game.player ∧
    (UpdatePlaying.winLose game).selectedLevel = game.selectedLevel ∧
    (UpdatePlaying.winLose game).state =
      (if game.enemies.aliveCount ≤ 0 then GameState.STATE_VICTORY
        else if game.player.health ≤ 0 then GameState.STATE_GAME_OVER else game.state) := by
  unfold UpdatePlaying.winLose
  by_cases h1 : game.player.health ≤ 0 <;> by_cases h2 : game.enemies.aliveCount ≤ 0 <;>
    simp only [h1, h2, if_true, if_false, and_self]

theorem throwTimer_frame (inp : Input) (game : Game) :
    (UpdatePlaying.throwTimer inp game).enemies = game.enemies ∧
    (UpdatePlaying.throwTimer inp game).state = game.state ∧
    (UpdatePlaying.throwTimer inp game).selectedLevel = game.selectedLevel ∧
    (UpdatePlaying.throwTimer inp game).player.health = game.player.health ∧
    (UpdatePlaying.throwTimer inp game).player.damageFlash = game.player.damageFlash ∧
    (UpdatePlaying.throwTimer inp game).player.throwTimer =
      (if game.player.isThrowing = true then game.player.throwTimer - inp.frameTime
        else game.player.throwTimer) := by
  unfold UpdatePlaying.throwTimer
  by_cases h : game.player.isThrowing = true
  · simp only [h, if_true]
    split_ifs <;> exact ⟨rfl, rfl, rfl, rfl, rfl, rfl⟩
  · simp only [h, Bool.false_eq_true, if_false, and_self]

theorem tick_chain (m : Libm) (inp : Input) (game : Game) (hb : game.enemies.InBounds) :
    ∃ g1 g2 g3 : Game,
      UpdatePlaying.simulate m inp game = some g1 ∧
      UpdatePlaying.frisbeeHit m g1 = some g2 ∧
      UpdatePlaying.playerContact m inp g2 = some g3 ∧
      UpdatePlaying.atCheck m inp game = some (UpdatePlaying.damageFlash inp g3) ∧
      UpdatePlaying m inp game
        = some (UpdatePlaying.throwTimer inp
            (UpdatePlaying.winLose (UpdatePlaying.damageFlash inp g3))) ∧
      g1.enemies.InBounds ∧ g2.enemies.InBounds := by
  obtain ⟨g1, h1, -, hb1, -⟩ := simulate_spec m inp game hb
  obtain ⟨g2, h2, -, hb2⟩ := frisbeeHit_spec m g1 hb1
  obtain ⟨g3, -, h3, -⟩ := playerContact_spec m inp g2 hb2
  refine ⟨g1, g2, g3, h1, h2, h3, ?_, ?_, hb1, hb2⟩
  · simp only [UpdatePlaying.atCheck, h1, Option.some_bind, h2, h3, Option.map_some']
  · unfold UpdatePlaying
    simp only [h1, h2, h3]

theorem levelEnemyCount_spec (L : Int) (hL : L = 1 ∨ L = 2 ∨ L = 3) :
    0 ≤ L - 1 ∧ L - 1 < 3 ∧ levelEnemyCount (L - 1) = some (5 * L) ∧
    LEVEL_ENEMY_COUNTS[(L - 1).toNat]? = some (5 * L) := by
  rcases hL with h | h | h <;> subst h <;> decide

theorem startLevel_spec (m : Libm) (rand : Nat → Nat) (initCamera : Camera) (game : Game)
    (hL : game.selectedLevel = 1 ∨ game.selectedLevel = 2 ∨ game.selectedLevel = 3) :
    ∃ (mg : EnemyManager) (k' : Nat),
      InitEnemyManager m rand game.randCalls (5 * game.selectedLevel) = some (mg, k') ∧
      startLevel m rand initCamera game = some
        ⟨GameState.STATE_PLAYING, game.selectedLevel, 5 * game.selectedLevel, initCamera,
          InitFrisbee, InitPlayer, mg, k'⟩ ∧
      mg.count = 5 * game.selectedLevel ∧ mg.aliveCount = 5 * game.selectedLevel ∧
      mg.InBounds := by
  have hn : (5 * game.selectedLevel : Int) ≤ MAX_ENEMIES := by
    rcases hL with h | h | h <;> rw [h] <;> decide
  obtain ⟨mg, k', c, t, hinit, hcnt, hal, hlen, -⟩ :=
    initEnemyManager_spec m rand game.randCalls (5 * game.selectedLevel) hn
  refine ⟨mg, k', hinit, ?_, hcnt, hal, hlen, hcnt ▸ hn⟩
  unfold startLevel
  simp only [(levelEnemyCount_spec game.selectedLevel hL).2.2.1, hinit]

theorem deg2rad_pos : 0 < DEG2RAD := by
  simp only [DEG2RAD, PI]; norm_num

theorem updatePlayer_pitch (m : Libm) (inp : Input) (player : Player) (camera : Camera) :
    (UpdatePlayer m inp player camera).1.pitch =
      (if player.pitch - inp.mouseDelta.y * MOUSE_SENSITIVITY > 89 * DEG2RAD then 89 * DEG2RAD
        else if player.pitch - inp.mouseDelta.y * MOUSE_SENSITIVITY < -(89 * DEG2RAD)
          then -(89 * DEG2RAD)
        else player.pitch - inp.mouseDelta.y * MOUSE_SENSITIVITY) := by
  have hp := deg2rad_pos
  have h89 : (89.0 : ℚ) = 89 := by norm_num
  have hn89 : (-89.0 : ℚ) * DEG2RAD = -(89 * DEG2RAD) := by norm_num
  show (if (if player.pitch - inp.mouseDelta.y * MOUSE_SENSITIVITY > 89.0 * DEG2RAD
          then 89.0 * DEG2RAD else player.pitch - inp.mouseDelta.y * MOUSE_SENSITIVITY)
        < -89.0 * DEG2RAD then -89.0 * DEG2RAD
      else (if player.pitch - inp.mouseDelta.y * MOUSE_SENSITIVITY > 89.0 * DEG2RAD
          then 89.0 * DEG2RAD else player.pitch - inp.mouseDelta.y * MOUSE_SENSITIVITY)) = _
  rw [hn89, h89]
  by_cases h1 : player.pitch - inp.mouseDelta.y * MOUSE_SENSITIVITY > 89 * DEG2RAD
  · simp only [h1, if_true]
    rw [if_neg]
    linarith
  · simp only [h1, if_false]

theorem body_cooldown (m : Libm) (pp : Vector3) (dt : ℚ) (e : Enemy) :
    (UpdateEnemies.body m pp dt e).attackCooldown =
      (if e.alive = true ∧ e.attackCooldown > 0 then e.attackCooldown - dt
        else e.attackCooldown) := by
  unfold UpdateEnemies.body
  by_cases ha : e.alive = true
  · simp only [ha, Bool.not_true, Bool.false_eq_true, if_false, true_and]
    by_cases hc : e.attackCooldown > 0
    · have hc' : e.attackCooldown > 0.0 := by norm_num; exact hc
      simp only [hc, hc', if_true]
    · have hc' : ¬ e.attackCooldown > 0.0 := by norm_num; exact not_lt.mp hc
      simp only [hc, hc', if_false]
  · simp only [Bool.not_eq_true] at ha
    simp only [ha, Bool.not_false, if_true, Bool.false_eq_true, false_and, if_false]

theorem coolingPool_timers (i : Nat) (e : Enemy) (he : coolingPool.enemies[i]? = some e) :
    0 ≤ e.attackCooldown := by
  have hmem : e ∈ coolingPool.enemies := List.getElem?_mem he
  simp only [coolingPool, List.singleton_append, List.mem_cons, List.mem_replicate] at hmem
  rcases hmem with h | ⟨-, h⟩
  · rw [h]; norm_num
  · rw [h]; simp [Enemy.zero]

theorem push_far (m : Libm) (dt : ℚ) (p : Vector3) (t : Nat)
    (h : 2.5 ≤ distXZ m p (GetTreePosition t)) : UpdateEnemies.push m dt p t = p := by
  unfold UpdateEnemies.push
  simp only [distXZ] at h
  rw [if_neg]
  rintro ⟨h1, -⟩
  linarith

theorem pushAll_far (m : Libm) (dt : ℚ) (p : Vector3) (l : List Nat)
    (h : ∀ t ∈ l, 2.5 ≤ distXZ m p (GetTreePosition t)) :
    l.foldl (UpdateEnemies.push m dt) p = p := by
  induction l with
  | nil => rfl
  | cons t rest ih =>
    rw [List.foldl_cons, push_far m dt p t (h t (List.mem_cons_self _ _))]
    exact ih (fun t' ht' => h t' (List.mem_cons_of_mem _ ht'))

theorem body_move (m : Libm) (pp : Vector3) (dt : ℚ) (e : Enemy) (ha : e.alive = true)
    (hd : distXZ m pp e.position > 0.1)
    (hfar : ∀ t : Nat, t < 20 → 2.5 ≤ distXZ m
      ⟨e.position.x + (pp.x - e.position.x) / distXZ m pp e.position * 3 * dt, e.position.y,
       e.position.z + (pp.z - e.position.z) / distXZ m pp e.position * 3 * dt⟩
      (GetTreePosition t))
    (hx1 : -48 ≤ e.position.x + (pp.x - e.position.x) / distXZ m pp e.position * 3 * dt)
    (hx2 : e.position.x + (pp.x - e.position.x) / distXZ m pp e.position * 3 * dt ≤ 48)
    (hz1 : -48 ≤ e.position.z + (pp.z - e.position.z) / distXZ m pp e.position * 3 * dt)
    (hz2 : e.position.z + (pp.z - e.position.z) / distXZ m pp e.position * 3 * dt ≤ 48) :
    (UpdateEnemies.body m pp dt e).position =
      ⟨e.position.x + (pp.x - e.position.x) / distXZ m pp e.position * 3 * dt, e.position.y,
       e.position.z + (pp.z - e.position.z) / distXZ m pp e.position * 3 * dt⟩ := by
  have hfold := pushAll_far m dt _ (List.range 20)
    (fun t ht => hfar t (List.mem_range.mp ht))
  have hS : ENEMY_SPEED = 3 := by simp only [ENEMY_SPEED]; norm_num
  unfold UpdateEnemies.body
  simp only [ha, Bool.not_true, Bool.false_eq_true, if_false]
  simp only [distXZ] at hd hfold hx1 hx2 hz1 hz2 ⊢
  simp only [hd, if_true, hS, hfold]
  generalize e.position.x + (pp.x - e.position.x) /
    m.sqrtf ((pp.x - e.position.x) * (pp.x - e.position.x) +
      (pp.z - e.position.z) * (pp.z - e.position.z)) * 3 * dt = X at *
  generalize e.position.z + (pp.z - e.position.z) /
    m.sqrtf ((pp.x - e.position.x) * (pp.x - e.position.x) +
      (pp.z - e.position.z) * (pp.z - e.position.z)) * 3 * dt = Z at *
  have a1 : ¬ X < (-48.0 : ℚ) := by norm_num; linarith
  have a2 : ¬ X > (48.0 : ℚ) := by norm_num; linarith
  have a3 : ¬ Z < (-48.0 : ℚ) := by norm_num; linarith
  have a4 : ¬ Z > (48.0 : ℚ) := by norm_num; linarith
  simp only [a1, a2, a3, a4, if_false]

theorem natSqrt_search_spec (n : Nat) :
    ∀ fuel k : Nat, k ≤ natSqrt.search n fuel k ∧
      (natSqrt.search n fuel k = k + fuel ∨
        n < (natSqrt.search n fuel k + 1) * (natSqrt.search n fuel k + 1)) := by
  intro fuel
  induction fuel with
  | zero => intro k; simp [natSqrt.search]
  | succ f ih =>
    intro k
    rw [natSqrt.search]
    by_cases h : n < (k + 1) * (k + 1)
    · rw [if_pos h]
      exact ⟨le_rfl, Or.inr h⟩
    · rw [if_neg h]
      obtain ⟨h1, h2⟩ := ih (k + 1)
      refine ⟨by omega, ?_⟩
      rcases h2 with h2 | h2
      · left; omega
      · right; exact h2

theorem natSqrt_ge_three (n : Nat) (h : 9 ≤ n) : 3 ≤ natSqrt n := by
  obtain ⟨-, h2⟩ := natSqrt_search_spec n n 0
  unfold natSqrt
  rcases h2 with h2 | h2
  · omega
  · by_contra hlt
    have h3 : natSqrt.search n n 0 + 1 ≤ 3 := by omega
    have : (natSqrt.search n n 0 + 1) * (natSqrt.search n n 0 + 1) ≤ 3 * 3 :=
      Nat.mul_le_mul h3 h3
    omega

theorem ratSqrt_natCast (n : Nat) : ratSqrt (n : ℚ) = (natSqrt n : ℚ) := by
  have h1 : natSqrt 1 = 1 := by decide
  simp [ratSqrt, h1]

theorem ratSqrt_ofNat_ge (n : Nat) [n.AtLeastTwo] (h : 9 ≤ n) :
    (5 / 2 : ℚ) ≤ ratSqrt (OfNat.ofNat n) := by
  have hc : (OfNat.ofNat n : ℚ) = ((n : ℕ) : ℚ) := (Nat.cast_ofNat).symm
  rw [hc, ratSqrt_natCast]
  have h3 : 3 ≤ natSqrt n := natSqrt_ge_three _ h
  have : (3 : ℚ) ≤ (natSqrt n : ℚ) := by exact_mod_cast h3
  linarith

theorem chase_seekStep :
    Enemy.seekStep sampleLibm ⟨10, 2, 11⟩ (5 / 3) ⟨⟨7, 0, 7⟩, 2, true, 0, 0⟩ = ⟨10, 0, 11⟩ := by
  simp only [Enemy.seekStep, distXZ, sampleLibm]
  norm_num [ratSqrt_25]

theorem chase_far (t : Nat) (ht : t < 20) :
    (2.5 : ℚ) ≤ distXZ sampleLibm ⟨10, 0, 11⟩ (GetTreePosition t) := by
  interval_cases t <;>
    (simp only [distXZ, GetTreePosition, sampleLibm]
     norm_num
     exact ratSqrt_ofNat_ge _ (by norm_num))

theorem updatePlayer_vertical (m : Libm) (inp : Input) (player : Player) (camera : Camera) :
    (UpdatePlayer m inp player camera).1.position.y =
      (if player.position.y +
          ((if (inp.pressedSpace && player.isGrounded) = true then JUMP_FORCE
            else player.velocityY) - GRAVITY * inp.frameTime) * inp.frameTime
          ≤ PLAYER_HEIGHT + GROUND_LEVEL
        then PLAYER_HEIGHT + GROUND_LEVEL
        else player.position.y +
          ((if (inp.pressedSpace && player.isGrounded) = true then JUMP_FORCE
            else player.velocityY) - GRAVITY * inp.frameTime) * inp.frameTime) ∧
    (UpdatePlayer m inp player camera).1.velocityY =
      (if player.position.y +
          ((if (inp.pressedSpace && player.isGrounded) = true then JUMP_FORCE
            else player.velocityY) - GRAVITY * inp.frameTime) * inp.frameTime
          ≤ PLAYER_HEIGHT + GROUND_LEVEL
        then 0
        else (if (inp.pressedSpace && player.isGrounded) = true then JUMP_FORCE
            else player.velocityY) - GRAVITY * inp.frameTime) ∧
    (UpdatePlayer m inp player camera).1.isGrounded =
      (if player.position.y +
          ((if (inp.pressedSpace && player.isGrounded) = true then JUMP_FORCE
            else player.velocityY) - GRAVITY * inp.frameTime) * inp.frameTime
          ≤ PLAYER_HEIGHT + GROUND_LEVEL
        then true
        else if (inp.pressedSpace && player.isGrounded) = true then false
          else player.isGrounded) := by
  cases hj : (inp.pressedSpace && player.isGrounded) with
  | true =>
    by_cases hl : player.position.y + (JUMP_FORCE - GRAVITY * inp.frameTime) * inp.frameTime
        ≤ PLAYER_HEIGHT + GROUND_LEVEL
    · unfold UpdatePlayer
      simp only [hj, hl, if_true, decide_True]
      norm_num
    · unfold UpdatePlayer
      simp only [hj, hl, if_true, if_false, decide_False, Bool.false_eq_true]
      try norm_num
  | false =>
    by_cases hl : player.position.y + (player.velocityY - GRAVITY * inp.frameTime) * inp.frameTime
        ≤ PLAYER_HEIGHT + GROUND_LEVEL
    · unfold UpdatePlayer
      simp only [hj, hl, if_true, if_false, decide_True, Bool.false_eq_true]
      norm_num
    · unfold UpdatePlayer
      simp only [hj, hl, if_true, if_false, decide_False, Bool.false_eq_true]
      try norm_num

theorem jump_in_air (m : Libm) (inp : Input) (player : Player) (camera : Camera)
    (h : player.isGrounded = false) :
    UpdatePlayer m { inp with pressedSpace := true } player camera =
      UpdatePlayer m { inp with pressedSpace := false } player camera := by
  unfold UpdatePlayer
  simp only [h, Bool.and_false]

theorem countP_flip (p p' : Nat → Bool) (i : Nat) :
    ∀ n : Nat, i < n → p i = true → p' i = false → (∀ j, j ≠ i → p' j = p j) →
      (List.range n).countP p' + 1 = (List.range n).countP p := by
  intro n
  induction n with
  | zero => intro h; omega
  | succ n ih =>
    intro hi hp hp' hrest
    rw [List.range_succ, List.countP_append, List.countP_append]
    by_cases hin : i < n
    · have := ih hin hp hp' hrest
      have hn : p' n = p n := hrest n (by omega)
      simp only [List.countP_cons, List.countP_nil, hn]
      omega
    · have hin' : i = n := by omega
      subst hin'
      have hc : (List.range i).countP p' = (List.range i).countP p := by
        apply List.countP_congr
        intro j hj
        have : j ≠ i := by
          have := List.mem_range.mp hj
          omega
        rw [hrest j this]
      simp only [List.countP_cons, List.countP_nil, hp, hp', hc]
      simp

theorem map_consistent (manager manager' : EnemyManager)
    (hcnt : manager'.count = manager.count) (hal : manager'.aliveCount = manager.aliveCount)
    (hlen : manager'.enemies.length = manager.enemies.length)
    (hmap : ∀ (j : Nat) (e : Enemy), manager.enemies[j]? = some e →
      ∃ e' : Enemy, manager'.enemies[j]? = some e' ∧ e'.alive = e.alive ∧ e'.health = e.health)
    (hc : manager.Consistent) : manager'.Consistent := by
  obtain ⟨hlive, hhealth⟩ := hc
  have hany : ∀ j : Nat, (manager'.enemies[j]?).any (fun e => e.alive)
      = (manager.enemies[j]?).any (fun e => e.alive) := by
    intro j
    cases hj : manager.enemies[j]? with
    | some e =>
      obtain ⟨e', he', ha, -⟩ := hmap j e hj
      rw [he']
      simp only [Option.any_some, ha]
    | none =>
      have h1 : manager.enemies.length ≤ j := List.getElem?_eq_none_iff.mp hj
      have h2 : manager'.enemies[j]? = none := List.getElem?_eq_none_iff.mpr (by omega)
      rw [h2]
  constructor
  · rw [hal, hlive]
    simp only [EnemyManager.living, hcnt, hany]
  · intro i e' hi he'
    rw [hcnt] at hi
    have hil : i < manager.enemies.length := by
      rw [← hlen]; exact (List.getElem?_eq_some.mp he').1
    obtain ⟨e'', he'', ha, hh⟩ := hmap i _ (List.getElem?_eq_getElem hil)
    have hee : e'' = e' := Option.some.inj (he''.symm.trans he')
    subst hee
    rw [ha, hh]
    exact hhealth i _ hi (List.getElem?_eq_getElem hil)

theorem body_health (m : Libm) (pp : Vector3) (dt : ℚ) (e : Enemy) :
    (UpdateEnemies.body m pp dt e).health = e.health := by
  unfold UpdateEnemies.body
  split_ifs <;> rfl

theorem afterContact_frame (m : Libm) (pp : Vector3) (pr : ℚ) (e : Enemy) :
    (e.afterContact m pp pr).alive = e.alive ∧ (e.afterContact m pp pr).health = e.health := by
  unfold Enemy.afterContact
  split_ifs <;> exact ⟨rfl, rfl⟩

theorem update_consistent (m : Libm) (manager manager' : EnemyManager) (pp : Vector3) (dt : ℚ)
    (hb : manager.InBounds) (h : UpdateEnemies m manager pp dt = some manager')
    (hc : manager.Consistent) :
    manager'.count = manager.count ∧ manager'.aliveCount = manager.aliveCount ∧
    manager'.InBounds ∧ manager'.Consistent := by
  obtain ⟨mg', hres, hcnt, hal, hlen, hfr⟩ := updateEnemies_spec m manager pp dt hb
  have he : mg' = manager' := Option.some.inj (hres.symm.trans h)
  subst he
  refine ⟨hcnt, hal, inBounds_of_eq hb hcnt hlen, map_consistent manager mg' hcnt hal hlen ?_ hc⟩
  intro j e hj
  refine ⟨_, hfr j e hj, ?_, ?_⟩
  · split_ifs
    · exact body_alive m pp dt e
    · rfl
  · split_ifs
    · exact body_health m pp dt e
    · rfl

theorem contact_consistent (m : Libm) (manager manager' : EnemyManager) (pp : Vector3)
    (pr dt : ℚ) (d : Int) (hb : manager.InBounds)
    (h : CheckEnemyPlayerCollision m manager pp pr dt = some (manager', d))
    (hc : manager.Consistent) :
    manager'.count = manager.count ∧ manager'.aliveCount = manager.aliveCount ∧
    manager'.InBounds ∧ manager'.Consistent := by
  obtain ⟨mg', hres, hcnt, hal, hlen, hfr⟩ := contact_spec m manager pp pr dt hb
  have he : mg' = manager' := by
    have := hres.symm.trans h
    simp only [Option.some.injEq, Prod.mk.injEq] at this
    exact this.1
  subst he
  refine ⟨hcnt, hal, inBounds_of_eq hb hcnt hlen, map_consistent manager mg' hcnt hal hlen ?_ hc⟩
  intro j e hj
  refine ⟨_, hfr j e hj, ?_, ?_⟩
  · split_ifs
    · exact (afterContact_frame m pp pr e).1
    · rfl
  · split_ifs
    · exact (afterContact_frame m pp pr e).2
    · rfl

theorem init_consistent (m : Libm) (rand : Nat → Nat) (k k' : Nat) (count : Int)
    (manager : EnemyManager) (h0 : 0 ≤ count) (h15 : count ≤ MAX_ENEMIES)
    (h : InitEnemyManager m rand k count = some (manager, k')) :
    manager.count = count ∧ manager.aliveCount = count ∧ manager.InBounds ∧
    manager.Consistent ∧
    ∀ (i : Nat) (e : Enemy), (i : Int) < count → manager.enemies[i]? = some e →
      e.alive = true ∧ e.health = 2 := by
  obtain ⟨mg, k'', c, t, hinit, hcnt, hal, hlen, -, -, hspawn, -⟩ :=
    initEnemyManager_spec m rand k count h15
  have he : mg = manager := by
    have := hinit.symm.trans h
    simp only [Option.some.injEq, Prod.mk.injEq] at this
    exact this.1
  subst he
  have hall : ∀ (i : Nat) (e : Enemy), (i : Int) < count → mg.enemies[i]? = some e →
      e.alive = true ∧ e.health = 2 := by
    intro i e hi he
    obtain ⟨-, e', he', hh, ha, -⟩ := hspawn i hi
    have : e' = e := Option.some.inj (he'.symm.trans he)
    subst this
    exact ⟨ha, hh⟩
  refine ⟨hcnt, hal, ⟨hlen, hcnt ▸ h15⟩, ⟨?_, ?_⟩, hall⟩
  · rw [hal]
    have hlive : mg.living = count.toNat := by
      unfold EnemyManager.living
      rw [hcnt]
      have : (List.range count.toNat).countP
          (fun i => (mg.enemies[i]?).any (fun e => e.alive)) = (List.range count.toNat).length := by
        rw [List.countP_eq_length]
        intro i hi
        have hi' : (i : Int) < count := Int.lt_toNat.mp (List.mem_range.mp hi)
        obtain ⟨-, e', he', -, ha, -⟩ := hspawn i hi'
        rw [he']
        simpa using ha
      rw [this, List.length_range]
    rw [hlive]
    exact (Int.toNat_of_nonneg h0).symm
  · intro i e hi he
    rw [hcnt] at hi
    obtain ⟨ha, hh⟩ := hall i e hi he
    refine ⟨fun _ => Or.inr hh, fun hf => ?_⟩
    rw [ha] at hf
    exact absurd hf (by decide)

theorem set_consistent (manager : EnemyManager) (i : Nat) (e e' : Enemy) (a' : Int)
    (hi : (i : Int) < manager.count) (he : manager.enemies[i]? = some e)
    (ha : e.alive = true) (hc : manager.Consistent)
    (hnew : (e'.alive = true ∧ (e'.health = 1 ∨ e'.health = 2) ∧ a' = manager.aliveCount) ∨
      (e'.alive = false ∧ e'.health ≤ 0 ∧ a' = manager.aliveCount - 1)) :
    ({ manager with enemies := manager.enemies.set i e', aliveCount := a' } :
      EnemyManager).Consistent := by
  obtain ⟨hlive, hhealth⟩ := hc
  have hil : i < manager.enemies.length := (List.getElem?_eq_some.mp he).1
  have hin : i < manager.count.toNat := Int.lt_toNat.mpr hi
  have hrest : ∀ j : Nat, j ≠ i →
      ((manager.enemies.set i e')[j]?).any (fun e => e.alive)
        = (manager.enemies[j]?).any (fun e => e.alive) := by
    intro j hj
    rw [List.getElem?_set_ne (Ne.symm hj)]
  have hself : ((manager.enemies.set i e')[i]?).any (fun e => e.alive) = e'.alive := by
    rw [List.getElem?_set_self hil]; rfl
  have hold : (manager.enemies[i]?).any (fun e => e.alive) = true := by
    rw [he]; exact ha
  constructor
  · show a' = ((List.range manager.count.toNat).countP
      (fun j => ((manager.enemies.set i e')[j]?).any (fun e => e.alive)) : Nat)
    rcases hnew with ⟨hal, -, haa⟩ | ⟨hal, -, haa⟩
    · have hcongr : (List.range manager.count.toNat).countP
          (fun j => ((manager.enemies.set i e')[j]?).any (fun e => e.alive))
          = (List.range manager.count.toNat).countP
            (fun j => (manager.enemies[j]?).any (fun e => e.alive)) := by
        apply List.countP_congr
        intro j _
        by_cases hj : j = i
        · subst hj
          rw [hself, hold, hal]
        · rw [hrest j hj]
      rw [hcongr, haa, hlive]
      rfl
    · have hflip := countP_flip
        (fun j => (manager.enemies[j]?).any (fun e => e.alive))
        (fun j => ((manager.enemies.set i e')[j]?).any (fun e => e.alive))
        i manager.count.toNat hin hold (hself.trans hal) hrest
      rw [haa, hlive]
      unfold EnemyManager.living
      omega
  · intro j x hj hx
    by_cases hji : j = i
    · subst hji
      have hxe : x = e' := by
        have h1 : (manager.enemies.set j e')[j]? = some e' := List.getElem?_set_self hil
        exact (Option.some.inj (h1.symm.trans hx)).symm
      subst hxe
      rcases hnew with ⟨hal, hh, -⟩ | ⟨hal, hh, -⟩
      · exact ⟨fun _ => hh, fun hf => by rw [hal] at hf; exact absurd hf (by decide)⟩
      · exact ⟨fun ht => by rw [hal] at ht; exact absurd ht (by decide), fun _ => hh⟩
    · have hx' : manager.enemies[j]? = some x := by
        have h1 : (manager.enemies.set i e')[j]? = manager.enemies[j]? :=
          List.getElem?_set_ne (Ne.symm hji)
        exact h1.symm.trans hx
      exact hhealth j x hj hx'

theorem hit_consistent (m : Libm) (manager manager' : EnemyManager) (fp : Vector3) (fr : ℚ)
    (code : Int) (hb : manager.InBounds)
    (h : CheckFrisbeeEnemyCollision m manager fp fr = some (manager', code))
    (hc : manager.Consistent) :
    manager'.count = manager.count ∧ manager'.InBounds ∧ manager'.Consistent := by
  rcases frisbee_cases m manager fp fr hb with ⟨-, h0⟩ | ⟨i, e, hfirst, hi, ha, h1⟩
  · rw [h0] at h
    simp only [Option.some.injEq, Prod.mk.injEq] at h
    rw [← h.1]
    exact ⟨rfl, hb, hc⟩
  · rw [h1] at h
    have hm : (manager.hitAt i e).1 = manager' := by
      rw [Option.some.inj h]
    have hcnt : manager'.count = manager.count := by rw [← hm]; exact hitAt_count manager i e
    have hlen : manager'.enemies.length = manager.enemies.length := by
      rw [← hm]; exact hitAt_length manager i e
    refine ⟨hcnt, inBounds_of_eq hb hcnt hlen, ?_⟩
    rw [← hm]
    have hh := (hc.2 i e hfirst.1 hi).1 ha
    unfold EnemyManager.hitAt
    rcases hh with hh | hh
    · have hk : e.health - 1 ≤ 0 := by omega
      rw [if_pos hk]
      exact set_consistent manager i e _ _ hfirst.1 hi ha hc
        (Or.inr ⟨rfl, hk, rfl⟩)
    · have hk : ¬ e.health - 1 ≤ 0 := by omega
      rw [if_neg hk]
      have := set_consistent manager i e { e with health := e.health - 1 } manager.aliveCount
        hfirst.1 hi ha hc (Or.inl ⟨ha, Or.inl (by show e.health - 1 = 1; omega), rfl⟩)
      exact this

theorem poolReachable_inv (m : Libm) (rand : Nat → Nat) (k : Nat) (count : Int)
    (h0 : 0 ≤ count) (h15 : count ≤ MAX_ENEMIES) (manager : EnemyManager)
    (hr : PoolReachable m rand k count manager) :
    manager.count = count ∧ manager.InBounds ∧ manager.Consistent := by
  induction hr with
  | init h =>
    obtain ⟨hcnt, -, hb, hc, -⟩ := init_consistent m rand k _ count _ h0 h15 h
    exact ⟨hcnt, hb, hc⟩
  | update _ h ih =>
    obtain ⟨hcnt, hb, hc⟩ := ih
    obtain ⟨hcnt', -, hb', hc'⟩ := update_consistent m _ _ _ _ hb h hc
    exact ⟨hcnt'.trans hcnt, hb', hc'⟩
  | hit _ h ih =>
    obtain ⟨hcnt, hb, hc⟩ := ih
    obtain ⟨hcnt', hb', hc'⟩ := hit_consistent m _ _ _ _ _ hb h hc
    exact ⟨hcnt'.trans hcnt, hb', hc'⟩
  | contact _ h ih =>
    obtain ⟨hcnt, hb, hc⟩ := ih
    obtain ⟨hcnt', -, hb', hc'⟩ := contact_consistent m _ _ _ _ _ _ hb h hc
    exact ⟨hcnt'.trans hcnt, hb', hc'⟩

theorem living_eq_zero_iff (manager : EnemyManager) (hb : manager.InBounds) :
    manager.living = 0 ↔
      ∀ (i : Nat) (e : Enemy), (i : Int) < manager.count → manager.enemies[i]? = some e →
        e.alive = false := by
  unfold EnemyManager.living
  rw [List.countP_eq_zero]
  constructor
  · intro h i e hi he
    have := h i (List.mem_range.mpr (Int.lt_toNat.mpr hi))
    rw [he] at this
    simpa using this
  · intro h i hi
    have hi' : (i : Int) < manager.count := Int.lt_toNat.mp (List.mem_range.mp hi)
    have hil : i < manager.enemies.length :=
      lt_of_lt_of_le (List.mem_range.mp hi) (toNat_le_length_of_inBounds hb)
    rw [List.getElem?_eq_getElem hil]
    have := h i _ hi' (List.getElem?_eq_getElem hil)
    simp [this]

theorem strikers_le_living (m : Libm) (pp : Vector3) (pr : ℚ) (manager : EnemyManager) :
    manager.strikers m pp pr ≤ manager.living := by
  unfold EnemyManager.strikers EnemyManager.living
  apply List.countP_mono_left
  intro i _ h
  cases hi : manager.enemies[i]? with
  | none => rw [hi] at h; simp at h
  | some e =>
    rw [hi] at h
    simp only [Option.any_some, Enemy.canStrike, Bool.and_eq_true] at h ⊢
    exact h.1.1

theorem tick_inv (m : Libm) (inp : Input) (game : Game) (hb : game.enemies.InBounds)
    (hc : game.enemies.Consistent) :
    ∃ c : Game,
      UpdatePlaying.atCheck m inp game = some c ∧
      UpdatePlaying m inp game = some (UpdatePlaying.throwTimer inp (UpdatePlaying.winLose c)) ∧
      c.enemies.InBounds ∧ c.enemies.Consistent ∧ c.enemies.count = game.enemies.count ∧
      c.selectedLevel = game.selectedLevel ∧ c.state = game.state ∧
      (c.enemies.aliveCount ≤ 0 → c.player.health = game.player.health) := by
  obtain ⟨g1, g2, g3, h1, h2, h3, hat, hup, hb1, hb2⟩ := tick_chain m inp game hb
  obtain ⟨a1, mg1, ha1, hupd, he1, hh1, -, hs1, hl1, -⟩ := simulate_spec2 m inp game hb
  rw [h1] at ha1
  have e1 : a1 = g1 := (Option.some.inj ha1).symm
  subst e1
  obtain ⟨hcnt1, -, -, hc1⟩ := update_consistent m _ _ _ _ hb hupd hc
  rw [← he1] at hcnt1 hc1
  obtain ⟨a2, ha2, hp2, hs2, hl2, hfr⟩ := frisbeeHit_spec2 m a1 hb1
  rw [h2] at ha2
  have e2 : a2 = g2 := (Option.some.inj ha2).symm
  subst e2
  have h2c : a2.enemies.count = a1.enemies.count ∧ a2.enemies.Consistent := by
    rcases hfr with h | ⟨code, h⟩
    · rw [h]; exact ⟨rfl, hc1⟩
    · obtain ⟨x, -, y⟩ := hit_consistent m _ _ _ _ code hb1 h hc1
      exact ⟨x, y⟩
  obtain ⟨a3, ha3, hcall, hh3, hs3, hl3, -, -⟩ := playerContact_spec2 m inp a2 hb2
  rw [h3] at ha3
  have e3 : a3 = g3 := (Option.some.inj ha3).symm
  subst e3
  obtain ⟨hcnt3, hal3, hb3, hc3⟩ := contact_consistent m _ _ _ _ _ _ hb2 hcall h2c.2
  have hdf := damageFlash_frame inp a3
  refine ⟨UpdatePlaying.damageFlash inp a3, hat, hup, ?_, ?_, ?_, ?_, ?_, ?_⟩
  · rw [hdf.1]; exact hb3
  · rw [hdf.1]; exact hc3
  · rw [hdf.1, hcnt3, h2c.1, hcnt1]
  · rw [hdf.2.2.2.1, hl3, hl2, hl1]
  · rw [hdf.2.2.1, hs3, hs2, hs1]
  · intro hal
    rw [hdf.1, hal3] at hal
    have hliv : a2.enemies.living = 0 := by
      have := h2c.2.1
      omega
    have hstr := strikers_le_living m a2.player.position PLAYER_COLLISION_RADIUS a2.enemies
    have h0 : EnemyManager.strikers m a2.player.position PLAYER_COLLISION_RADIUS a2.enemies = 0 := by
      omega
    rw [hdf.2.1, hh3, h0, hp2, hh1]
    simp

theorem updateLevelSelect_eq (m : Libm) (rand : Nat → Nat) (initCamera : Camera) (inp : Input)
    (game : Game) :
    UpdateLevelSelect m rand initCamera inp game =
      if inp.pressedEnter then startLevel m rand initCamera (UpdateLevelSelect.pick inp game)
      else some (UpdateLevelSelect.pick inp game) := rfl

theorem updateVictory_eq (m : Libm) (rand : Nat → Nat) (initCamera : Camera) (inp : Input)
    (game : Game) :
    UpdateVictory m rand initCamera inp game =
      if inp.pressedEnter then
        (startLevel m rand initCamera (UpdateVictory.advance game)).map (UpdateVictory.quit inp)
      else some (UpdateVictory.quit inp game) := by
  unfold UpdateVictory UpdateVictory.quit UpdateVictory.advance
  cases inp.pressedEnter
  · cases (inp.pressedQ || inp.pressedEscape) <;> simp
  · simp only [if_true]
    cases startLevel m rand initCamera
      (if game.selectedLevel < 3 then { game with selectedLevel := game.selectedLevel + 1 }
        else game) <;> cases (inp.pressedQ || inp.pressedEscape) <;> simp

theorem pick_frame (inp : Input) (game : Game)
    (hL : game.selectedLevel = 1 ∨ game.selectedLevel = 2 ∨ game.selectedLevel = 3) :
    ((UpdateLevelSelect.pick inp game).selectedLevel = 1 ∨
      (UpdateLevelSelect.pick inp game).selectedLevel = 2 ∨
      (UpdateLevelSelect.pick inp game).selectedLevel = 3) ∧
    (UpdateLevelSelect.pick inp game).state = game.state ∧
    (UpdateLevelSelect.pick inp game).enemies = game.enemies ∧
    (UpdateLevelSelect.pick inp game).player = game.player := by
  unfold UpdateLevelSelect.pick
  cases inp.pressedUp <;> cases inp.pressedLeft <;> cases inp.pressedDown <;>
    cases inp.pressedRight <;> cases inp.pressedOne <;> cases inp.pressedTwo <;>
    cases inp.pressedThree <;>
    rcases hL with h | h | h <;> simp [h]

theorem advance_frame (game : Game)
    (hL : game.selectedLevel = 1 ∨ game.selectedLevel = 2 ∨ game.selectedLevel = 3) :
    ((UpdateVictory.advance game).selectedLevel = 1 ∨
      (UpdateVictory.advance game).selectedLevel = 2 ∨
      (UpdateVictory.advance game).selectedLevel = 3) ∧
    (UpdateVictory.advance game).state = game.state ∧
    (UpdateVictory.advance game).enemies = game.enemies ∧
    (UpdateVictory.advance game).player = game.player := by
  unfold UpdateVictory.advance
  rcases hL with h | h | h <;> simp [h]

theorem quit_frame (inp : Input) (game : Game) :
    (UpdateVictory.quit inp game).selectedLevel = game.selectedLevel ∧
    (UpdateVictory.quit inp game).enemies = game.enemies ∧
    (UpdateVictory.quit inp game).player = game.player ∧
    ((UpdateVictory.quit inp game).state = game.state ∨
      (UpdateVictory.quit inp game).state = GameState.STATE_LEVEL_SELECT) := by
  unfold UpdateVictory.quit
  cases (inp.pressedQ || inp.pressedEscape) <;> simp

theorem zero_consistent : EnemyManager.zero.InBounds ∧ EnemyManager.zero.Consistent := by
  refine ⟨⟨by decide, by decide⟩, by decide, ?_⟩
  intro i e hi
  have : (EnemyManager.zero).count = 0 := rfl
  rw [this] at hi
  omega

theorem inv_init (initCamera : Camera) : (InitGame initCamera).Inv :=
  ⟨Or.inl rfl, zero_consistent.1, zero_consistent.2, Or.inl rfl,
    fun h => by simp [InitGame] at h⟩

theorem inv_startLevel (m : Libm) (rand : Nat → Nat) (initCamera : Camera) (game : Game)
    (hL : game.selectedLevel = 1 ∨ game.selectedLevel = 2 ∨ game.selectedLevel = 3) :
    ∃ (game' : Game) (mg : EnemyManager) (k' : Nat),
      startLevel m rand initCamera game = some game' ∧
      levelEnemyCount (game.selectedLevel - 1) = some (5 * game.selectedLevel) ∧
      InitEnemyManager m rand game.randCalls (5 * game.selectedLevel) = some (mg, k') ∧
      game'.enemies = mg ∧ game'.enemies.count = 5 * game.selectedLevel ∧
      game'.selectedLevel = game.selectedLevel ∧ game'.state = GameState.STATE_PLAYING ∧
      game'.Inv := by
  obtain ⟨mg, k', hinit, hstart, hcnt, hal, hb⟩ := startLevel_spec m rand initCamera game hL
  have h0 : (0 : Int) ≤ 5 * game.selectedLevel := by rcases hL with h | h | h <;> omega
  have h15 : 5 * game.selectedLevel ≤ (MAX_ENEMIES : Int) := by
    have : (MAX_ENEMIES : Int) = 15 := rfl
    rcases hL with h | h | h <;> omega
  obtain ⟨-, -, -, hc, -⟩ := init_consistent m rand _ _ _ _ h0 h15 hinit
  refine ⟨_, mg, k', hstart, (levelEnemyCount_spec _ hL).2.2.1, hinit, rfl, hcnt, rfl, rfl,
    hL, hb, hc, ?_, ?_⟩
  · show mg.count = 0 ∨ mg.count = 5 ∨ mg.count = 10 ∨ mg.count = 15
    rcases hL with h | h | h <;> omega
  · intro _
    refine ⟨?_, ?_⟩
    · show 0 < InitPlayer.health
      decide
    show 0 < mg.aliveCount
    rcases hL with h | h | h <;> omega

theorem inv_playing (m : Libm) (inp : Input) (game : Game) (hi : game.Inv) :
    ∃ game', UpdatePlaying m inp game = some game' ∧ game'.Inv := by
  obtain ⟨hL, hb, hc, hcnt, -⟩ := hi
  obtain ⟨c, -, hup, hb', hc', hcnt', hl', -, -⟩ := tick_inv m inp game hb hc
  obtain ⟨we, wp, wl, ws⟩ := winLose_frame c
  obtain ⟨te, ts, tl, th, -, -⟩ := throwTimer_frame inp (UpdatePlaying.winLose c)
  refine ⟨_, hup, ?_, ?_, ?_, ?_, ?_⟩
  · rw [tl, wl, hl']; exact hL
  · rw [te, we]; exact hb'
  · rw [te, we]; exact hc'
  · rw [te, we, hcnt']; exact hcnt
  · rw [ts, ws, th, wp, te, we]
    intro h
    by_cases h1 : c.enemies.aliveCount ≤ 0
    · simp [h1] at h
    · by_cases h2 : c.player.health ≤ 0
      · simp [h1, h2] at h
      · omega

theorem inv_step (m : Libm) (rand : Nat → Nat) (initCamera : Camera) (inp : Input) (game : Game)
    (hi : game.Inv) :
    ∃ game', UpdateGame m rand initCamera inp game = some game' ∧ game'.Inv := by
  have hi0 := hi
  obtain ⟨hL, hb, hc, hcnt, hplay⟩ := hi
  unfold UpdateGame
  cases hs : game.state with
  | STATE_TITLE =>
    refine ⟨_, rfl, ?_⟩
    unfold UpdateTitleScreen
    by_cases hk : inp.keyPressed ≠ 0
    · rw [if_pos hk]; exact ⟨hL, hb, hc, hcnt, fun h => by simp at h⟩
    · rw [if_neg hk]; exact hi0
  | STATE_LEVEL_SELECT =>
    simp only [updateLevelSelect_eq]
    obtain ⟨pL, ps, pe, pp⟩ := pick_frame inp game hL
    cases inp.pressedEnter
    · refine ⟨_, rfl, pL, ?_, ?_, ?_, ?_⟩
      · rw [pe]; exact hb
      · rw [pe]; exact hc
      · rw [pe]; exact hcnt
      · rw [ps, hs]; intro h; simp at h
    · obtain ⟨g', _, _, hst, -, -, -, -, -, -, hinv⟩ :=
        inv_startLevel m rand initCamera _ pL
      exact ⟨g', hst, hinv⟩
  | STATE_PLAYING => exact inv_playing m inp game hi0
  | STATE_GAME_OVER =>
    refine ⟨_, rfl, ?_⟩
    unfold UpdateGameOver
    cases inp.pressedEnter
    · exact ⟨hL, hb, hc, hcnt, fun h => by simp [hs] at h⟩
    · exact ⟨hL, hb, hc, hcnt, fun h => by simp at h⟩
  | STATE_VICTORY =>
    simp only [updateVictory_eq]
    obtain ⟨aL, as, ae, ap⟩ := advance_frame game hL
    cases inp.pressedEnter
    · obtain ⟨ql, qe, qp, qs⟩ := quit_frame inp game
      refine ⟨_, rfl, ?_, ?_, ?_, ?_, ?_⟩
      · rw [ql]; exact hL
      · rw [qe]; exact hb
      · rw [qe]; exact hc
      · rw [qe]; exact hcnt
      · intro h
        rcases qs with q | q
        · rw [q, hs] at h; simp at h
        · rw [q] at h; simp at h
    · obtain ⟨g', _, _, hst, -, -, -, -, -, -, hinv⟩ :=
        inv_startLevel m rand initCamera _ aL
      obtain ⟨ql, qe, qp, qs⟩ := quit_frame inp g'
      refine ⟨UpdateVictory.quit inp g', by simp [hst], ?_, ?_, ?_, ?_, ?_⟩
      · rw [ql]; exact hinv.1
      · rw [qe]; exact hinv.2.1
      · rw [qe]; exact hinv.2.2.1
      · rw [qe]; exact hinv.2.2.2.1
      · intro h
        rw [qp, qe]
        rcases qs with q | q
        · rw [q] at h; exact hinv.2.2.2.2 h
        · rw [q] at h; simp at h

theorem reachable_inv (m : Libm) (rand : Nat → Nat) (initCamera : Camera) (game : Game)
    (hr : Reachable m rand initCamera game) : game.Inv := by
  induction hr with
  | init => exact inv_init initCamera
  | step _ h ih =>
    obtain ⟨g', hg, hinv⟩ := inv_step m rand initCamera _ _ ih
    rw [hg] at h
    exact (Option.some.inj h) ▸ hinv

theorem menuGame_reachable : Reachable sampleLibm sampleRand sampleCamera menuGame :=
  have h : UpdateGame sampleLibm sampleRand sampleCamera anyKeyInput (InitGame sampleCamera) =
      some menuGame := rfl
  Reachable.step Reachable.init h

theorem startedGame_spec :
    UpdateGame sampleLibm sampleRand sampleCamera confirmInput menuGame = some startedGame ∧
    startedGame.state = GameState.STATE_PLAYING := by
  obtain ⟨g', _, _, hst, -, -, -, -, -, hs, -⟩ :=
    inv_startLevel sampleLibm sampleRand sampleCamera
      (UpdateLevelSelect.pick confirmInput menuGame) (Or.inl rfl)
  have h : UpdateGame sampleLibm sampleRand sampleCamera confirmInput menuGame = some g' := hst
  have e : startedGame = g' := by
    unfold startedGame
    rw [h]
    rfl
  rw [e]
  exact ⟨h, hs⟩

theorem struckPool_reachable : PoolReachable sampleLibm sampleRand 0 5 struckPool := by
  obtain ⟨pool0, k', -, -, hinit, -, -, hlen, -⟩ :=
    initEnemyManager_spec sampleLibm sampleRand 0 5 (by decide)
  have e0 : levelOnePool = pool0 := by
    unfold levelOnePool
    rw [hinit]
    rfl
  have hr0 : PoolReachable sampleLibm sampleRand 0 5 levelOnePool := e0 ▸ PoolReachable.init hinit
  have hb0 : levelOnePool.InBounds :=
    (poolReachable_inv sampleLibm sampleRand 0 5 (by decide) (by decide) _ hr0).2.1
  obtain ⟨pool1, code, hhit, -⟩ := frisbee_total sampleLibm levelOnePool ⟨3, 1, 4⟩ 0.15 hb0
  have e1 : struckPool = pool1 := by
    unfold struckPool
    rw [hhit]
    rfl
  exact e1 ▸ PoolReachable.hit hr0 hhit

/-! ## Claims -/

/-- Claim C1. Wherever a living actor is within range of the projectile,
`CheckFrisbeeEnemyCollision` takes exactly 1 from the health of the hit actor
(the lowest-index living actor in range, stored as `e` at index `i`); when the
new health is `≤ 0` it returns 2 (KILLED), clears `alive` and takes exactly 1
from `aliveCount`, otherwise it returns 1 (DAMAGED) and leaves `alive` and
`aliveCount` as they were.  In particular, for every generator and every library
with `sqrtf 0 = 0`, on the pool made by `InitEnemyManager(5)` two successive
calls with the projectile at actor 0's position + 1.0 on Y and radius 0.15
return 1 (health 2 to 1) and then 2 (health 1 to 0), and `aliveCount` goes from
5 to 4. -/
theorem c1_projectile_hit (m : Libm) :
    (∀ (manager : EnemyManager) (frisbeePos : Vector3) (frisbeeRadius : ℚ) (i : Nat) (e : Enemy),
      manager.firstInRange m frisbeePos frisbeeRadius i →
      manager.enemies[i]? = some e →
      ∃ (manager' : EnemyManager) (code : Int) (e' : Enemy),
        CheckFrisbeeEnemyCollision m manager frisbeePos frisbeeRadius = some (manager', code) ∧
        manager'.enemies[i]? = some e' ∧ e'.health = e.health - 1 ∧
        (e'.health ≤ 0 →
          code = 2 ∧ e'.alive = false ∧ manager'.aliveCount = manager.aliveCount - 1) ∧
        (¬ e'.health ≤ 0 →
          code = 1 ∧ e'.alive = e.alive ∧ manager'.aliveCount = manager.aliveCount)) ∧
    (m.sqrtf 0 = 0 → ∀ (rand : Nat → Nat) (k : Nat),
      ∃ (pool0 pool1 pool2 : EnemyManager) (k' : Nat) (e0 e1 e2 : Enemy),
        InitEnemyManager m rand k 5 = some (pool0, k') ∧
        pool0.enemies[0]? = some e0 ∧ e0.health = 2 ∧ pool0.aliveCount = 5 ∧
        CheckFrisbeeEnemyCollision m pool0
          ⟨e0.position.x, e0.position.y + 1.0, e0.position.z⟩ 0.15 = some (pool1, 1) ∧
        pool1.enemies[0]? = some e1 ∧ e1.health = 1 ∧ pool1.aliveCount = 5 ∧
        CheckFrisbeeEnemyCollision m pool1
          ⟨e0.position.x, e0.position.y + 1.0, e0.position.z⟩ 0.15 = some (pool2, 2) ∧
        pool2.enemies[0]? = some e2 ∧ e2.health = 0 ∧ e2.alive = false ∧
        pool2.aliveCount = 4) := by
  constructor
  · intro manager fp fr i e hfirst hi
    have hil : i < manager.enemies.length := (List.getElem?_eq_some.mp hi).1
    have hres := frisbee_hit m manager fp fr i e hfirst hi
    by_cases hk : e.health - 1 ≤ 0
    · simp only [EnemyManager.hitAt, if_pos hk] at hres
      exact ⟨_, _, { e with health := e.health - 1, alive := false }, hres,
        by simp only [List.getElem?_set_self hil], rfl, fun _ => ⟨rfl, rfl, rfl⟩,
        fun hn => absurd hk hn⟩
    · simp only [EnemyManager.hitAt, if_neg hk] at hres
      exact ⟨_, _, { e with health := e.health - 1 }, hres,
        by simp only [List.getElem?_set_self hil], rfl, fun hn => absurd hn hk,
        fun _ => ⟨rfl, rfl, rfl⟩⟩
  · intro h0 rand k
    obtain ⟨pool0, k', c, t, hinit, hcnt, hal, hlen, -, -, hspawn, -⟩ :=
      initEnemyManager_spec m rand k 5 (by decide)
    obtain ⟨-, e0, he0, hh, ha, -⟩ := hspawn 0 (by decide)
    have hl0 : 0 < pool0.enemies.length := by rw [hlen]; decide
    have hrange : ∀ (e : Enemy), e.alive = true → e.position = e0.position →
        e.inProjectileRange m ⟨e0.position.x, e0.position.y + 1.0, e0.position.z⟩ 0.15 := by
      intro e hea hep
      refine ⟨hea, ?_⟩
      simp only [Vector3Distance, hep, sub_self, mul_zero, add_zero, h0]
      norm_num
    have hf0 : pool0.firstInRange m ⟨e0.position.x, e0.position.y + 1.0, e0.position.z⟩ 0.15 0 :=
      ⟨by rw [hcnt]; decide, ⟨e0, he0, hrange e0 ha rfl⟩, fun j _ hj => absurd hj (Nat.not_lt_zero j)⟩
    have hres0 := frisbee_hit m pool0 _ 0.15 0 e0 hf0 he0
    have hk0 : ¬ e0.health - 1 ≤ 0 := by rw [hh]; decide
    simp only [EnemyManager.hitAt, if_neg hk0] at hres0
    have he1 : ({ pool0 with enemies := pool0.enemies.set 0 { e0 with health := e0.health - 1 } } :
        EnemyManager).enemies[0]? = some { e0 with health := e0.health - 1 } := by
      simp only [List.getElem?_set_self hl0]
    have hf1 : ({ pool0 with enemies := pool0.enemies.set 0 { e0 with health := e0.health - 1 } } :
        EnemyManager).firstInRange m ⟨e0.position.x, e0.position.y + 1.0, e0.position.z⟩ 0.15 0 :=
      ⟨by show (0 : Int) < pool0.count; rw [hcnt]; decide, ⟨_, he1, hrange _ ha rfl⟩,
        fun j _ hj => absurd hj (Nat.not_lt_zero j)⟩
    have hres1 := frisbee_hit m _ _ 0.15 0 _ hf1 he1
    have hk1 : ({ e0 with health := e0.health - 1 } : Enemy).health - 1 ≤ 0 := by
      show e0.health - 1 - 1 ≤ 0
      rw [hh]; decide
    simp only [EnemyManager.hitAt, if_pos hk1] at hres1
    refine ⟨pool0, _, _, k', e0, { e0 with health := e0.health - 1 },
      { e0 with health := e0.health - 1 - 1, alive := false },
      hinit, he0, hh, hal, hres0, he1, ?_, hal, hres1, ?_, ?_, rfl, ?_⟩
    · show e0.health - 1 = 1
      rw [hh]; rfl
    · simp only [List.length_set, hl0, List.getElem?_set_self]
    · show e0.health - 1 - 1 = 0
      rw [hh]; rfl
    · show pool0.aliveCount - 1 = 4
      rw [hal]; rfl

/-- Witness for C1: the sample pool with the projectile at the body centre of
actor 1 (actor 0 is 5 units away), and the pool of `InitEnemyManager(5)` under
the sample library and generator. -/
theorem c1_projectile_hit_witness :
    samplePool.firstInRange sampleLibm ⟨3, 1, 4⟩ 0.15 1 ∧
    samplePool.enemies[1]? = some ⟨⟨3, 0, 4⟩, 1, true, 1 / 2, 0⟩ ∧
    (∃ (manager' : EnemyManager) (code : Int) (e' : Enemy),
      CheckFrisbeeEnemyCollision sampleLibm samplePool ⟨3, 1, 4⟩ 0.15 = some (manager', code) ∧
      manager'.enemies[1]? = some e' ∧ e'.health = (1 : Int) - 1 ∧
      (e'.health ≤ 0 →
        code = 2 ∧ e'.alive = false ∧ manager'.aliveCount = samplePool.aliveCount - 1) ∧
      (¬ e'.health ≤ 0 →
        code = 1 ∧ e'.alive = true ∧ manager'.aliveCount = samplePool.aliveCount)) ∧
    sampleLibm.sqrtf 0 = 0 ∧
    (∃ (pool0 pool1 pool2 : EnemyManager) (k' : Nat) (e0 e1 e2 : Enemy),
      InitEnemyManager sampleLibm sampleRand 0 5 = some (pool0, k') ∧
      pool0.enemies[0]? = some e0 ∧ e0.health = 2 ∧ pool0.aliveCount = 5 ∧
      CheckFrisbeeEnemyCollision sampleLibm pool0
        ⟨e0.position.x, e0.position.y + 1.0, e0.position.z⟩ 0.15 = some (pool1, 1) ∧
      pool1.enemies[0]? = some e1 ∧ e1.health = 1 ∧ pool1.aliveCount = 5 ∧
      CheckFrisbeeEnemyCollision sampleLibm pool1
        ⟨e0.position.x, e0.position.y + 1.0, e0.position.z⟩ 0.15 = some (pool2, 2) ∧
      pool2.enemies[0]? = some e2 ∧ e2.health = 0 ∧ e2.alive = false ∧
      pool2.aliveCount = 4) :=
  ⟨samplePool_firstInRange, rfl,
    (c1_projectile_hit sampleLibm).1 samplePool ⟨3, 1, 4⟩ 0.15 1 ⟨⟨3, 0, 4⟩, 1, true, 1 / 2, 0⟩
      samplePool_firstInRange rfl,
    ratSqrt_zero, (c1_projectile_hit sampleLibm).2 ratSqrt_zero sampleRand 0⟩

/-- Claim C2. For every pool (inside its array), projectile position and radius,
`CheckFrisbeeEnemyCollision` returns and changes at most one actor, the
lowest-index living actor whose body centre is within `frisbeeRadius + 0.8` of
the projectile: every array slot that is not that actor, so also every other
living actor in range, is left as it was, and so is `count`.  When no living
actor of the pool is in range the call returns 0 and the whole pool is
unchanged; when one is, the return code is not 0 and the pool has changed. -/
theorem c2_projectile_hit_frame (m : Libm) (manager : EnemyManager) (frisbeePos : Vector3)
    (frisbeeRadius : ℚ) (hb : manager.InBounds) :
    ∃ (manager' : EnemyManager) (code : Int),
      CheckFrisbeeEnemyCollision m manager frisbeePos frisbeeRadius = some (manager', code) ∧
      manager'.count = manager.count ∧
      manager'.enemies.length = manager.enemies.length ∧
      (∀ j : Nat, ¬ manager.firstInRange m frisbeePos frisbeeRadius j →
        manager'.enemies[j]? = manager.enemies[j]?) ∧
      ((∀ (i : Nat) (e : Enemy), (i : Int) < manager.count → manager.enemies[i]? = some e →
          ¬ e.inProjectileRange m frisbeePos frisbeeRadius) →
        code = 0 ∧ manager' = manager) ∧
      ((∃ (i : Nat) (e : Enemy), (i : Int) < manager.count ∧ manager.enemies[i]? = some e ∧
          e.inProjectileRange m frisbeePos frisbeeRadius) →
        code ≠ 0 ∧ manager' ≠ manager) := by
  by_cases hex : ∃ i : Nat, (i : Int) < manager.count ∧ ∃ e, manager.enemies[i]? = some e ∧
      e.inProjectileRange m frisbeePos frisbeeRadius
  · -- some living actor is in range: take the lowest index
    classical
    have hmin : ∀ j : Nat, j < Nat.find hex → ¬ ((j : Int) < manager.count ∧
        ∃ e, manager.enemies[j]? = some e ∧ e.inProjectileRange m frisbeePos frisbeeRadius) :=
      fun j hj => Nat.find_min hex hj
    obtain ⟨hic, e, hi, hr⟩ := Nat.find_spec hex
    generalize Nat.find hex = i at hmin hic hi hr
    have hil : i < manager.enemies.length := (List.getElem?_eq_some.mp hi).1
    have hfirst : manager.firstInRange m frisbeePos frisbeeRadius i := by
      refine ⟨hic, ⟨e, hi, hr⟩, fun j e' hj he' hr' => hmin j hj ⟨?_, e', he', hr'⟩⟩
      have : (j : Int) < (i : Int) := by exact_mod_cast hj
      omega
    have hres := frisbee_hit m manager frisbeePos frisbeeRadius i e hfirst hi
    have hne : ∀ e' : Enemy, e'.health = e.health - 1 →
        ∀ mg : EnemyManager, mg.enemies[i]? = some e' → mg ≠ manager := by
      intro e' he' mg hmg heq
      rw [heq, hi] at hmg
      have := congrArg Enemy.health (Option.some.inj hmg)
      omega
    have hframe : ∀ (x : Enemy) (j : Nat), ¬ manager.firstInRange m frisbeePos frisbeeRadius j →
        (manager.enemies.set i x)[j]? = manager.enemies[j]? := by
      intro x j hj
      by_cases hji : i = j
      · subst hji; exact absurd hfirst hj
      · exact List.getElem?_set_ne hji
    have hnot : ¬ ∀ (i : Nat) (e : Enemy), (i : Int) < manager.count → manager.enemies[i]? = some e →
        ¬ e.inProjectileRange m frisbeePos frisbeeRadius := fun h => h i e hic hi hr
    by_cases hk : e.health - 1 ≤ 0
    · simp only [EnemyManager.hitAt, if_pos hk] at hres
      refine ⟨_, _, hres, rfl, by simp only [List.length_set], hframe _, fun h => absurd h hnot,
        fun _ => ⟨by decide, hne { e with health := e.health - 1, alive := false } rfl _ ?_⟩⟩
      simp only [List.getElem?_set_self hil]
    · simp only [EnemyManager.hitAt, if_neg hk] at hres
      refine ⟨_, _, hres, rfl, by simp only [List.length_set], hframe _, fun h => absurd h hnot,
        fun _ => ⟨by decide, hne { e with health := e.health - 1 } rfl _ ?_⟩⟩
      simp only [List.getElem?_set_self hil]
  · have hmiss : ∀ (i : Nat) (e : Enemy), (i : Int) < manager.count → manager.enemies[i]? = some e →
        ¬ e.inProjectileRange m frisbeePos frisbeeRadius :=
      fun i e hic hi hr => hex ⟨i, hic, e, hi, hr⟩
    refine ⟨manager, 0, frisbee_miss m manager frisbeePos frisbeeRadius hb hmiss, rfl, rfl,
      fun _ _ => rfl, fun _ => ⟨rfl, rfl⟩, ?_⟩
    rintro ⟨i, e, hic, hi, hr⟩
    exact absurd hr (hmiss i e hic hi)

/-- Witness for C2: the sample pool with the projectile at the body centre of
actors 1 and 2. -/
theorem c2_projectile_hit_frame_witness :
    samplePool.InBounds ∧
    ∃ (manager' : EnemyManager) (code : Int),
      CheckFrisbeeEnemyCollision sampleLibm samplePool ⟨3, 1, 4⟩ 0.15 = some (manager', code) ∧
      manager'.count = samplePool.count ∧
      manager'.enemies.length = samplePool.enemies.length ∧
      (∀ j : Nat, ¬ samplePool.firstInRange sampleLibm ⟨3, 1, 4⟩ 0.15 j →
        manager'.enemies[j]? = samplePool.enemies[j]?) ∧
      ((∀ (i : Nat) (e : Enemy), (i : Int) < samplePool.count → samplePool.enemies[i]? = some e →
          ¬ e.inProjectileRange sampleLibm ⟨3, 1, 4⟩ 0.15) →
        code = 0 ∧ manager' = samplePool) ∧
      ((∃ (i : Nat) (e : Enemy), (i : Int) < samplePool.count ∧ samplePool.enemies[i]? = some e ∧
          e.inProjectileRange sampleLibm ⟨3, 1, 4⟩ 0.15) →
        code ≠ 0 ∧ manager' ≠ samplePool) :=
  ⟨samplePool_inBounds, c2_projectile_hit_frame sampleLibm samplePool ⟨3, 1, 4⟩ 0.15 samplePool_inBounds⟩

/-- Claim C3. For every pool (inside its array), player position and radius,
`CheckEnemyPlayerCollision` returns exactly the number of living actors of the
pool whose XZ distance to the player is within `playerRadius + 0.8` and whose
cooldown is `≤ 0`, sets the cooldown of each of them to 1.0 and leaves every
other actor, every other field of those actors, `count` and `aliveCount` as
they were.  The Playing tick `UpdatePlaying` runs to completion and the health
it leaves is the health before the tick minus the count returned by its call
of `CheckEnemyPlayerCollision` (made on the state `before`, after the player,
enemy and frisbee updates).  With 3 such actors and player health 5 the call
returns 3, the contact block leaves health 2, and the 3 cooldowns are 1.0. -/
theorem c3_player_contact (m : Libm) :
    (∀ (manager : EnemyManager) (playerPos : Vector3) (playerRadius dt : ℚ), manager.InBounds →
      ∃ manager' : EnemyManager,
        CheckEnemyPlayerCollision m manager playerPos playerRadius dt
          = some (manager', (manager.strikers m playerPos playerRadius : Int)) ∧
        manager'.count = manager.count ∧ manager'.aliveCount = manager.aliveCount ∧
        manager'.enemies.length = manager.enemies.length ∧
        ∀ (j : Nat) (e : Enemy), manager.enemies[j]? = some e →
          manager'.enemies[j]? = some
            (if (j : Int) < manager.count ∧ e.canStrike m playerPos playerRadius = true
              then { e with attackCooldown := 1.0 } else e)) ∧
    (∀ (inp : Input) (game : Game), game.enemies.InBounds →
      ∃ (game' before : Game) (manager' : EnemyManager),
        UpdatePlaying m inp game = some game' ∧
        (UpdatePlaying.simulate m inp game).bind (UpdatePlaying.frisbeeHit m) = some before ∧
        before.player.health = game.player.health ∧
        CheckEnemyPlayerCollision m before.enemies before.player.position
            PLAYER_COLLISION_RADIUS inp.frameTime
          = some (manager',
              (before.enemies.strikers m before.player.position PLAYER_COLLISION_RADIUS : Int)) ∧
        game'.enemies = manager' ∧
        game'.player.health = game.player.health -
          (before.enemies.strikers m before.player.position PLAYER_COLLISION_RADIUS : Int)) ∧
    (∀ (inp : Input) (game : Game), game.enemies.InBounds → game.player.health = 5 →
      game.enemies.strikers m game.player.position PLAYER_COLLISION_RADIUS = 3 →
      ∃ (game' : Game),
        CheckEnemyPlayerCollision m game.enemies game.player.position
            PLAYER_COLLISION_RADIUS inp.frameTime = some (game'.enemies, 3) ∧
        UpdatePlaying.playerContact m inp game = some game' ∧
        game'.player.health = 2 ∧
        ∀ (j : Nat) (e : Enemy), (j : Int) < game.enemies.count →
          game.enemies.enemies[j]? = some e →
          e.canStrike m game.player.position PLAYER_COLLISION_RADIUS = true →
          ∃ e', game'.enemies.enemies[j]? = some e' ∧ e'.attackCooldown = 1.0) := by
  have hfn : ∀ (manager : EnemyManager) (playerPos : Vector3) (playerRadius dt : ℚ),
      manager.InBounds →
      ∃ manager' : EnemyManager,
        CheckEnemyPlayerCollision m manager playerPos playerRadius dt
          = some (manager', (manager.strikers m playerPos playerRadius : Int)) ∧
        manager'.count = manager.count ∧ manager'.aliveCount = manager.aliveCount ∧
        manager'.enemies.length = manager.enemies.length ∧
        ∀ (j : Nat) (e : Enemy), manager.enemies[j]? = some e →
          manager'.enemies[j]? = some
            (if (j : Int) < manager.count ∧ e.canStrike m playerPos playerRadius = true
              then { e with attackCooldown := 1.0 } else e) := by
    intro manager pp pr dt hb
    obtain ⟨mg', hres, hcnt, hal, hlen, hfr⟩ := contact_spec m manager pp pr dt hb
    refine ⟨mg', hres, hcnt, hal, hlen, ?_⟩
    intro j e he
    rw [hfr j e he]
    congr 1
    by_cases hj : (j : Int) < manager.count
    · by_cases hs : e.canStrike m pp pr = true
      · simp only [hj, hs, Enemy.afterContact, and_self, if_true, ENEMY_ATTACK_COOLDOWN]
      · simp only [hj, hs, Enemy.afterContact, and_false, Bool.false_eq_true, if_true, if_false]
    · simp only [hj, false_and, if_false]
  refine ⟨hfn, ?_, ?_⟩
  · intro inp game hb
    obtain ⟨g1, h1, hh1, hb1, -⟩ := simulate_spec m inp game hb
    obtain ⟨g2, h2, hp2, hb2⟩ := frisbeeHit_spec m g1 hb1
    obtain ⟨g3, mg', h3, hcall, he3, hh3⟩ := playerContact_spec m inp g2 hb2
    have htail := tickTail_frame inp g3
    refine ⟨UpdatePlaying.throwTimer inp (UpdatePlaying.winLose (UpdatePlaying.damageFlash inp g3)),
      g2, mg', ?_, ?_, ?_, hcall, ?_, ?_⟩
    · unfold UpdatePlaying
      simp only [h1, h2, h3]
    · simp only [h1, Option.some_bind, h2]
    · rw [hp2, hh1]
    · rw [htail.1, he3]
    · rw [htail.2, hh3, hp2, hh1]
  · intro inp game hb hh hs
    obtain ⟨g3, mg', h3, hcall, he3, hh3⟩ := playerContact_spec m inp game hb
    obtain ⟨mg'', hres, -, -, -, hfr⟩ :=
      hfn game.enemies game.player.position PLAYER_COLLISION_RADIUS inp.frameTime hb
    have hmg : mg'' = mg' := by
      have := hres.symm.trans hcall
      simp only [Option.some.injEq, Prod.mk.injEq] at this
      exact this.1
    subst hmg
    refine ⟨g3, ?_, h3, ?_, ?_⟩
    · rw [hcall, he3, hs]; rfl
    · rw [hh3, hh, hs]; rfl
    · intro j e hj he hstr
      refine ⟨{ e with attackCooldown := 1.0 }, ?_, rfl⟩
      rw [he3, hfr j e he, if_pos ⟨hj, hstr⟩]

/-- Witness for C3: the sample Playing state, whose three actors stand on the
player (health 5) with no cooldown. -/
theorem c3_player_contact_witness :
    sampleGame.enemies.InBounds ∧ sampleGame.player.health = 5 ∧
    sampleGame.enemies.strikers sampleLibm sampleGame.player.position PLAYER_COLLISION_RADIUS = 3 ∧
    (∃ manager' : EnemyManager,
      CheckEnemyPlayerCollision sampleLibm sampleGame.enemies sampleGame.player.position
          PLAYER_COLLISION_RADIUS (1 / 60)
        = some (manager', (sampleGame.enemies.strikers sampleLibm sampleGame.player.position
            PLAYER_COLLISION_RADIUS : Int)) ∧
      manager'.count = sampleGame.enemies.count ∧
      manager'.aliveCount = sampleGame.enemies.aliveCount ∧
      manager'.enemies.length = sampleGame.enemies.enemies.length ∧
      ∀ (j : Nat) (e : Enemy), sampleGame.enemies.enemies[j]? = some e →
        manager'.enemies[j]? = some
          (if (j : Int) < sampleGame.enemies.count ∧
              e.canStrike sampleLibm sampleGame.player.position PLAYER_COLLISION_RADIUS = true
            then { e with attackCooldown := 1.0 } else e)) ∧
    (∃ (game' before : Game) (manager' : EnemyManager),
      UpdatePlaying sampleLibm sampleInput sampleGame = some game' ∧
      (UpdatePlaying.simulate sampleLibm sampleInput sampleGame).bind
        (UpdatePlaying.frisbeeHit sampleLibm) = some before ∧
      before.player.health = sampleGame.player.health ∧
      CheckEnemyPlayerCollision sampleLibm before.enemies before.player.position
          PLAYER_COLLISION_RADIUS sampleInput.frameTime
        = some (manager',
            (before.enemies.strikers sampleLibm before.player.position
              PLAYER_COLLISION_RADIUS : Int)) ∧
      game'.enemies = manager' ∧
      game'.player.health = sampleGame.player.health -
        (before.enemies.strikers sampleLibm before.player.position
          PLAYER_COLLISION_RADIUS : Int)) ∧
    (∃ (game' : Game),
      CheckEnemyPlayerCollision sampleLibm sampleGame.enemies sampleGame.player.position
          PLAYER_COLLISION_RADIUS sampleInput.frameTime = some (game'.enemies, 3) ∧
      UpdatePlaying.playerContact sampleLibm sampleInput sampleGame = some game' ∧
      game'.player.health = 2 ∧
      ∀ (j : Nat) (e : Enemy), (j : Int) < sampleGame.enemies.count →
        sampleGame.enemies.enemies[j]? = some e →
        e.canStrike sampleLibm sampleGame.player.position PLAYER_COLLISION_RADIUS = true →
        ∃ e', game'.enemies.enemies[j]? = some e' ∧ e'.attackCooldown = 1.0) :=
  ⟨sampleContactPool_inBounds, rfl, sampleGame_strikers,
    (c3_player_contact sampleLibm).1 sampleGame.enemies sampleGame.player.position
      PLAYER_COLLISION_RADIUS (1 / 60) sampleContactPool_inBounds,
    (c3_player_contact sampleLibm).2.1 sampleInput sampleGame sampleContactPool_inBounds,
    (c3_player_contact sampleLibm).2.2 sampleInput sampleGame sampleContactPool_inBounds rfl
      sampleGame_strikers⟩

/-- Claim C4. For every pool (inside its array), player position and `dt`,
`UpdateEnemies` returns, and afterwards every living actor of the pool has its
position's X and Z in [-48, 48], whatever the positions were before the call. -/
theorem c4_update_clamps (m : Libm) (manager : EnemyManager) (playerPosition : Vector3) (dt : ℚ)
    (hb : manager.InBounds) :
    ∃ manager' : EnemyManager,
      UpdateEnemies m manager playerPosition dt = some manager' ∧
      ∀ (i : Nat) (e : Enemy), (i : Int) < manager'.count → manager'.enemies[i]? = some e →
        e.alive = true →
        -48 ≤ e.position.x ∧ e.position.x ≤ 48 ∧ -48 ≤ e.position.z ∧ e.position.z ≤ 48 := by
  obtain ⟨mg', hres, hcnt, -, hlen, hfr⟩ := updateEnemies_spec m manager playerPosition dt hb
  refine ⟨mg', hres, ?_⟩
  intro i e hi he ha
  rw [hcnt] at hi
  have hil : i < manager.enemies.length := by
    rw [← hlen]; exact (List.getElem?_eq_some.mp he).1
  have hnew := hfr i _ (List.getElem?_eq_getElem hil)
  rw [he, if_pos hi] at hnew
  have hee : e = UpdateEnemies.body m playerPosition dt manager.enemies[i] := Option.some.inj hnew
  rw [hee] at ha ⊢
  rw [body_alive] at ha
  exact body_bounds m playerPosition dt _ ha

/-- Witness for C4: the sample pool, updated towards a player at (60, 2, 60). -/
theorem c4_update_clamps_witness :
    samplePool.InBounds ∧
    ∃ manager' : EnemyManager,
      UpdateEnemies sampleLibm samplePool ⟨60, 2, 60⟩ (1 / 60) = some manager' ∧
      ∀ (i : Nat) (e : Enemy), (i : Int) < manager'.count → manager'.enemies[i]? = some e →
        e.alive = true →
        -48 ≤ e.position.x ∧ e.position.x ≤ 48 ∧ -48 ≤ e.position.z ∧ e.position.z ≤ 48 :=
  ⟨samplePool_inBounds, c4_update_clamps sampleLibm samplePool ⟨60, 2, 60⟩ (1 / 60) samplePool_inBounds⟩

/-- Claim C5. For every `pos` and `playerStart`, `IsPositionValid` returns true if
and only if the XZ distance from `pos` to `playerStart` is at least 15, `pos.x`
and `pos.z` lie in [-45, 45], and the XZ distance from `pos` to each of the 20
obstacle centres `((i mod 5) * 15 - 30, (i div 5) * 15 - 30)`, `i < 20`, is at
least 4. -/
theorem c5_spawn_valid_iff (m : Libm) (pos playerStart : Vector3) :
    IsPositionValid m pos playerStart = true ↔
      (15 ≤ distXZ m pos playerStart ∧
        (-45 ≤ pos.x ∧ pos.x ≤ 45) ∧ (-45 ≤ pos.z ∧ pos.z ≤ 45) ∧
        ∀ i : Nat, i < 20 →
          4 ≤ distXZ m pos ⟨((i % 5 : Nat) : ℚ) * 15 - 30, 0, ((i / 5 : Nat) : ℚ) * 15 - 30⟩) := by
  have htree : ∀ i : Nat, GetTreePosition i
      = ⟨((i % 5 : Nat) : ℚ) * 15 - 30, 0, ((i / 5 : Nat) : ℚ) * 15 - 30⟩ := by
    intro i
    simp only [GetTreePosition]
    norm_num
  unfold IsPositionValid
  by_cases hd : m.sqrtf ((pos.x - playerStart.x) * (pos.x - playerStart.x) +
      (pos.z - playerStart.z) * (pos.z - playerStart.z)) < 15.0
  · simp only [hd, if_true, Bool.false_eq_true, false_iff, not_and]
    intro h15
    exfalso
    simp only [distXZ] at h15
    norm_num at hd
    linarith
  · have hd' : 15 ≤ distXZ m pos playerStart := by
      simp only [distXZ]
      norm_num at hd
      exact hd
    by_cases hw : pos.x < -45.0 ∨ pos.x > 45.0 ∨ pos.z < -45.0 ∨ pos.z > 45.0
    · simp only [hd, hw, if_true, if_false, Bool.false_eq_true, false_iff, not_and]
      intro _ hx hz
      exfalso
      norm_num at hw
      rcases hw with h | h | h | h <;> linarith [hx.1, hx.2, hz.1, hz.2]
    · simp only [hd, hw, if_false, trees_iff, List.mem_range, htree]
      have hw' : (-45 ≤ pos.x ∧ pos.x ≤ 45) ∧ (-45 ≤ pos.z ∧ pos.z ≤ 45) := by
        norm_num at hw
        obtain ⟨h1, h2, h3, h4⟩ := hw
        exact ⟨⟨h1, h2⟩, h3, h4⟩
      constructor
      · intro h
        exact ⟨hd', hw'.1, hw'.2, h⟩
      · intro h
        exact h.2.2.2

/-- Claim C6. For every `enemyCount ≤ 15` and every sequence of random draws,
`InitEnemyManager` returns a pool, and each of its actors `i < enemyCount` gets
the first sampled candidate that passes `IsPositionValid` among at most 100
samples, or the 100th sample when none passes: with `c i` the number of
`rand()` calls made when the actor's iteration starts (one call draws the walk
phase, then each sample takes two) and `t i` the number of samples taken,
`1 ≤ t i ≤ 100`, the position kept is sample number `t i`, every earlier sample
was rejected, and the kept one is valid unless `t i = 100`.  Every sampled
coordinate lies in [-40, 40]. -/
theorem c6_spawn_rejection_sampling (m : Libm) (rand : Nat → Nat) (k : Nat) (enemyCount : Int)
    (hc : enemyCount ≤ MAX_ENEMIES) :
    ∃ (manager : EnemyManager) (k' : Nat) (c t : Nat → Nat),
      InitEnemyManager m rand k enemyCount = some (manager, k') ∧
      c 0 = k ∧ k' = c enemyCount.toNat ∧
      (∀ i : Nat, (i : Int) < enemyCount →
        c (i + 1) = c i + 1 + 2 * t i ∧ 1 ≤ t i ∧ t i ≤ 100 ∧
        ∃ e : Enemy, manager.enemies[i]? = some e ∧
          e.position = spawnCandidate rand (c i + 1) (t i - 1) ∧
          (∀ j : Nat, j < t i - 1 →
            IsPositionValid m (spawnCandidate rand (c i + 1) j) ⟨0, 0, 4⟩ = false) ∧
          (IsPositionValid m e.position ⟨0, 0, 4⟩ = true ∨ t i = 100)) ∧
      (∀ c j : Nat,
        -40 ≤ (spawnCandidate rand c j).x ∧ (spawnCandidate rand c j).x ≤ 40 ∧
        -40 ≤ (spawnCandidate rand c j).z ∧ (spawnCandidate rand c j).z ≤ 40) := by
  obtain ⟨mg, k', c, t, hinit, -, -, -, hc0, hk', hspawn, -⟩ :=
    initEnemyManager_spec m rand k enemyCount hc
  have hps : spawnPlayerStart = ⟨0, 0, 4⟩ := by
    simp only [spawnPlayerStart]; norm_num
  refine ⟨mg, k', c, t, hinit, hc0, hk', ?_, spawnCandidate_range rand⟩
  intro i hi
  obtain ⟨hstep, e, he, -, -, -, -, ht1, ht2, hpos, hrej, hfin⟩ := hspawn i hi
  rw [hps] at hrej hfin
  exact ⟨hstep, ht1, ht2, e, he, hpos, hrej, hfin⟩

/-- Witness for C6: five actors under the sample library and generator. -/
theorem c6_spawn_rejection_sampling_witness :
    (5 : Int) ≤ MAX_ENEMIES ∧
    ∃ (manager : EnemyManager) (k' : Nat) (c t : Nat → Nat),
      InitEnemyManager sampleLibm sampleRand 0 5 = some (manager, k') ∧
      c 0 = 0 ∧ k' = c (5 : Int).toNat ∧
      (∀ i : Nat, (i : Int) < 5 →
        c (i + 1) = c i + 1 + 2 * t i ∧ 1 ≤ t i ∧ t i ≤ 100 ∧
        ∃ e : Enemy, manager.enemies[i]? = some e ∧
          e.position = spawnCandidate sampleRand (c i + 1) (t i - 1) ∧
          (∀ j : Nat, j < t i - 1 →
            IsPositionValid sampleLibm (spawnCandidate sampleRand (c i + 1) j) ⟨0, 0, 4⟩ = false) ∧
          (IsPositionValid sampleLibm e.position ⟨0, 0, 4⟩ = true ∨ t i = 100)) ∧
      (∀ c j : Nat,
        -40 ≤ (spawnCandidate sampleRand c j).x ∧ (spawnCandidate sampleRand c j).x ≤ 40 ∧
        -40 ≤ (spawnCandidate sampleRand c j).z ∧ (spawnCandidate sampleRand c j).z ≤ 40) :=
  ⟨by decide, c6_spawn_rejection_sampling sampleLibm sampleRand 0 5 (by decide)⟩

/-- Claim C7. `UpdateFrisbee` agrees with the reference definition: an idle
projectile is returned unchanged; a projectile in flight whose integrated
position triggers no terminal event gets velocity
`(vx, vy - 9.8 dt, vz) * (1 - 0.5 dt)` (gravity before drag, drag on all three
components), position `position + velocity' * dt`, rotation
`rotation + 720 dt`, and stays in flight. -/
theorem c7_update_reference (f : Frisbee) (dt : ℚ) :
    (f.inFlight = false → UpdateFrisbee f dt = f) ∧
    (f.inFlight = true → (f.integrated dt).terminalEvent = false →
      UpdateFrisbee f dt =
        { position :=
            ⟨f.position.x + f.velocity.x * (1 - 0.5 * dt) * dt,
             f.position.y + (f.velocity.y - 9.8 * dt) * (1 - 0.5 * dt) * dt,
             f.position.z + f.velocity.z * (1 - 0.5 * dt) * dt⟩
          velocity :=
            ⟨f.velocity.x * (1 - 0.5 * dt), (f.velocity.y - 9.8 * dt) * (1 - 0.5 * dt),
             f.velocity.z * (1 - 0.5 * dt)⟩
          rotation := f.rotation + 720 * dt
          inFlight := true }) := by
  constructor
  · intro hf
    unfold UpdateFrisbee
    simp only [hf, Bool.not_false, if_true]
  · intro hf hev
    rw [updateFrisbee_inFlight f dt hf, hev]
    simp only [Bool.false_eq_true, if_false, Frisbee.integrated]

/-- Witness for C7: the idle initial frisbee, and the sample frisbee in flight
at (7, 5, 7) for a quarter of a second. -/
theorem c7_update_reference_witness :
    InitFrisbee.inFlight = false ∧ UpdateFrisbee InitFrisbee (1 / 4) = InitFrisbee ∧
    sampleFrisbee.inFlight = true ∧ (sampleFrisbee.integrated (1 / 4)).terminalEvent = false ∧
    UpdateFrisbee sampleFrisbee (1 / 4) =
      { position :=
          ⟨sampleFrisbee.position.x + sampleFrisbee.velocity.x * (1 - 0.5 * (1 / 4)) * (1 / 4),
           sampleFrisbee.position.y +
             (sampleFrisbee.velocity.y - 9.8 * (1 / 4)) * (1 - 0.5 * (1 / 4)) * (1 / 4),
           sampleFrisbee.position.z + sampleFrisbee.velocity.z * (1 - 0.5 * (1 / 4)) * (1 / 4)⟩
        velocity :=
          ⟨sampleFrisbee.velocity.x * (1 - 0.5 * (1 / 4)),
           (sampleFrisbee.velocity.y - 9.8 * (1 / 4)) * (1 - 0.5 * (1 / 4)),
           sampleFrisbee.velocity.z * (1 - 0.5 * (1 / 4))⟩
        rotation := sampleFrisbee.rotation + 720 * (1 / 4)
        inFlight := true } :=
  ⟨rfl, (c7_update_reference InitFrisbee (1 / 4)).1 rfl, rfl, sampleFrisbee_no_event,
    (c7_update_reference sampleFrisbee (1 / 4)).2 rfl sampleFrisbee_no_event⟩

/-- Claim C8. For every projectile in flight and every `dt`, if the Y of the
position after integration is `≤ 0.1` (the value 0.1 itself included), then
`UpdateFrisbee` ends with the projectile idle: `inFlight = false`, zero
velocity and zero rotation. -/
theorem c8_ground_contact (f : Frisbee) (dt : ℚ) (hf : f.inFlight = true)
    (hy : f.position.y + (f.velocity.y - 9.8 * dt) * (1 - 0.5 * dt) * dt ≤ 0.1) :
    (UpdateFrisbee f dt).inFlight = false ∧
    (UpdateFrisbee f dt).velocity = ⟨0, 0, 0⟩ ∧
    (UpdateFrisbee f dt).rotation = 0 := by
  have hev : (f.integrated dt).terminalEvent = true := by
    have : (f.integrated dt).position.y ≤ 0.1 := hy
    simp only [Frisbee.terminalEvent, this, decide_True, Bool.true_or]
  rw [updateFrisbee_inFlight f dt hf, if_pos hev]
  simp only [ResetFrisbee]
  norm_num

/-- Witness for C8: a projectile in flight that is exactly at height 0.1 after
an update with `dt = 0`. -/
theorem c8_ground_contact_witness :
    (⟨⟨7, 0.1, 7⟩, ⟨4, 0, 0⟩, 90, true⟩ : Frisbee).inFlight = true ∧
    (0.1 : ℚ) + ((0 : ℚ) - 9.8 * 0) * (1 - 0.5 * 0) * 0 = 0.1 ∧
    (UpdateFrisbee ⟨⟨7, 0.1, 7⟩, ⟨4, 0, 0⟩, 90, true⟩ 0).inFlight = false ∧
    (UpdateFrisbee ⟨⟨7, 0.1, 7⟩, ⟨4, 0, 0⟩, 90, true⟩ 0).velocity = ⟨0, 0, 0⟩ ∧
    (UpdateFrisbee ⟨⟨7, 0.1, 7⟩, ⟨4, 0, 0⟩, 90, true⟩ 0).rotation = 0 :=
  ⟨rfl, by norm_num,
    c8_ground_contact ⟨⟨7, 0.1, 7⟩, ⟨4, 0, 0⟩, 90, true⟩ 0 rfl (by norm_num)⟩

theorem treeThrow_velocity :
    (ThrowFrisbee sampleLibm InitFrisbee InitPlayer treeCamera 0).1.velocity = ⟨10, 0, 0⟩ := by
  simp only [ThrowFrisbee, Vector3Normalize, Vector3Subtract, Vector3Scale, treeCamera,
    sampleLibm, MIN_THROW_SPEED, MAX_THROW_SPEED]
  norm_num [ratSqrt_one]

theorem treeThrow_event :
    (ThrowFrisbee sampleLibm InitFrisbee InitPlayer treeCamera 0).1.terminalEvent = true := by
  rw [terminalEvent_congr (ThrowFrisbee sampleLibm InitFrisbee InitPlayer treeCamera 0).1
    (⟨⟨-30, 2, -30⟩, ⟨0, 0, 0⟩, 0, true⟩ : Frisbee) rfl]
  simp only [Frisbee.terminalEvent, CheckTreeCollision, range20, CheckTreeCollision.loop,
    CheckCollisionBoxSphere, FRISBEE_RADIUS]
  norm_num

theorem integrated_zero (f : Frisbee) (hf : f.inFlight = true) : f.integrated 0 = f := by
  cases f with
  | mk p v r i =>
    cases p; cases v
    simp only [Frisbee.integrated] at *
    subst hf
    norm_num

/-- Counterexample to C9 as stated: a throw at zero charge from eye height on
the axis of obstacle 0, looking along +X, sets the velocity (10, 0, 0); the
update with `dt = 0` that follows finds the projectile inside the trunk box and
resets it, so its velocity is (0, 0, 0), not the thrown one. -/
theorem c9_throw_update_counterexample :
    (0 : ℚ) ≤ 0 ∧ (0 : ℚ) ≤ 1 ∧
    (ThrowFrisbee sampleLibm InitFrisbee InitPlayer treeCamera 0).1.velocity = ⟨10, 0, 0⟩ ∧
    (UpdateFrisbee (ThrowFrisbee sampleLibm InitFrisbee InitPlayer treeCamera 0).1 0).velocity
      = ⟨0, 0, 0⟩ ∧
    (UpdateFrisbee (ThrowFrisbee sampleLibm InitFrisbee InitPlayer treeCamera 0).1 0).velocity
      ≠ (ThrowFrisbee sampleLibm InitFrisbee InitPlayer treeCamera 0).1.velocity := by
  have hupd : (UpdateFrisbee (ThrowFrisbee sampleLibm InitFrisbee InitPlayer treeCamera 0).1
      0).velocity = ⟨0, 0, 0⟩ := by
    rw [updateFrisbee_inFlight _ 0 rfl, integrated_zero _ rfl, if_pos treeThrow_event]
    rfl
  refine ⟨le_rfl, by norm_num, treeThrow_velocity, hupd, ?_⟩
  rw [hupd, treeThrow_velocity]
  intro h
  have := congrArg Vector3.x h
  norm_num at this

/-- Claim C9, amended. For every throw origin (camera position), look direction
and `chargePercent`, `ThrowFrisbee` followed immediately by `UpdateFrisbee` with
`dt = 0` leaves the projectile's position equal to the throw origin; and when
the throw origin triggers no terminal event (it is above height 0.1 and the
projectile there touches no trunk, foliage or wall box), the projectile stays in
flight with its velocity equal to the velocity set by the throw. -/
theorem c9_throw_update_zero (m : Libm) (frisbee : Frisbee) (player : Player) (camera : Camera)
    (chargePercent : ℚ) :
    (ThrowFrisbee m frisbee player camera chargePercent).1.position = camera.position ∧
    (UpdateFrisbee (ThrowFrisbee m frisbee player camera chargePercent).1 0).position
      = camera.position ∧
    ((ThrowFrisbee m frisbee player camera chargePercent).1.terminalEvent = false →
      (UpdateFrisbee (ThrowFrisbee m frisbee player camera chargePercent).1 0).velocity
        = (ThrowFrisbee m frisbee player camera chargePercent).1.velocity ∧
      (UpdateFrisbee (ThrowFrisbee m frisbee player camera chargePercent).1 0).inFlight = true) := by
  have hfl : (ThrowFrisbee m frisbee player camera chargePercent).1.inFlight = true := rfl
  have hpos : (ThrowFrisbee m frisbee player camera chargePercent).1.position = camera.position :=
    rfl
  rw [updateFrisbee_inFlight _ 0 hfl, integrated_zero _ hfl]
  refine ⟨hpos, ?_, ?_⟩
  · split
    · exact hpos
    · exact hpos
  · intro hev
    rw [hev]
    exact ⟨rfl, rfl⟩

theorem sampleThrow_no_event :
    (ThrowFrisbee sampleLibm InitFrisbee InitPlayer sampleCamera (1 / 2)).1.terminalEvent
      = false := by
  rw [terminalEvent_congr (ThrowFrisbee sampleLibm InitFrisbee InitPlayer sampleCamera (1 / 2)).1
    (⟨⟨0, 2, 4⟩, ⟨0, 0, 0⟩, 0, true⟩ : Frisbee) rfl]
  simp only [Frisbee.terminalEvent, CheckTreeCollision, CheckWallCollision, range20,
    CheckTreeCollision.loop, CheckCollisionBoxSphere, FRISBEE_RADIUS]
  norm_num

/-- Witness for C9 (amended): a half-charged throw from the player start. -/
theorem c9_throw_update_zero_witness :
    (ThrowFrisbee sampleLibm InitFrisbee InitPlayer sampleCamera (1 / 2)).1.terminalEvent = false ∧
    (UpdateFrisbee (ThrowFrisbee sampleLibm InitFrisbee InitPlayer sampleCamera (1 / 2)).1 0).velocity
      = (ThrowFrisbee sampleLibm InitFrisbee InitPlayer sampleCamera (1 / 2)).1.velocity ∧
    (UpdateFrisbee (ThrowFrisbee sampleLibm InitFrisbee InitPlayer sampleCamera (1 / 2)).1 0).inFlight
      = true :=
  ⟨sampleThrow_no_event,
    (c9_throw_update_zero sampleLibm InitFrisbee InitPlayer sampleCamera (1 / 2)).2.2
      sampleThrow_no_event⟩

/-- Claim C10. For every projectile state, `ResetFrisbee` yields
`inFlight = false`, zero velocity and zero rotation, and resetting twice gives
exactly the state of resetting once. -/
theorem c10_reset_idempotent (f : Frisbee) :
    (ResetFrisbee f).inFlight = false ∧
    (ResetFrisbee f).velocity = ⟨0, 0, 0⟩ ∧
    (ResetFrisbee f).rotation = 0 ∧
    ResetFrisbee (ResetFrisbee f) = ResetFrisbee f := by
  simp only [ResetFrisbee]
  norm_num

/-- Claim C11. For every camera, with `d = Vector3Normalize (target - position)`
its look direction, and every `chargePercent` `c`, `ThrowFrisbee` sets the
projectile's velocity to `d * (10 + 25 c)` with `2 c` added to the Y component,
sets its position to the camera position and sets `inFlight = true`; for `c` in
[0, 1] the launch speed `10 + 25 c` along `d` lies in [10, 35], reaching 10 at
`c = 0` and 35 at `c = 1`, and it is non-decreasing in `c`. -/
theorem c11_throw_velocity (m : Libm) (frisbee : Frisbee) (player : Player) (camera : Camera) :
    (∀ c : ℚ,
      (ThrowFrisbee m frisbee player camera c).1.velocity =
        ⟨(Vector3Normalize m (Vector3Subtract camera.target camera.position)).x * (10 + 25 * c),
         (Vector3Normalize m (Vector3Subtract camera.target camera.position)).y * (10 + 25 * c)
           + 2 * c,
         (Vector3Normalize m (Vector3Subtract camera.target camera.position)).z * (10 + 25 * c)⟩ ∧
      (ThrowFrisbee m frisbee player camera c).1.position = camera.position ∧
      (ThrowFrisbee m frisbee player camera c).1.inFlight = true) ∧
    (∀ c : ℚ, 0 ≤ c → c ≤ 1 →
      10 ≤ MIN_THROW_SPEED + (MAX_THROW_SPEED - MIN_THROW_SPEED) * c ∧
      MIN_THROW_SPEED + (MAX_THROW_SPEED - MIN_THROW_SPEED) * c ≤ 35) ∧
    MIN_THROW_SPEED + (MAX_THROW_SPEED - MIN_THROW_SPEED) * 0 = 10 ∧
    MIN_THROW_SPEED + (MAX_THROW_SPEED - MIN_THROW_SPEED) * 1 = 35 ∧
    (∀ c₁ c₂ : ℚ, c₁ ≤ c₂ →
      MIN_THROW_SPEED + (MAX_THROW_SPEED - MIN_THROW_SPEED) * c₁ ≤
        MIN_THROW_SPEED + (MAX_THROW_SPEED - MIN_THROW_SPEED) * c₂) := by
  refine ⟨?_, ?_, ?_, ?_, ?_⟩
  · intro c
    refine ⟨?_, rfl, rfl⟩
    simp only [ThrowFrisbee, Vector3Scale, MIN_THROW_SPEED, MAX_THROW_SPEED]
    norm_num
  · intro c h0 h1
    simp only [MIN_THROW_SPEED, MAX_THROW_SPEED]
    constructor <;> norm_num <;> linarith
  · simp only [MIN_THROW_SPEED, MAX_THROW_SPEED]; norm_num
  · simp only [MIN_THROW_SPEED, MAX_THROW_SPEED]; norm_num
  · intro c₁ c₂ h
    simp only [MIN_THROW_SPEED, MAX_THROW_SPEED]
    norm_num
    linarith

/-- Witness for C11: a half-charged throw from the sample camera. -/
theorem c11_throw_velocity_witness :
    (0 : ℚ) ≤ 1 / 2 ∧ (1 / 2 : ℚ) ≤ 1 ∧ (1 / 4 : ℚ) ≤ 1 / 2 ∧
    (10 ≤ MIN_THROW_SPEED + (MAX_THROW_SPEED - MIN_THROW_SPEED) * (1 / 2) ∧
      MIN_THROW_SPEED + (MAX_THROW_SPEED - MIN_THROW_SPEED) * (1 / 2) ≤ 35) ∧
    MIN_THROW_SPEED + (MAX_THROW_SPEED - MIN_THROW_SPEED) * (1 / 4) ≤
      MIN_THROW_SPEED + (MAX_THROW_SPEED - MIN_THROW_SPEED) * (1 / 2) :=
  ⟨by norm_num, by norm_num, by norm_num,
    (c11_throw_velocity sampleLibm InitFrisbee InitPlayer sampleCamera).2.1 (1 / 2)
      (by norm_num) (by norm_num),
    (c11_throw_velocity sampleLibm InitFrisbee InitPlayer sampleCamera).2.2.2.2 (1 / 4) (1 / 2)
      (by norm_num)⟩

/-- Claim C12. For every session in phase Playing (with its pool inside the
array), every input and every `dt`, the tick runs to completion, and if the
pool's `aliveCount` is `≤ 0` when the tick's win/lose check runs, in particular
if it is `≤ 0` at the start of the tick, the tick ends with phase Victory. -/
theorem c12_victory (m : Libm) (rand : Nat → Nat) (initCamera : Camera) (inp : Input)
    (game : Game) (hs : game.state = GameState.STATE_PLAYING) (hb : game.enemies.InBounds) :
    ∃ game' atCheck : Game,
      UpdateGame m rand initCamera inp game = some game' ∧
      UpdatePlaying.atCheck m inp game = some atCheck ∧
      (atCheck.enemies.aliveCount ≤ 0 → game'.state = GameState.STATE_VICTORY) ∧
      (game.enemies.aliveCount ≤ 0 → game'.state = GameState.STATE_VICTORY) := by
  obtain ⟨g1, g2, g3, h1, h2, h3, hat, hup, hb1, hb2⟩ := tick_chain m inp game hb
  have hvict : (UpdatePlaying.damageFlash inp g3).enemies.aliveCount ≤ 0 →
      (UpdatePlaying.throwTimer inp
        (UpdatePlaying.winLose (UpdatePlaying.damageFlash inp g3))).state
        = GameState.STATE_VICTORY := by
    intro h
    rw [(throwTimer_frame inp _).2.1, (winLose_frame _).2.2.2, if_pos h]
  refine ⟨_, _, ?_, hat, hvict, ?_⟩
  · unfold UpdateGame
    rw [hs]
    exact hup
  · intro h0
    apply hvict
    -- the live count never grows during the tick
    obtain ⟨a1, mg1, ha1, hupd, he1, -⟩ := simulate_spec2 m inp game hb
    rw [h1] at ha1
    have e1 : a1 = g1 := (Option.some.inj ha1).symm
    subst e1
    obtain ⟨mg1', hupd', -, hal1, -⟩ :=
      updateEnemies_spec m game.enemies (UpdatePlayer m inp game.player game.camera).1.position
        inp.frameTime hb
    have hmg : mg1' = mg1 := Option.some.inj (hupd'.symm.trans hupd)
    subst hmg
    obtain ⟨a2, ha2, -, -, -, hfr⟩ := frisbeeHit_spec2 m a1 hb1
    rw [h2] at ha2
    have e2 : a2 = g2 := (Option.some.inj ha2).symm
    subst e2
    have h2le : a2.enemies.aliveCount ≤ a1.enemies.aliveCount := by
      rcases hfr with h | ⟨code, h⟩
      · rw [h]
      · exact frisbee_aliveCount_le m _ _ _ _ code hb1 h
    obtain ⟨a3, ha3, hcall, -⟩ := playerContact_spec2 m inp a2 hb2
    rw [h3] at ha3
    have e3 : a3 = g3 := (Option.some.inj ha3).symm
    subst e3
    obtain ⟨mg3, hcall', -, hal3, -⟩ :=
      contact_spec m a2.enemies a2.player.position PLAYER_COLLISION_RADIUS inp.frameTime hb2
    have hmg3 : mg3 = a3.enemies := by
      have := hcall'.symm.trans hcall
      simp only [Option.some.injEq, Prod.mk.injEq] at this
      exact this.1
    rw [(damageFlash_frame inp a3).1, ← hmg3, hal3]
    rw [he1, hal1] at h2le
    omega

/-- Witness for C12: a Playing state whose pool has live count 0 at the start of
the tick; the tick ends in Victory. -/
theorem c12_victory_witness :
    clearedGame.state = GameState.STATE_PLAYING ∧ clearedGame.enemies.InBounds ∧
    clearedGame.enemies.aliveCount ≤ 0 ∧
    ∃ game' : Game,
      UpdateGame sampleLibm sampleRand sampleCamera sampleInput clearedGame = some game' ∧
      game'.state = GameState.STATE_VICTORY :=
  ⟨rfl, ⟨by decide, by decide⟩, by decide,
    (c12_victory sampleLibm sampleRand sampleCamera sampleInput clearedGame rfl
      ⟨by decide, by decide⟩).elim
      (fun game' h => h.elim (fun _ h' => ⟨game', h'.1, h'.2.2.2 (by decide)⟩))⟩

/-- Claim C13. For every selected level `L` in {1, 2, 3}, a LevelSelect tick in
which only confirm (ENTER) is pressed enters Playing with
`enemiesRemaining = enemies.count = enemies.aliveCount = n`, where `n` is entry
`L` of the level table {5, 10, 15} (so `L = 3` gives 15), with a freshly
initialised player (health 5) and an idle projectile, and keeps the selected
level. -/
theorem c13_level_confirm (m : Libm) (rand : Nat → Nat) (initCamera : Camera) (inp : Input)
    (game : Game) (hs : game.state = GameState.STATE_LEVEL_SELECT)
    (hL : game.selectedLevel = 1 ∨ game.selectedLevel = 2 ∨ game.selectedLevel = 3)
    (hEnter : inp.pressedEnter = true)
    (hUp : inp.pressedUp = false) (hLeft : inp.pressedLeft = false)
    (hDown : inp.pressedDown = false) (hRight : inp.pressedRight = false)
    (hOne : inp.pressedOne = false) (hTwo : inp.pressedTwo = false)
    (hThree : inp.pressedThree = false) :
    ∃ (game' : Game) (n : Int),
      UpdateGame m rand initCamera inp game = some game' ∧
      ([5, 10, 15] : List Int)[(game.selectedLevel - 1).toNat]? = some n ∧
      (game.selectedLevel = 3 → n = 15) ∧
      game'.state = GameState.STATE_PLAYING ∧
      game'.enemiesRemaining = n ∧ game'.enemies.count = n ∧ game'.enemies.aliveCount = n ∧
      game'.player = InitPlayer ∧ game'.player.health = 5 ∧
      game'.frisbee = InitFrisbee ∧ game'.frisbee.inFlight = false ∧
      game'.selectedLevel = game.selectedLevel := by
  obtain ⟨mg, k', -, hstart, hcnt, hal, -⟩ := startLevel_spec m rand initCamera game hL
  refine ⟨⟨GameState.STATE_PLAYING, game.selectedLevel, 5 * game.selectedLevel, initCamera,
    InitFrisbee, InitPlayer, mg, k'⟩, 5 * game.selectedLevel, ?_, (levelEnemyCount_spec _ hL).2.2.2, ?_,
    rfl, rfl, hcnt, hal, rfl, rfl, rfl, rfl, rfl⟩
  · unfold UpdateGame
    rw [hs]
    unfold UpdateLevelSelect
    simp only [hEnter, hUp, hLeft, hDown, hRight, hOne, hTwo, hThree, Bool.or_self,
      Bool.false_eq_true, if_false, if_true]
    exact hstart
  · intro h3
    rw [h3]; rfl

/-- Witness for C13: level 3 selected and only ENTER pressed. -/
theorem c13_level_confirm_witness :
    levelSelectGame.state = GameState.STATE_LEVEL_SELECT ∧ levelSelectGame.selectedLevel = 3 ∧
    confirmInput.pressedEnter = true ∧
    ∃ (game' : Game),
      UpdateGame sampleLibm sampleRand sampleCamera confirmInput levelSelectGame = some game' ∧
      game'.state = GameState.STATE_PLAYING ∧
      game'.enemiesRemaining = 15 ∧ game'.enemies.count = 15 ∧ game'.enemies.aliveCount = 15 ∧
      game'.player.health = 5 ∧ game'.frisbee.inFlight = false :=
  ⟨rfl, rfl, rfl,
    (c13_level_confirm sampleLibm sampleRand sampleCamera confirmInput levelSelectGame rfl
      (Or.inr (Or.inr rfl)) rfl rfl rfl rfl rfl rfl rfl rfl).elim
      (fun game' h => h.elim (fun n h' =>
        have hn : n = 15 := h'.2.2.1 rfl
        ⟨game', h'.1, h'.2.2.2.1, hn ▸ h'.2.2.2.2.1, hn ▸ h'.2.2.2.2.2.1,
          hn ▸ h'.2.2.2.2.2.2.1, h'.2.2.2.2.2.2.2.2.1, h'.2.2.2.2.2.2.2.2.2.2.1⟩))⟩

/-- Claim C14. For every player state and every mouse delta, after `UpdatePlayer`
the pitch lies in [-89°, 89°] (in radians, `89 * DEG2RAD`); when the unclamped
pitch `pitch - mouseDelta.y * 0.003` exceeds 89° the result is exactly 89°, when
it is below -89° the result is exactly -89°, and otherwise it is the unclamped
pitch; hence after any non-empty sequence of updates, from any state, the pitch
is in [-89°, 89°]. -/
theorem c14_pitch_clamp (m : Libm) (inp : Input) (player : Player) (camera : Camera) :
    (-(89 * DEG2RAD) ≤ (UpdatePlayer m inp player camera).1.pitch ∧
      (UpdatePlayer m inp player camera).1.pitch ≤ 89 * DEG2RAD) ∧
    (player.pitch - inp.mouseDelta.y * 0.003 > 89 * DEG2RAD →
      (UpdatePlayer m inp player camera).1.pitch = 89 * DEG2RAD) ∧
    (player.pitch - inp.mouseDelta.y * 0.003 < -(89 * DEG2RAD) →
      (UpdatePlayer m inp player camera).1.pitch = -(89 * DEG2RAD)) ∧
    (-(89 * DEG2RAD) ≤ player.pitch - inp.mouseDelta.y * 0.003 →
      player.pitch - inp.mouseDelta.y * 0.003 ≤ 89 * DEG2RAD →
      (UpdatePlayer m inp player camera).1.pitch = player.pitch - inp.mouseDelta.y * 0.003) ∧
    (∀ inputs : List Input,
      -(89 * DEG2RAD) ≤ (runPlayer m (inp :: inputs) (player, camera)).1.pitch ∧
      (runPlayer m (inp :: inputs) (player, camera)).1.pitch ≤ 89 * DEG2RAD) := by
  have hp := deg2rad_pos
  have hrange : ∀ (i : Input) (p : Player) (c : Camera),
      -(89 * DEG2RAD) ≤ (UpdatePlayer m i p c).1.pitch ∧
      (UpdatePlayer m i p c).1.pitch ≤ 89 * DEG2RAD := by
    intro i p c
    rw [updatePlayer_pitch]
    split_ifs with h1 h2
    · constructor <;> linarith
    · constructor <;> linarith
    · constructor <;> linarith
  have hsens : MOUSE_SENSITIVITY = 0.003 := rfl
  refine ⟨hrange inp player camera, ?_, ?_, ?_, ?_⟩
  · intro h
    rw [updatePlayer_pitch, hsens, if_pos h]
  · intro h
    rw [updatePlayer_pitch, hsens, if_neg (by linarith), if_pos h]
  · intro h1 h2
    rw [updatePlayer_pitch, hsens, if_neg (by linarith), if_neg (by linarith)]
  · intro inputs
    have hgen : ∀ (l : List Input) (s : Player × Camera),
        (-(89 * DEG2RAD) ≤ s.1.pitch ∧ s.1.pitch ≤ 89 * DEG2RAD) →
        -(89 * DEG2RAD) ≤ (runPlayer m l s).1.pitch ∧
        (runPlayer m l s).1.pitch ≤ 89 * DEG2RAD := by
      intro l
      induction l with
      | nil => intro s hs; exact hs
      | cons i rest ih =>
        intro s _
        rw [runPlayer]
        exact ih _ (hrange i s.1 s.2)
    rw [runPlayer]
    exact hgen inputs _ (hrange inp player camera)

/-- Witness for C14: a mouse movement of -600 pixels on Y from the initial
player drives the unclamped pitch to 1.8 rad, and the result is 89°. -/
theorem c14_pitch_clamp_witness :
    InitPlayer.pitch - (-600 : ℚ) * 0.003 > 89 * DEG2RAD ∧
    (UpdatePlayer sampleLibm { sampleInput with mouseDelta := ⟨0, -600⟩ } InitPlayer
      sampleCamera).1.pitch = 89 * DEG2RAD :=
  ⟨by simp only [InitPlayer, DEG2RAD, PI]; norm_num,
    (c14_pitch_clamp sampleLibm { sampleInput with mouseDelta := ⟨0, -600⟩ } InitPlayer
      sampleCamera).2.1 (by simp only [InitPlayer, DEG2RAD, PI]; norm_num)⟩

/-- Counterexample to C15 as stated: a living actor with 0.01 s of cooldown left
(all timers of the pool are `≥ 0`) has cooldown `0.01 - 1/60 = -1/150 < 0`
after `UpdateEnemies` with `dt = 1/60`: the timer is not clamped at zero. -/
theorem c15_timers_counterexample :
    (0 : ℚ) ≤ 1 / 60 ∧ coolingPool.InBounds ∧
    (∀ (i : Nat) (e : Enemy), coolingPool.enemies[i]? = some e → 0 ≤ e.attackCooldown) ∧
    ∃ (manager' : EnemyManager) (e' : Enemy),
      UpdateEnemies sampleLibm coolingPool ⟨0, 2, 4⟩ (1 / 60) = some manager' ∧
      manager'.enemies[0]? = some e' ∧ e'.attackCooldown = -(1 / 150) ∧
      ¬ (0 ≤ e'.attackCooldown) := by
  have hb : coolingPool.InBounds := ⟨by decide, by decide⟩
  refine ⟨by norm_num, hb, ?_, ?_⟩
  · exact coolingPool_timers
  · obtain ⟨mg', hres, -, -, -, hfr⟩ :=
      updateEnemies_spec sampleLibm coolingPool ⟨0, 2, 4⟩ (1 / 60) hb
    have h0 := hfr 0 ⟨⟨10, 0, 10⟩, 2, true, 1 / 100, 0⟩ rfl
    rw [if_pos (by decide)] at h0
    have hcd : (UpdateEnemies.body sampleLibm ⟨0, 2, 4⟩ (1 / 60)
        ⟨⟨10, 0, 10⟩, 2, true, 1 / 100, 0⟩).attackCooldown = -(1 / 150) := by
      rw [body_cooldown]
      norm_num
    refine ⟨mg', _, hres, h0, hcd, ?_⟩
    rw [hcd]
    norm_num

/-- Claim C15, amended. No decay timer is clamped at zero, but none undershoots by
more than one frame: for every `dt ≥ 0` and every state whose timers are `≥ 0`,
after `UpdateEnemies` each actor's attack cooldown is `≥ -dt` (it is decreased by
`dt` only while the actor is alive and the cooldown is `> 0`), and after
`UpdatePlaying` the player's damage-flash timer and throw-animation timer are
`≥ -dt`. -/
theorem c15_timers_bounded (m : Libm) :
    (∀ (manager : EnemyManager) (playerPosition : Vector3) (dt : ℚ), 0 ≤ dt →
      manager.InBounds →
      (∀ (i : Nat) (e : Enemy), manager.enemies[i]? = some e → 0 ≤ e.attackCooldown) →
      ∃ manager' : EnemyManager,
        UpdateEnemies m manager playerPosition dt = some manager' ∧
        ∀ (i : Nat) (e : Enemy), manager.enemies[i]? = some e →
          ∃ e' : Enemy, manager'.enemies[i]? = some e' ∧ -dt ≤ e'.attackCooldown ∧
            e'.attackCooldown =
              (if (i : Int) < manager.count ∧ e.alive = true ∧ e.attackCooldown > 0
                then e.attackCooldown - dt else e.attackCooldown)) ∧
    (∀ (inp : Input) (game : Game), 0 ≤ inp.frameTime → game.enemies.InBounds →
      0 ≤ game.player.damageFlash → 0 ≤ game.player.throwTimer →
      ∃ game' : Game,
        UpdatePlaying m inp game = some game' ∧
        -inp.frameTime ≤ game'.player.damageFlash ∧
        -inp.frameTime ≤ game'.player.throwTimer) := by
  constructor
  · intro manager pp dt hdt hb hpos
    obtain ⟨mg', hres, -, -, -, hfr⟩ := updateEnemies_spec m manager pp dt hb
    refine ⟨mg', hres, ?_⟩
    intro i e he
    have h0 := hpos i e he
    by_cases hi : (i : Int) < manager.count
    · refine ⟨_, by rw [hfr i e he, if_pos hi], ?_, ?_⟩
      · rw [body_cooldown]
        split_ifs <;> linarith
      · rw [body_cooldown]
        by_cases hc : e.alive = true ∧ e.attackCooldown > 0
        · rw [if_pos hc, if_pos ⟨hi, hc⟩]
        · rw [if_neg hc, if_neg (fun h => hc h.2)]
    · refine ⟨e, by rw [hfr i e he, if_neg hi], by linarith, ?_⟩
      rw [if_neg (fun h => hi h.1)]
  · intro inp game hdt hb hdf htt
    obtain ⟨g1, g2, g3, h1, h2, h3, -, hup, hb1, hb2⟩ := tick_chain m inp game hb
    obtain ⟨a1, -, ha1, -, -, -, hdf1, -, -, htt1⟩ := simulate_spec2 m inp game hb
    rw [h1] at ha1
    have e1 : a1 = g1 := (Option.some.inj ha1).symm
    subst e1
    obtain ⟨a2, ha2, hp2, -⟩ := frisbeeHit_spec2 m a1 hb1
    rw [h2] at ha2
    have e2 : a2 = g2 := (Option.some.inj ha2).symm
    subst e2
    obtain ⟨a3, ha3, -, -, -, -, htt3, hdf3⟩ := playerContact_spec2 m inp a2 hb2
    rw [h3] at ha3
    have e3 : a3 = g3 := (Option.some.inj ha3).symm
    subst e3
    have hTD : THROW_DURATION = 0.3 := rfl
    have hdf3' : 0 ≤ a3.player.damageFlash := by
      rw [hdf3]
      split_ifs
      · norm_num
      · rw [hp2, hdf1]; exact hdf
    have htt3' : 0 ≤ a3.player.throwTimer := by
      rw [htt3, hp2]
      rcases htt1 with h | h
      · rw [h]; exact htt
      · rw [h, hTD]; norm_num
    refine ⟨_, hup, ?_, ?_⟩
    · rw [(throwTimer_frame inp _).2.2.2.2.1, (winLose_frame _).2.1,
        (damageFlash_frame inp a3).2.2.2.2.2]
      split_ifs <;> linarith
    · rw [(throwTimer_frame inp _).2.2.2.2.2, (winLose_frame _).2.1,
        (damageFlash_frame inp a3).2.2.2.2.1]
      split_ifs <;> linarith

/-- Witness for C15 (amended): the pool with 0.01 s of cooldown left, and the
sample Playing state, both over a frame of 1/60 s. -/
theorem c15_timers_bounded_witness :
    (0 : ℚ) ≤ 1 / 60 ∧ coolingPool.InBounds ∧ sampleGame.enemies.InBounds ∧
    (0 : ℚ) ≤ sampleGame.player.damageFlash ∧ (0 : ℚ) ≤ sampleGame.player.throwTimer ∧
    (∃ manager' : EnemyManager,
      UpdateEnemies sampleLibm coolingPool ⟨0, 2, 4⟩ (1 / 60) = some manager' ∧
      ∀ (i : Nat) (e : Enemy), coolingPool.enemies[i]? = some e →
        ∃ e' : Enemy, manager'.enemies[i]? = some e' ∧ -(1 / 60) ≤ e'.attackCooldown ∧
          e'.attackCooldown =
            (if (i : Int) < coolingPool.count ∧ e.alive = true ∧ e.attackCooldown > 0
              then e.attackCooldown - 1 / 60 else e.attackCooldown)) ∧
    (∃ game' : Game,
      UpdatePlaying sampleLibm sampleInput sampleGame = some game' ∧
      -sampleInput.frameTime ≤ game'.player.damageFlash ∧
      -sampleInput.frameTime ≤ game'.player.throwTimer) :=
  ⟨by norm_num, ⟨by decide, by decide⟩, sampleContactPool_inBounds,
    by norm_num [sampleGame, InitPlayer], by norm_num [sampleGame, InitPlayer],
    (c15_timers_bounded sampleLibm).1 coolingPool ⟨0, 2, 4⟩ (1 / 60) (by norm_num)
      ⟨by decide, by decide⟩
      coolingPool_timers,
    (c15_timers_bounded sampleLibm).2 sampleInput sampleGame
      (by norm_num [sampleInput]) sampleContactPool_inBounds
      (by norm_num [sampleGame, InitPlayer]) (by norm_num [sampleGame, InitPlayer])⟩

/-- Claim C16. For every living actor of the pool whose XZ distance to the player
exceeds 0.1 and whose moved position (`Enemy.seekStep`: one step of `3 * dt`
along the unit XZ vector from the actor to the player) is at least 2.5 units
(XZ) from every obstacle centre and inside [-48, 48] on X and Z,
`UpdateEnemies` leaves the actor at exactly that moved position, with Y
unchanged; where `sqrtf` is exact on the squared distance the direction has
length 1 and the displacement has length `3 * dt`.  Dead actors are not changed
at all. -/
theorem c16_seek_step (m : Libm) (manager : EnemyManager) (playerPosition : Vector3) (dt : ℚ)
    (hb : manager.InBounds) :
    ∃ manager' : EnemyManager,
      UpdateEnemies m manager playerPosition dt = some manager' ∧
      (∀ (i : Nat) (e : Enemy), (i : Int) < manager.count → manager.enemies[i]? = some e →
        e.alive = true → distXZ m playerPosition e.position > 0.1 →
        (∀ t : Nat, t < 20 →
          2.5 ≤ distXZ m (e.seekStep m playerPosition dt) (GetTreePosition t)) →
        -48 ≤ (e.seekStep m playerPosition dt).x → (e.seekStep m playerPosition dt).x ≤ 48 →
        -48 ≤ (e.seekStep m playerPosition dt).z → (e.seekStep m playerPosition dt).z ≤ 48 →
        ∃ e' : Enemy, manager'.enemies[i]? = some e' ∧
          e'.position = e.seekStep m playerPosition dt ∧
          e'.position.y = e.position.y ∧
          (distXZ m playerPosition e.position * distXZ m playerPosition e.position
              = (playerPosition.x - e.position.x) ^ 2 + (playerPosition.z - e.position.z) ^ 2 →
            ((playerPosition.x - e.position.x) / distXZ m playerPosition e.position) ^ 2 +
              ((playerPosition.z - e.position.z) / distXZ m playerPosition e.position) ^ 2 = 1 ∧
            (e'.position.x - e.position.x) ^ 2 + (e'.position.z - e.position.z) ^ 2
              = (3 * dt) ^ 2)) ∧
      (∀ (i : Nat) (e : Enemy), manager.enemies[i]? = some e → e.alive = false →
        manager'.enemies[i]? = some e) := by
  obtain ⟨mg', hres, -, -, -, hfr⟩ := updateEnemies_spec m manager playerPosition dt hb
  refine ⟨mg', hres, ?_, ?_⟩
  · intro i e hi he ha hd hfar hx1 hx2 hz1 hz2
    have hpos : (UpdateEnemies.body m playerPosition dt e).position
        = e.seekStep m playerPosition dt :=
      body_move m playerPosition dt e ha hd hfar hx1 hx2 hz1 hz2
    refine ⟨_, by rw [hfr i e he, if_pos hi], hpos, by rw [hpos]; rfl, ?_⟩
    intro hexact
    have hd0 : distXZ m playerPosition e.position ≠ 0 := by
      intro h0
      rw [h0] at hd
      norm_num at hd
    have hunit : ((playerPosition.x - e.position.x) / distXZ m playerPosition e.position) ^ 2 +
        ((playerPosition.z - e.position.z) / distXZ m playerPosition e.position) ^ 2 = 1 := by
      rw [div_pow, div_pow, ← add_div, ← hexact, pow_two]
      exact div_self (mul_ne_zero hd0 hd0)
    refine ⟨hunit, ?_⟩
    rw [hpos]
    simp only [Enemy.seekStep]
    have : (e.position.x + (playerPosition.x - e.position.x) /
          distXZ m playerPosition e.position * 3 * dt - e.position.x) ^ 2 +
        (e.position.z + (playerPosition.z - e.position.z) /
          distXZ m playerPosition e.position * 3 * dt - e.position.z) ^ 2
        = (((playerPosition.x - e.position.x) / distXZ m playerPosition e.position) ^ 2 +
            ((playerPosition.z - e.position.z) / distXZ m playerPosition e.position) ^ 2)
          * (3 * dt) ^ 2 := by ring
    rw [this, hunit, one_mul]
  · intro i e he ha
    rw [hfr i e he, body_dead m playerPosition dt e ha]
    simp only [ite_self]

/-- Witness for C16: the living actor at (7, 0, 7) chasing a player at
(10, 2, 11), 5 units away, for `dt = 5/3`: its moved position is (10, 0, 11). -/
theorem c16_seek_step_witness :
    chasePool.InBounds ∧
    distXZ sampleLibm ⟨10, 2, 11⟩ (⟨⟨7, 0, 7⟩, 2, true, 0, 0⟩ : Enemy).position > 0.1 ∧
    Enemy.seekStep sampleLibm ⟨10, 2, 11⟩ (5 / 3) ⟨⟨7, 0, 7⟩, 2, true, 0, 0⟩ = ⟨10, 0, 11⟩ ∧
    (∀ t : Nat, t < 20 → (2.5 : ℚ) ≤ distXZ sampleLibm ⟨10, 0, 11⟩ (GetTreePosition t)) ∧
    ∃ manager' : EnemyManager,
      UpdateEnemies sampleLibm chasePool ⟨10, 2, 11⟩ (5 / 3) = some manager' ∧
      (∃ e' : Enemy, manager'.enemies[0]? = some e' ∧ e'.position = ⟨10, 0, 11⟩) ∧
      manager'.enemies[1]? = some ⟨⟨20, 0, 20⟩, 0, false, 0, 0⟩ :=
  have hd : distXZ sampleLibm ⟨10, 2, 11⟩ (⟨⟨7, 0, 7⟩, 2, true, 0, 0⟩ : Enemy).position > 0.1 := by
    simp only [distXZ, sampleLibm]
    norm_num [ratSqrt_25]
  ⟨⟨by decide, by decide⟩, hd, chase_seekStep, chase_far,
    (c16_seek_step sampleLibm chasePool ⟨10, 2, 11⟩ (5 / 3) ⟨by decide, by decide⟩).elim
      (fun manager' h =>
        ⟨manager', h.1,
          (h.2.1 0 ⟨⟨7, 0, 7⟩, 2, true, 0, 0⟩ (by decide) rfl rfl hd
            (by rw [chase_seekStep]; exact chase_far)
            (by rw [chase_seekStep]; norm_num) (by rw [chase_seekStep]; norm_num)
            (by rw [chase_seekStep]; norm_num) (by rw [chase_seekStep]; norm_num)).elim
            (fun e' he' => ⟨e', he'.1, he'.2.1.trans chase_seekStep⟩),
          h.2.2 1 ⟨⟨20, 0, 20⟩, 0, false, 0, 0⟩ rfl rfl⟩)⟩

/-- Claim C17. For every player state, input and `dt`, after `UpdatePlayer` the
player's `position.y` is `≥ 2.0` (eye height above ground level 0).  With `v0`
the vertical velocity after the jump check (8 when SPACE is pressed and the
player was grounded before the tick, the old vertical velocity otherwise) and
`y + (v0 - 20 dt) dt` the integrated height: whenever the integrated height is
`≤ 2.0` the result has `y = 2.0`, `velocityY = 0` and `isGrounded = true`, and
otherwise it has the integrated height and velocity `v0 - 20 dt`.  A jump press
has no effect in the air: for a player that is not grounded the update with
SPACE pressed equals the update without. -/
theorem c17_ground_and_jump (m : Libm) (inp : Input) (player : Player) (camera : Camera) :
    2 ≤ (UpdatePlayer m inp player camera).1.position.y ∧
    (∀ v0 : ℚ,
      v0 = (if inp.pressedSpace = true ∧ player.isGrounded = true then 8
        else player.velocityY) →
      (player.position.y + (v0 - 20 * inp.frameTime) * inp.frameTime ≤ 2 →
        (UpdatePlayer m inp player camera).1.position.y = 2 ∧
        (UpdatePlayer m inp player camera).1.velocityY = 0 ∧
        (UpdatePlayer m inp player camera).1.isGrounded = true) ∧
      (2 < player.position.y + (v0 - 20 * inp.frameTime) * inp.frameTime →
        (UpdatePlayer m inp player camera).1.position.y
          = player.position.y + (v0 - 20 * inp.frameTime) * inp.frameTime ∧
        (UpdatePlayer m inp player camera).1.velocityY = v0 - 20 * inp.frameTime ∧
        (UpdatePlayer m inp player camera).1.isGrounded =
          (if inp.pressedSpace = true ∧ player.isGrounded = true then false
            else player.isGrounded))) ∧
    (player.isGrounded = false →
      UpdatePlayer m { inp with pressedSpace := true } player camera =
        UpdatePlayer m { inp with pressedSpace := false } player camera) := by
  obtain ⟨hy, hv, hg⟩ := updatePlayer_vertical m inp player camera
  have hJ : JUMP_FORCE = 8 := by simp only [JUMP_FORCE]; norm_num
  have hG : GRAVITY = 20 := by simp only [GRAVITY]; norm_num
  have hH : PLAYER_HEIGHT + GROUND_LEVEL = 2 := by
    simp only [PLAYER_HEIGHT, GROUND_LEVEL]; norm_num
  have hjump : ((inp.pressedSpace && player.isGrounded) = true) ↔
      (inp.pressedSpace = true ∧ player.isGrounded = true) := by
    simp only [Bool.and_eq_true]
  simp only [hJ, hG, hH, hjump] at hy hv hg
  refine ⟨?_, ?_, jump_in_air m inp player camera⟩
  · rw [hy]
    split_ifs <;> linarith
  · intro v0 hv0
    rw [← hv0] at hy hv hg
    constructor
    · intro hle
      rw [hy, hv, hg, if_pos hle, if_pos hle, if_pos hle]
      exact ⟨rfl, rfl, rfl⟩
    · intro hgt
      have hn : ¬ player.position.y + (v0 - 20 * inp.frameTime) * inp.frameTime ≤ 2 :=
        not_le.mpr hgt
      rw [hy, hv, hg, if_neg hn, if_neg hn, if_neg hn]
      exact ⟨rfl, rfl, rfl⟩

/-- Witness for C17: the grounded initial player jumps in a frame of 1/60 s (the
integrated height is above 2), and a player in the air is unaffected by
SPACE. -/
theorem c17_ground_and_jump_witness :
    (8 : ℚ) = (if ({ sampleInput with pressedSpace := true } : Input).pressedSpace = true ∧
        InitPlayer.isGrounded = true then 8 else InitPlayer.velocityY) ∧
    2 < InitPlayer.position.y + ((8 : ℚ) - 20 * (1 / 60)) * (1 / 60) ∧
    ({ InitPlayer with isGrounded := false } : Player).isGrounded = false ∧
    ((UpdatePlayer sampleLibm { sampleInput with pressedSpace := true } InitPlayer
        sampleCamera).1.position.y
        = InitPlayer.position.y + ((8 : ℚ) - 20 * (1 / 60)) * (1 / 60) ∧
      (UpdatePlayer sampleLibm { sampleInput with pressedSpace := true } InitPlayer
        sampleCamera).1.velocityY = (8 : ℚ) - 20 * (1 / 60) ∧
      (UpdatePlayer sampleLibm { sampleInput with pressedSpace := true } InitPlayer
        sampleCamera).1.isGrounded =
        (if ({ sampleInput with pressedSpace := true } : Input).pressedSpace = true ∧
          InitPlayer.isGrounded = true then false else InitPlayer.isGrounded)) ∧
    UpdatePlayer sampleLibm { sampleInput with pressedSpace := true }
        { InitPlayer with isGrounded := false } sampleCamera =
      UpdatePlayer sampleLibm { sampleInput with pressedSpace := false }
        { InitPlayer with isGrounded := false } sampleCamera :=
  have hv : (8 : ℚ) = (if ({ sampleInput with pressedSpace := true } : Input).pressedSpace = true ∧
      InitPlayer.isGrounded = true then 8 else InitPlayer.velocityY) := by
    rw [if_pos ⟨rfl, rfl⟩]
  have hy : 2 < InitPlayer.position.y + ((8 : ℚ) - 20 * (1 / 60)) * (1 / 60) := by
    simp only [InitPlayer, PLAYER_HEIGHT]
    norm_num
  ⟨hv, hy, rfl,
    ((c17_ground_and_jump sampleLibm { sampleInput with pressedSpace := true } InitPlayer
      sampleCamera).2.1 8 hv).2 hy,
    (c17_ground_and_jump sampleLibm sampleInput { InitPlayer with isGrounded := false }
      sampleCamera).2.2 rfl⟩

/-- Claim C18. In every pool reachable from `InitEnemyManager(count)`, with
`0 ≤ count ≤ 15`, by any sequence of `UpdateEnemies`,
`CheckFrisbeeEnemyCollision` and `CheckEnemyPlayerCollision` calls, `count` is
unchanged, `aliveCount` equals the number of actors with index below `count`
whose `alive` flag is set, every living actor has health 1 or 2 and every dead
actor has health `≤ 0`; consequently `aliveCount` is 0 exactly when no actor of
the pool is alive. -/
theorem c18_pool_invariant (m : Libm) (rand : Nat → Nat) (k : Nat) (count : Int)
    (h0 : 0 ≤ count) (h15 : count ≤ MAX_ENEMIES) (manager : EnemyManager)
    (hr : PoolReachable m rand k count manager) :
    manager.count = count ∧
    manager.aliveCount = (manager.living : Int) ∧
    (∀ (i : Nat) (e : Enemy), (i : Int) < count → manager.enemies[i]? = some e →
      (e.alive = true → e.health = 1 ∨ e.health = 2) ∧ (e.alive = false → e.health ≤ 0)) ∧
    (manager.aliveCount = 0 ↔
      ∀ (i : Nat) (e : Enemy), (i : Int) < count → manager.enemies[i]? = some e →
        e.alive = false) := by
  obtain ⟨hcnt, hb, hlive, hhealth⟩ := poolReachable_inv m rand k count h0 h15 manager hr
  refine ⟨hcnt, hlive, ?_, ?_⟩
  · intro i e hi he
    exact hhealth i e (hcnt ▸ hi) he
  · rw [hlive, ← hcnt, ← living_eq_zero_iff manager hb]
    exact Int.natCast_eq_zero

/-- Witness for C18: the pool of `InitEnemyManager(5)` under the sample library
and generator, after a projectile test at (3, 1, 4) with radius 0.15. -/
theorem c18_pool_invariant_witness :
    (0 : Int) ≤ 5 ∧ (5 : Int) ≤ MAX_ENEMIES ∧
    PoolReachable sampleLibm sampleRand 0 5 struckPool ∧
    struckPool.count = 5 ∧
    struckPool.aliveCount = (struckPool.living : Int) ∧
    (∀ (i : Nat) (e : Enemy), (i : Int) < 5 → struckPool.enemies[i]? = some e →
      (e.alive = true → e.health = 1 ∨ e.health = 2) ∧ (e.alive = false → e.health ≤ 0)) ∧
    (struckPool.aliveCount = 0 ↔
      ∀ (i : Nat) (e : Enemy), (i : Int) < 5 → struckPool.enemies[i]? = some e →
        e.alive = false) :=
  ⟨by decide, by decide, struckPool_reachable,
    c18_pool_invariant sampleLibm sampleRand 0 5 (by decide) (by decide) struckPool
      struckPool_reachable⟩

/-- Claim C19. In every session state reachable from `InitGame` by `UpdateGame`
ticks under any inputs, `selectedLevel` is 1, 2 or 3, the pool holds 0 (before
the first level), 5, 10 or 15 actors, at most `MAX_ENEMIES`, and the next tick
returns. When that tick runs the level-start block (ENTER in LevelSelect after
the selection keys, ENTER in Victory after the level advance), the state it
runs on has `selectedLevel` in 1..3, the index `selectedLevel - 1` lies in
[0, 3) inside `LEVEL_ENEMY_COUNTS`, and the actor count read there and passed to
`InitEnemyManager` is 5, 10 or 15, at most `MAX_ENEMIES`; the tick is that level
start. -/
theorem c19_level_range (m : Libm) (rand : Nat → Nat) (initCamera : Camera) (game : Game)
    (hr : Reachable m rand initCamera game) (inp : Input) :
    (game.selectedLevel = 1 ∨ game.selectedLevel = 2 ∨ game.selectedLevel = 3) ∧
    (game.enemies.count = 0 ∨ game.enemies.count = 5 ∨ game.enemies.count = 10 ∨
      game.enemies.count = 15) ∧
    game.enemies.count ≤ MAX_ENEMIES ∧
    (∃ game' : Game, UpdateGame m rand initCamera inp game = some game') ∧
    ∀ g0 : Game, UpdateGame.levelStart inp game = some g0 →
      (g0.selectedLevel = 1 ∨ g0.selectedLevel = 2 ∨ g0.selectedLevel = 3) ∧
      0 ≤ g0.selectedLevel - 1 ∧ g0.selectedLevel - 1 < 3 ∧
      (g0.selectedLevel - 1).toNat < LEVEL_ENEMY_COUNTS.length ∧
      ∃ (n : Int) (mg : EnemyManager) (k' : Nat) (g1 : Game),
        levelEnemyCount (g0.selectedLevel - 1) = some n ∧
        (n = 5 ∨ n = 10 ∨ n = 15) ∧ n ≤ MAX_ENEMIES ∧
        InitEnemyManager m rand g0.randCalls n = some (mg, k') ∧
        startLevel m rand initCamera g0 = some g1 ∧
        g1.enemies = mg ∧ g1.enemies.count = n ∧ g1.selectedLevel = g0.selectedLevel ∧
        ((game.state = GameState.STATE_LEVEL_SELECT ∧
            UpdateGame m rand initCamera inp game = some g1) ∨
          (game.state = GameState.STATE_VICTORY ∧
            UpdateGame m rand initCamera inp game = some (UpdateVictory.quit inp g1))) := by
  have hi := reachable_inv m rand initCamera game hr
  obtain ⟨hL, hb, hc, hcnt, hplay⟩ := hi
  have hM : (MAX_ENEMIES : Int) = 15 := rfl
  refine ⟨hL, hcnt, by omega, ?_, ?_⟩
  · obtain ⟨g', hg, -⟩ := inv_step m rand initCamera inp game ⟨hL, hb, hc, hcnt, hplay⟩
    exact ⟨g', hg⟩
  · intro g0 h0
    have key : ∀ g0 : Game,
        (g0.selectedLevel = 1 ∨ g0.selectedLevel = 2 ∨ g0.selectedLevel = 3) →
        ∀ P : Game → Prop, (∀ g1, startLevel m rand initCamera g0 = some g1 → P g1) →
        (g0.selectedLevel = 1 ∨ g0.selectedLevel = 2 ∨ g0.selectedLevel = 3) ∧
        0 ≤ g0.selectedLevel - 1 ∧ g0.selectedLevel - 1 < 3 ∧
        (g0.selectedLevel - 1).toNat < LEVEL_ENEMY_COUNTS.length ∧
        ∃ (n : Int) (mg : EnemyManager) (k' : Nat) (g1 : Game),
          levelEnemyCount (g0.selectedLevel - 1) = some n ∧
          (n = 5 ∨ n = 10 ∨ n = 15) ∧ n ≤ MAX_ENEMIES ∧
          InitEnemyManager m rand g0.randCalls n = some (mg, k') ∧
          startLevel m rand initCamera g0 = some g1 ∧
          g1.enemies = mg ∧ g1.enemies.count = n ∧ g1.selectedLevel = g0.selectedLevel ∧
          P g1 := by
      intro g0 hL0 P hP
      obtain ⟨g1, mg, k', hst, hlook, hinit, he, hn, hl, -, -⟩ :=
        inv_startLevel m rand initCamera g0 hL0
      have hlen : LEVEL_ENEMY_COUNTS.length = 3 := rfl
      refine ⟨hL0, by omega, by omega, by omega, 5 * g0.selectedLevel, mg, k', g1, hlook,
        by omega, by omega, hinit, hst, he, hn, hl, hP g1 hst⟩
    unfold UpdateGame.levelStart at h0
    cases hs : game.state with
    | STATE_TITLE => simp [hs] at h0
    | STATE_PLAYING => simp [hs] at h0
    | STATE_GAME_OVER => simp [hs] at h0
    | STATE_LEVEL_SELECT =>
      cases he : inp.pressedEnter with
      | false => simp [hs, he] at h0
      | true =>
        simp only [hs, he, if_true, Option.some.injEq] at h0
        subst h0
        refine key _ (pick_frame inp game hL).1 _ ?_
        intro g1 hg1
        refine Or.inl ⟨rfl, ?_⟩
        unfold UpdateGame
        simp only [hs, updateLevelSelect_eq, he, if_true, hg1]
    | STATE_VICTORY =>
      cases he : inp.pressedEnter with
      | false => simp [hs, he] at h0
      | true =>
        simp only [hs, he, if_true, Option.some.injEq] at h0
        subst h0
        refine key _ (advance_frame game hL).1 _ ?_
        intro g1 hg1
        refine Or.inr ⟨rfl, ?_⟩
        unfold UpdateGame
        simp only [hs, updateVictory_eq, he, if_true, hg1, Option.map_some']

/-- Witness for C19: the session after a key press on the title screen, in a
frame with UP and ENTER: the selection wraps from 1 to 3 and level 3 starts
with 15 actors. -/
theorem c19_level_range_witness :
    Reachable sampleLibm sampleRand sampleCamera menuGame ∧
    UpdateGame.levelStart upConfirmInput menuGame = some { menuGame with selectedLevel := 3 } ∧
    ∃ (mg : EnemyManager) (k' : Nat) (g1 : Game),
      levelEnemyCount (3 - 1) = some 15 ∧
      InitEnemyManager sampleLibm sampleRand 0 15 = some (mg, k') ∧
      g1.enemies = mg ∧ g1.enemies.count = 15 ∧ g1.selectedLevel = 3 ∧
      UpdateGame sampleLibm sampleRand sampleCamera upConfirmInput menuGame = some g1 := by
  have hr : Reachable sampleLibm sampleRand sampleCamera menuGame := menuGame_reachable
  have hs : UpdateGame.levelStart upConfirmInput menuGame =
      some { menuGame with selectedLevel := 3 } := rfl
  obtain ⟨-, -, -, -, h⟩ :=
    c19_level_range sampleLibm sampleRand sampleCamera menuGame hr upConfirmInput
  obtain ⟨-, -, -, -, n, mg, k', g1, hlook, -, -, hinit, -, he, hc, hl, hup⟩ := h _ hs
  have hn : n = 15 := by
    have : levelEnemyCount (3 - 1) = some n := hlook
    have h15 : levelEnemyCount (3 - 1) = some 15 := by decide
    rw [h15] at this
    exact (Option.some.inj this).symm
  subst hn
  refine ⟨hr, hs, mg, k', g1, by decide, hinit, he, hc, hl, ?_⟩
  rcases hup with ⟨-, h⟩ | ⟨hv, -⟩
  · exact h
  · exact absurd hv (by decide)

/-- Claim C20. In every Playing state reachable from `InitGame`, the tick
`UpdatePlaying` returns and reaches its win/lose check in a state `c` that
never has both `player.health ≤ 0` and `aliveCount ≤ 0`: when no actor is left
alive at the check, no contact damage was dealt in the tick, so the health is
that of the tick's start and positive. Hence the tick ends in GameOver exactly
when `health ≤ 0` at the check, in Victory exactly when `aliveCount ≤ 0`, and
stays in Playing otherwise. -/
theorem c20_win_lose_exclusive (m : Libm) (rand : Nat → Nat) (initCamera : Camera) (game : Game)
    (hr : Reachable m rand initCamera game) (hp : game.state = GameState.STATE_PLAYING)
    (inp : Input) :
    ∃ c game' : Game,
      UpdatePlaying.atCheck m inp game = some c ∧
      UpdatePlaying m inp game = some game' ∧
      UpdateGame m rand initCamera inp game = some game' ∧
      game' = UpdatePlaying.throwTimer inp (UpdatePlaying.winLose c) ∧
      ¬ (c.player.health ≤ 0 ∧ c.enemies.aliveCount ≤ 0) ∧
      (c.enemies.aliveCount ≤ 0 →
        c.player.health = game.player.health ∧ 0 < c.player.health) ∧
      (game'.state = GameState.STATE_GAME_OVER ↔ c.player.health ≤ 0) ∧
      (game'.state = GameState.STATE_VICTORY ↔ c.enemies.aliveCount ≤ 0) ∧
      (game'.state = GameState.STATE_PLAYING ↔
        0 < c.player.health ∧ 0 < c.enemies.aliveCount) := by
  obtain ⟨-, hb, hc, -, hplay⟩ := reachable_inv m rand initCamera game hr
  obtain ⟨hpos, -⟩ := hplay hp
  obtain ⟨c, hat, hup, -, -, -, -, hs, hkeep⟩ := tick_inv m inp game hb hc
  obtain ⟨-, -, -, ws⟩ := winLose_frame c
  obtain ⟨-, ts, -⟩ := throwTimer_frame inp (UpdatePlaying.winLose c)
  have hgame : UpdateGame m rand initCamera inp game =
      some (UpdatePlaying.throwTimer inp (UpdatePlaying.winLose c)) := by
    unfold UpdateGame
    simp only [hp, hup]
  have hno : ¬ (c.player.health ≤ 0 ∧ c.enemies.aliveCount ≤ 0) := by
    rintro ⟨h1, h2⟩
    have := hkeep h2
    omega
  refine ⟨c, _, hat, hup, hgame, rfl, hno, fun h => ⟨hkeep h, by have := hkeep h; omega⟩,
    ?_, ?_, ?_⟩ <;> rw [ts, ws, hs, hp]
  · by_cases h1 : c.enemies.aliveCount ≤ 0
    · have := hkeep h1
      simp only [h1, if_true]
      constructor
      · intro h; exact absurd h (by decide)
      · intro h; omega
    · by_cases h2 : c.player.health ≤ 0 <;> simp [h1, h2]
  · by_cases h1 : c.enemies.aliveCount ≤ 0
    · simp [h1]
    · by_cases h2 : c.player.health ≤ 0 <;> simp [h1, h2]
  · by_cases h1 : c.enemies.aliveCount ≤ 0
    · simp [h1]
    · by_cases h2 : c.player.health ≤ 0
      · simp [h1, h2]
      · simp only [h1, h2, if_false, true_iff]
        omega

/-- Witness for C20: level 1 just started under the sample library and
generator (`startedGame`), in a frame of 1/60 s with no key or button active. -/
theorem c20_win_lose_exclusive_witness :
    Reachable sampleLibm sampleRand sampleCamera startedGame ∧
    startedGame.state = GameState.STATE_PLAYING ∧
    ∃ c game' : Game,
      UpdatePlaying.atCheck sampleLibm sampleInput startedGame = some c ∧
      UpdatePlaying sampleLibm sampleInput startedGame = some game' ∧
      UpdateGame sampleLibm sampleRand sampleCamera sampleInput startedGame = some game' ∧
      game' = UpdatePlaying.throwTimer sampleInput (UpdatePlaying.winLose c) ∧
      ¬ (c.player.health ≤ 0 ∧ c.enemies.aliveCount ≤ 0) ∧
      (c.enemies.aliveCount ≤ 0 →
        c.player.health = startedGame.player.health ∧ 0 < c.player.health) ∧
      (game'.state = GameState.STATE_GAME_OVER ↔ c.player.health ≤ 0) ∧
      (game'.state = GameState.STATE_VICTORY ↔ c.enemies.aliveCount ≤ 0) ∧
      (game'.state = GameState.STATE_PLAYING ↔
        0 < c.player.health ∧ 0 < c.enemies.aliveCount) :=
  have hr : Reachable sampleLibm sampleRand sampleCamera startedGame :=
    Reachable.step menuGame_reachable startedGame_spec.1
  ⟨hr, startedGame_spec.2,
    c20_win_lose_exclusive sampleLibm sampleRand sampleCamera startedGame hr startedGame_spec.2
      sampleInput⟩

end FrisbeeTakedown
